import Mathlib

/-!
Notification delivery pipeline: worker, sender registry and idempotency ledger.

A shallow embedding of `internal/infrastructure/kafka/consumer.go`
(the body of the worker goroutine in `ConsumerHandler.ConsumeClaim`),
`internal/infrastructure/notification/notification.go` (`NotificationSender.Send`),
the two idempotency methods of `internal/infrastructure/database/repository.go`,
`internal/infrastructure/ratelimit/retelimit.go` (`RateLimiter`),
`internal/infrastructure/notification/email/email.go` (`smtpPool`, `EmailSender`),
`internal/application/service/notification-service.go` (`SendNotification`), the listing
of `repository.go` and `internal/presentation/grpc/handler.go` (`GetAllNotifications`),
and `internal/infrastructure/redis/redis.go` (`SaveOTP`, `GetOTP`). The rate library
`golang.org/x/time/rate`, which the repository only calls, is kept abstract where the
code of the repository is concerned and has a token-bucket model, after its
documentation, where its timing is.

The collaborators the worker reaches through Go interfaces (repository, sender
strategies) are state transformers over an arbitrary world state `σ`; every call the
worker makes is recorded, in program order, in a trace of events, each paired with the
world state in which it was issued. One worker goroutine is modelled, processing the
messages it receives one after another. The job queue of the handler has a model of its
own, in which the goroutine of `ConsumeClaim` and the workers take turns under a schedule
and the body of a worker is one step.
-/

namespace NotificationSrv

/-! ## Domain (`internal/domain`) -/

/-- Go `error` values, identified by their message text; `nil` is `none : Option GoError`. -/
abbrev GoError := String

def ErrOTPNotFound : GoError := "OTP not found"
def ErrOTPExpired : GoError := "OTP has expired"
def ErrRateLimit : GoError := "rate limit exceeded"
def ErrDatabase : GoError := "database error"
def ErrKafkaProduce : GoError := "failed to produce Kafka message"
def ErrEmailSend : GoError := "failed to send email"
def ErrAlreadyProcessed : GoError := "notification already processed"
def ErrNotFound : GoError := "notification not found"
def ErrUnauthorized : GoError := "unauthorized access to resource"

/-- The Go type `domain.NotificationType`, a named string type. -/
abbrev NotificationType := String

def EmailNotification : NotificationType := "email"
def InAppNotification : NotificationType := "inapp"
def OTPNotification : NotificationType := "otp"

/-- The Go struct `domain.Notification`; `Type_` is the Go field `Type`, `CreatedAt` a
time stamp in nanoseconds. -/
structure Notification where
  ID : String
  UserId : String
  Type_ : NotificationType
  Subject : String
  Body : String
  Recipient : String
  IsRead : Bool
  CreatedAt : Int
deriving DecidableEq, Repr

/-- The Go struct `domain.ProcessedNotification`: one idempotency marker. In the table
`NotificationId` is the primary key. -/
structure ProcessedNotification where
  NotificationId : String
  CreatedAt : Int
deriving DecidableEq, Repr

/-- A Go `context.Context`, reduced to what a callee can observe of it. -/
structure Context where
  deadline : Option Int
  cancelled : Bool
deriving DecidableEq, Repr

/-- The Go value `context.Background()`: never cancelled, no deadline. -/
def Context.Background : Context := { deadline := none, cancelled := false }

/-- The Go struct `sarama.ConsumerMessage`, with the fields the worker reads. -/
structure ConsumerMessage where
  Topic : String
  Partition : Int
  Offset : Int
  Value : String
deriving DecidableEq, Repr

/-! ## Collaborator interfaces -/

/-- The two idempotency methods of the interface `domain.NotificationRepository`.
`CheckIfProcessed` returns the Go pair `(bool, error)`. -/
structure NotificationRepository (σ : Type) where
  CheckIfProcessed : Context → String → σ → (Bool × Option GoError) × σ
  MarkAsProcessed : Context → String → σ → Option GoError × σ

/-- The interface `notification.SenderStrategy`. -/
structure SenderStrategy (σ : Type) where
  Send : Context → Notification → σ → Option GoError × σ

/-- The struct `notification.NotificationSender`; the Go map `strategies` is a partial
function, `none` standing for an absent key. -/
structure NotificationSender (σ : Type) where
  strategies : NotificationType → Option (SenderStrategy σ)

/-- The error `fmt.Errorf("no strategy found for notification type: %s", t)`. -/
def noStrategyError (t : NotificationType) : GoError :=
  "no strategy found for notification type: " ++ t

/-- The method `NotificationSender.Send` (notification.go, lines 26-33). -/
def NotificationSender.Send {σ : Type} (s : NotificationSender σ) (ctx : Context)
    (notification : Notification) (w : σ) : Option GoError × σ :=
  match s.strategies notification.Type_ with
  | none => (some (noStrategyError notification.Type_), w)
  | some strategy => strategy.Send ctx notification w

/-- The struct `kafka.ConsumerHandler`, without its logger, channel and wait group. -/
structure ConsumerHandler (σ : Type) where
  repo : NotificationRepository σ
  sender : NotificationSender σ
  workers : Int
  retries : Int

/-! ## Events and traces -/

inductive LogLevel where
  | Info
  | Warn
  | Error
deriving DecidableEq, Repr

/-- One observable action of the worker. A call event carries the result the callee
returned. Of a zap log entry the level, the message and the `zap.Error` field are kept. -/
inductive Event where
  | checkIfProcessed (id : String) (processed : Bool) (err : Option GoError)
  | send (notification : Notification) (err : Option GoError)
  | sleep (d : Int)
  | markAsProcessed (id : String) (err : Option GoError)
  | markMessage (msg : ConsumerMessage)
  | log (level : LogLevel) (text : String) (err : Option GoError)
deriving DecidableEq, Repr

/-- A run: the events in program order, each with the world state it was issued in. -/
abbrev Trace (σ : Type) := List (σ × Event)

/-- The events of a run, states dropped. -/
def events {σ : Type} (t : Trace σ) : List Event := t.map Prod.snd

def Event.isSend : Event → Bool
  | Event.send _ _ => true
  | _ => false

def Event.isFailedSend : Event → Bool
  | Event.send _ (some _) => true
  | _ => false

def Event.isCheckIfProcessed : Event → Bool
  | Event.checkIfProcessed _ _ _ => true
  | _ => false

def Event.isMarkAsProcessed : Event → Bool
  | Event.markAsProcessed _ _ => true
  | _ => false

def Event.isMarkMessage : Event → Bool
  | Event.markMessage _ => true
  | _ => false

def Event.isSleep : Event → Bool
  | Event.sleep _ => true
  | _ => false

def Event.isLog : Event → Bool
  | Event.log _ _ _ => true
  | _ => false

/-- A call to the idempotency store that returned an error. -/
def Event.isStoreError : Event → Bool
  | Event.checkIfProcessed _ _ (some _) => true
  | Event.markAsProcessed _ (some _) => true
  | _ => false

/-- Number of `Send` calls in an event list. -/
def sendCount (es : List Event) : Nat := (es.filter Event.isSend).length

/-- Number of `MarkAsProcessed` calls in an event list. -/
def markCount (es : List Event) : Nat := (es.filter Event.isMarkAsProcessed).length

/-- Number of `session.MarkMessage` calls in an event list. -/
def ackCount (es : List Event) : Nat := (es.filter Event.isMarkMessage).length

/-- Number of `time.Sleep` calls in an event list. -/
def sleepCount (es : List Event) : Nat := (es.filter Event.isSleep).length

/-! ## The worker (`consumer.go`, lines 59-107) -/

/-- The constant `time.Second`, in nanoseconds. -/
def Second : Int := 1000000000

/-- The argument of `time.Sleep` on line 95, `time.Second * time.Duration(attempt)`, in
nanoseconds. The product is kept exact: the 64-bit wrap-around of `time.Duration` lies
beyond nine thousand million attempts. -/
def backoffDelay (attempt : Int) : Int := Second * attempt

/-- The retry loop of lines 82-96, entered with the loop variable equal to `attempt`.
`break` leaves the loop; `continue` on line 93 belongs to this inner `for`, so it runs
the post statement `attempt++` and tests the loop condition again. The Go `int` loop
variable is an unbounded integer here: `attempt++` could only wrap if `retries` were the
largest `int`. -/
def retryLoop {σ : Type} (h : ConsumerHandler σ) (notification : Notification)
    (attempt : Int) (w : σ) : Trace σ × σ :=
  if attempt ≤ h.retries then
    match h.sender.Send Context.Background notification w with
    | (none, w1) => ([(w, Event.send notification none)], w1)
    | (some err, w1) =>
      if attempt = h.retries then
        let r := retryLoop h notification (attempt + 1) w1
        ((w, Event.send notification (some err))
          :: (w1, Event.log LogLevel.Warn "Failed to send notification, retrying" (some err))
          :: (w1, Event.log LogLevel.Error "Failed to send notification after retries" (some err))
          :: r.1, r.2)
      else
        let r := retryLoop h notification (attempt + 1) w1
        ((w, Event.send notification (some err))
          :: (w1, Event.log LogLevel.Warn "Failed to send notification, retrying" (some err))
          :: (w1, Event.sleep (backoffDelay attempt))
          :: r.1, r.2)
  else ([], w)
termination_by (h.retries + 1 - attempt).toNat
decreasing_by all_goals (simp_wf; omega)

/-- One iteration of `for msg := range h.jobs` (lines 59-107): what the worker does with
one message. `jsonUnmarshal` is `json.Unmarshal` into a `domain.Notification`. Each
`continue` outside the retry loop ends the iteration. -/
def processMessage {σ : Type} (jsonUnmarshal : String → Except GoError Notification)
    (h : ConsumerHandler σ) (msg : ConsumerMessage) (w : σ) : Trace σ × σ :=
  match jsonUnmarshal msg.Value with
  | Except.error err =>
    ([(w, Event.log LogLevel.Error "Failed to un-marshall notification" (some err))], w)
  | Except.ok notification =>
    match h.repo.CheckIfProcessed Context.Background notification.ID w with
    | ((processed, some err), w1) =>
      ([(w, Event.checkIfProcessed notification.ID processed (some err)),
        (w1, Event.log LogLevel.Error "Failed to check if notification processed" (some err))], w1)
    | ((true, none), w1) =>
      ([(w, Event.checkIfProcessed notification.ID true none),
        (w1, Event.log LogLevel.Warn "Notification already processed" none)], w1)
    | ((false, none), w1) =>
      let r := retryLoop h notification 1 w1
      match h.repo.MarkAsProcessed Context.Background notification.ID r.2 with
      | (some err, w3) =>
        ((w, Event.checkIfProcessed notification.ID false none) :: r.1 ++
          [(r.2, Event.markAsProcessed notification.ID (some err)),
           (w3, Event.log LogLevel.Error "Failed to mark notification as processed" (some err))], w3)
      | (none, w3) =>
        ((w, Event.checkIfProcessed notification.ID false none) :: r.1 ++
          [(r.2, Event.markAsProcessed notification.ID none),
           (w3, Event.markMessage msg),
           (w3, Event.log LogLevel.Info "Notification processed" none)], w3)

/-- The loop `for msg := range h.jobs` of one worker goroutine over the messages it
receives, in order, until the channel is closed. -/
def workerLoop {σ : Type} (jsonUnmarshal : String → Except GoError Notification)
    (h : ConsumerHandler σ) : List ConsumerMessage → σ → Trace σ × σ
  | [], w => ([], w)
  | msg :: rest, w =>
    let r1 := processMessage jsonUnmarshal h msg w
    let r2 := workerLoop jsonUnmarshal h rest r1.2
    (r1.1 ++ r2.1, r2.2)

/-- The delays of the `time.Sleep` calls of an event list, in order. -/
def delays : List Event → List Int
  | [] => []
  | Event.sleep d :: rest => d :: delays rest
  | _ :: rest => delays rest

/-- The delay slept before the next `Send` call, if any: the first `time.Sleep` of an
event list that precedes every `Send` in it. -/
def nextSleep : List Event → Option Int
  | [] => none
  | Event.sleep d :: _ => some d
  | Event.send _ _ :: _ => none
  | _ :: rest => nextSleep rest

/-- The send attempts of an event list, in order: the result of each `Send` call and the
delay slept between it and the following `Send` call (or the end of the list). -/
def attempts : List Event → List (Option GoError × Option Int)
  | [] => []
  | Event.send _ r :: rest => (r, nextSleep rest) :: attempts rest
  | _ :: rest => attempts rest

/-- The world state after `k` consecutive `Send` calls for `notification`, from `w`. -/
def stateAfterSends {σ : Type} (h : ConsumerHandler σ) (notification : Notification)
    (w : σ) : Nat → σ
  | 0 => w
  | k + 1 =>
    (h.sender.Send Context.Background notification (stateAfterSends h notification w k)).2

/-! ## The idempotency ledger (`repository.go`, lines 141-170) -/

/-- What a gorm statement on the table `processed_notifications` can report. -/
inductive GormError where
  | ErrRecordNotFound
  | uniqueViolation
  | unavailable
deriving DecidableEq, Repr

/-- The database as the repository sees it: the rows of `processed_notifications` and a
script of availability faults, one entry consumed by each statement (`true`: the
statement fails without touching the table; an exhausted script means no fault). -/
structure DB where
  processed_notifications : List ProcessedNotification
  faults : List Bool
deriving DecidableEq, Repr

/-- The notification ids that have a marker in the ledger. -/
def DB.processedIds (db : DB) : List String :=
  db.processed_notifications.map ProcessedNotification.NotificationId

/-- The database once the next entry of the fault script is consumed. -/
def DB.advance (db : DB) : DB := { db with faults := db.faults.tail }

/-- The gorm query `Where("notification_id = ?", id).First(&processed)`. -/
def DB.First (db : DB) (notificationID : String) :
    Except GormError ProcessedNotification × DB :=
  if db.faults.head? = some true then (Except.error GormError.unavailable, db.advance)
  else
    match db.processed_notifications.find? (fun row => row.NotificationId == notificationID) with
    | some row => (Except.ok row, db.advance)
    | none => (Except.error GormError.ErrRecordNotFound, db.advance)

/-- The gorm statement `Create(&processed)`; `NotificationId` is the primary key of the
table (struct tag `primaryKey`), so a second row with the same id is rejected. -/
def DB.Create (db : DB) (row : ProcessedNotification) : Option GormError × DB :=
  if db.faults.head? = some true then (some GormError.unavailable, db.advance)
  else if row.NotificationId ∈ db.processedIds then
    (some GormError.uniqueViolation, db.advance)
  else
    (none, { db.advance with
      processed_notifications := db.processed_notifications ++ [row] })

/-- The method `Repository.CheckIfProcessed` (lines 141-156); its log entry is not
modelled. -/
def Repository.CheckIfProcessed (_ctx : Context) (notificationID : String) (db : DB) :
    (Bool × Option GoError) × DB :=
  match db.First notificationID with
  | (Except.error GormError.ErrRecordNotFound, db1) => ((false, none), db1)
  | (Except.error _, db1) => ((false, some ErrDatabase), db1)
  | (Except.ok _, db1) => ((true, none), db1)

/-- The method `Repository.MarkAsProcessed` (lines 158-170); `now` is the reading of
`time.Now()`, its log entry is not modelled. -/
def Repository.MarkAsProcessed (_ctx : Context) (notificationID : String) (now : Int)
    (db : DB) : Option GoError × DB :=
  let processed : ProcessedNotification :=
    { NotificationId := notificationID, CreatedAt := now }
  match db.Create processed with
  | (some _, db1) => (some ErrDatabase, db1)
  | (none, db1) => (none, db1)

/-- The world of a pipeline whose repository is `database.Repository`: the database, the
clock reading and the state of whatever the sender strategies talk to. -/
structure PipelineWorld (σs : Type) where
  db : DB
  clock : Int
  senders : σs

/-- The `database.Repository` behind the interface `domain.NotificationRepository`. -/
def Repository.asInterface (σs : Type) : NotificationRepository (PipelineWorld σs) :=
  { CheckIfProcessed := fun ctx id w =>
      ((Repository.CheckIfProcessed ctx id w.db).1,
        { w with db := (Repository.CheckIfProcessed ctx id w.db).2 })
    MarkAsProcessed := fun ctx id w =>
      ((Repository.MarkAsProcessed ctx id w.clock w.db).1,
        { w with db := (Repository.MarkAsProcessed ctx id w.clock w.db).2 }) }

/-- A sender strategy that acts on the sender part of the world only. -/
def SenderStrategy.onPipeline {σs : Type} (s : SenderStrategy σs) :
    SenderStrategy (PipelineWorld σs) :=
  { Send := fun ctx n w =>
      ((s.Send ctx n w.senders).1, { w with senders := (s.Send ctx n w.senders).2 }) }

/-- The handler `ConsumeNotifications` builds when the repository is
`database.Repository`, for an arbitrary registry of strategies. -/
def pipelineHandler {σs : Type} (strategies : NotificationType → Option (SenderStrategy σs))
    (workers retries : Int) : ConsumerHandler (PipelineWorld σs) :=
  { repo := Repository.asInterface σs
    sender := { strategies := fun t => (strategies t).map SenderStrategy.onPipeline }
    workers := workers
    retries := retries }

/-! ## A concrete pipeline, as wired in `cmd/server/main.go` -/

/-- A channel sender whose successive results are scripted: each `Send` returns the next
entry of the script, and succeeds once the script is exhausted. -/
def scriptedSender : SenderStrategy (List (Option GoError)) :=
  { Send := fun _ _ script => (script.head?.getD none, script.tail) }

/-- The registry of `main.go`: a sender for `email` only. -/
def mainStrategies : NotificationType → Option (SenderStrategy (List (Option GoError))) :=
  fun t => if t = EmailNotification then some scriptedSender else none

/-- The handler of `main.go` (5 workers) with retry limit `retries`; `main.go` passes 3. -/
def mainHandler (retries : Int) : ConsumerHandler (PipelineWorld (List (Option GoError))) :=
  pipelineHandler mainStrategies 5 retries

/-- A stand-in for `json.Unmarshal` on three payloads: `n1` decodes to an email
notification, `p1` to a push notification, anything else is malformed. -/
def sampleUnmarshal (value : String) : Except GoError Notification :=
  if value = "n1" then
    Except.ok { ID := "n1", UserId := "u1", Type_ := EmailNotification, Subject := "hello",
                Body := "body", Recipient := "a@b.com", IsRead := false, CreatedAt := 0 }
  else if value = "p1" then
    Except.ok { ID := "p1", UserId := "u1", Type_ := "push", Subject := "hello",
                Body := "body", Recipient := "device-1", IsRead := false, CreatedAt := 0 }
  else Except.error "invalid character in payload"

/-- The email notification `sampleUnmarshal` decodes `n1` to. -/
def sampleEmail : Notification :=
  { ID := "n1", UserId := "u1", Type_ := EmailNotification, Subject := "hello",
    Body := "body", Recipient := "a@b.com", IsRead := false, CreatedAt := 0 }

/-- The push notification `sampleUnmarshal` decodes `p1` to. -/
def samplePush : Notification :=
  { ID := "p1", UserId := "u1", Type_ := "push", Subject := "hello",
    Body := "body", Recipient := "device-1", IsRead := false, CreatedAt := 0 }

/-- A stream record with the given payload. -/
def sampleMessage (value : String) (offset : Int) : ConsumerMessage :=
  { Topic := "email-notifications", Partition := 0, Offset := offset, Value := value }

/-- A world with the given ledger rows, fault script and send script. -/
def sampleWorld (rows : List ProcessedNotification) (faults : List Bool)
    (script : List (Option GoError)) : PipelineWorld (List (Option GoError)) :=
  { db := { processed_notifications := rows, faults := faults }, clock := 1700000000,
    senders := script }

/-- The record carrying the email notification `n1`. -/
def emailMessage : ConsumerMessage := sampleMessage "n1" 7

/-- Retry limit 3, healthy store, a sender that fails on each of its three attempts. -/
def exhaustedRun : Trace (PipelineWorld (List (Option GoError))) ×
    PipelineWorld (List (Option GoError)) :=
  processMessage sampleUnmarshal (mainHandler 3) emailMessage
    (sampleWorld [] [] [some ErrEmailSend, some ErrEmailSend, some ErrEmailSend])

/-- Retry limit 3, healthy store, a sender that fails twice and then succeeds. -/
def thirdTimeRun : Trace (PipelineWorld (List (Option GoError))) ×
    PipelineWorld (List (Option GoError)) :=
  processMessage sampleUnmarshal (mainHandler 3) emailMessage
    (sampleWorld [] [] [some ErrEmailSend, some ErrEmailSend])

/-- Retry limit 3, healthy store, a sender that succeeds at once. -/
def deliveredRun : Trace (PipelineWorld (List (Option GoError))) ×
    PipelineWorld (List (Option GoError)) :=
  processMessage sampleUnmarshal (mainHandler 3) emailMessage (sampleWorld [] [] [])

/-- Retry limit 3, the ledger already holds a marker for `n1`. -/
def duplicateRun : Trace (PipelineWorld (List (Option GoError))) ×
    PipelineWorld (List (Option GoError)) :=
  processMessage sampleUnmarshal (mainHandler 3) emailMessage
    (sampleWorld [{ NotificationId := "n1", CreatedAt := 1600000000 }] [] [])

/-- Retry limit 3, a push notification: no sender is registered for its type. -/
def unsupportedRun : Trace (PipelineWorld (List (Option GoError))) ×
    PipelineWorld (List (Option GoError)) :=
  processMessage sampleUnmarshal (mainHandler 3) (sampleMessage "p1" 8) (sampleWorld [] [] [])

/-- Retry limit 3, the database fails on the first statement (the idempotency check). -/
def storeDownRun : Trace (PipelineWorld (List (Option GoError))) ×
    PipelineWorld (List (Option GoError)) :=
  processMessage sampleUnmarshal (mainHandler 3) emailMessage (sampleWorld [] [true] [])

/-- Retry limit 3, the database fails on the second statement (the marker insert). -/
def markFailsRun : Trace (PipelineWorld (List (Option GoError))) ×
    PipelineWorld (List (Option GoError)) :=
  processMessage sampleUnmarshal (mainHandler 3) emailMessage (sampleWorld [] [false, true] [])

/-- One worker, retry limit 3, over a malformed record, the email `n1` and `n1` again. -/
def batchRun : Trace (PipelineWorld (List (Option GoError))) ×
    PipelineWorld (List (Option GoError)) :=
  workerLoop sampleUnmarshal (mainHandler 3)
    [sampleMessage "garbage" 6, emailMessage, sampleMessage "n1" 9] (sampleWorld [] [] [])

/-! ## The sender registry with its calls recorded (`notification.go`) -/

/-- One invocation of a registered strategy: the registry key it is registered under,
and the context and notification it was called with. -/
structure SendCall where
  key : NotificationType
  ctx : Context
  notification : Notification
deriving DecidableEq, Repr

/-- The strategy `s`, registered under `key`, with every invocation appended to a call
log kept next to the world state. -/
def SenderStrategy.recorded {σ : Type} (key : NotificationType) (s : SenderStrategy σ) :
    SenderStrategy (σ × List SendCall) :=
  { Send := fun ctx n w =>
      ((s.Send ctx n w.1).1,
        ((s.Send ctx n w.1).2, w.2 ++ [{ key := key, ctx := ctx, notification := n }])) }

/-- A registry whose strategies all record their invocations. -/
def NotificationSender.recorded {σ : Type} (s : NotificationSender σ) :
    NotificationSender (σ × List SendCall) :=
  { strategies := fun t => (s.strategies t).map (SenderStrategy.recorded t) }

/-! ## The rate limiter (`ratelimit/retelimit.go`) -/

/-- A Go `float64`, kept as its bit pattern: the repository stores and forwards the rate
and never computes with it. -/
structure Float64 where
  bits : Nat
deriving DecidableEq, Repr

/-- A `*rate.Limiter` of `golang.org/x/time/rate`: the parameters it was created with
and its internal state, of a type `τ` the library owns. -/
structure Limiter (τ : Type) where
  limit : Float64
  burst : Int
  state : τ

/-- The two functions of `golang.org/x/time/rate` the repository calls. The library is
not part of the repository: `NewLimiter` and `Wait` are arbitrary, `Wait` returning
the error of `limiter.Wait(ctx)` and the limiter as the call leaves it. -/
structure RateLib (τ : Type) where
  NewLimiter : Float64 → Int → Limiter τ
  Wait : Context → Limiter τ → Option GoError × Limiter τ

/-- The struct `ratelimit.RateLimiter`, without its mutex; the Go map `limiters` is a
partial function. -/
structure RateLimiter (τ : Type) where
  limiters : String → Option (Limiter τ)
  rate : Float64
  burst : Int

/-- The constructor `NewRateLimiter` (lines 18-24). -/
def NewRateLimiter {τ : Type} (rates : Float64) (burst : Int) : RateLimiter τ :=
  { limiters := fun _ => none, rate := rates, burst := burst }

/-- The bucket `Allow` waits on: the one the map holds for `key`, or a new one made with
the limiter's own rate and burst (lines 28-32). -/
def RateLimiter.bucket {τ : Type} (lib : RateLib τ) (r : RateLimiter τ) (key : String) :
    Limiter τ :=
  match r.limiters key with
  | some limiter => limiter
  | none => lib.NewLimiter r.rate r.burst

/-- The method `RateLimiter.Allow` (lines 26-39). The map holds a pointer, so the entry of
`key` is the bucket as `Wait` leaves it. -/
def RateLimiter.Allow {τ : Type} (lib : RateLib τ) (r : RateLimiter τ) (ctx : Context)
    (key : String) : Option GoError × RateLimiter τ :=
  let limiter := r.bucket lib key
  match lib.Wait ctx limiter with
  | (some _, limiter1) =>
    (some ErrRateLimit,
      { r with limiters := fun k => if k = key then some limiter1 else r.limiters k })
  | (none, limiter1) =>
    (none, { r with limiters := fun k => if k = key then some limiter1 else r.limiters k })

/-- The keys that have a bucket. -/
def RateLimiter.hasBucket {τ : Type} (r : RateLimiter τ) (key : String) : Bool :=
  (r.limiters key).isSome

/-! ## SMTP connections and the connection pool (`notification/email/email.go`) -/

/-- What has happened so far to one `*smtp.Client`: the address it was dialed to and
whether `StartTLS`, `Auth`, `Quit` have succeeded on it and `Close` was called. A
successful `Quit` ends the session and closes the connection. -/
structure ClientState where
  addr : String
  tls : Bool
  authed : Bool
  quit : Bool
  closed : Bool
deriving DecidableEq, Repr

/-- The connection has neither been quit nor closed. -/
def ClientState.isOpen (c : ClientState) : Bool := !c.quit && !c.closed

/-- A live authenticated transport handle: dialed, TLS-upgraded, authenticated and not
yet quit or closed. -/
def ClientState.live (c : ClientState) : Bool := c.tls && c.authed && !c.quit && !c.closed

/-- The SMTP side of the world: every client dialed so far (a client is named by its
index) and a script of the outcomes of the network operations to come, one entry
consumed by each operation (an exhausted script means success). -/
structure SmtpNet where
  outcomes : List (Option GoError)
  clients : List ClientState
deriving DecidableEq, Repr

/-- The outcome of the next network operation. -/
def SmtpNet.next (net : SmtpNet) : Option GoError := net.outcomes.head?.getD none

/-- The network once the next outcome is consumed. -/
def SmtpNet.advance (net : SmtpNet) : SmtpNet := { net with outcomes := net.outcomes.tail }

/-- The list with its element at position `i`, if any, replaced by its image under `f`. -/
def updateAt {α : Type} (f : α → α) : Nat → List α → List α
  | _, [] => []
  | 0, a :: l => f a :: l
  | i + 1, a :: l => a :: updateAt f i l

/-- The network with the state of one client changed. -/
def SmtpNet.update (net : SmtpNet) (client : Nat) (f : ClientState → ClientState) : SmtpNet :=
  { net with clients := updateAt f client net.clients }

/-- Whether `client` is a live authenticated handle. -/
def SmtpNet.isLive (net : SmtpNet) (client : Nat) : Bool :=
  match net.clients[client]? with
  | some c => c.live
  | none => false

/-- Whether `client` has been dialed and neither quit nor closed. -/
def SmtpNet.isOpen (net : SmtpNet) (client : Nat) : Bool :=
  match net.clients[client]? with
  | some c => c.isOpen
  | none => false

/-- The library call `smtp.Dial(addr)`. -/
def smtpDial (addr : String) (net : SmtpNet) : Except GoError Nat × SmtpNet :=
  match net.next with
  | some err => (Except.error err, net.advance)
  | none =>
    (Except.ok net.clients.length,
      { net.advance with
        clients := net.clients ++
          [{ addr := addr, tls := false, authed := false, quit := false, closed := false }] })

/-- The library call `client.StartTLS(config)`. -/
def Client.StartTLS (client : Nat) (net : SmtpNet) : Option GoError × SmtpNet :=
  match net.next with
  | some err => (some err, net.advance)
  | none => (none, net.advance.update client (fun c => { c with tls := true }))

/-- The library call `client.Auth(auth)`. -/
def Client.Auth (client : Nat) (net : SmtpNet) : Option GoError × SmtpNet :=
  match net.next with
  | some err => (some err, net.advance)
  | none => (none, net.advance.update client (fun c => { c with authed := true }))

/-- The library call `client.Close()`; the repository ignores its result. -/
def Client.Close (client : Nat) (net : SmtpNet) : SmtpNet :=
  net.update client (fun c => { c with closed := true })

/-- The library call `client.Quit()`. -/
def Client.Quit (client : Nat) (net : SmtpNet) : Option GoError × SmtpNet :=
  match net.next with
  | some err => (some err, net.advance)
  | none => (none, net.advance.update client (fun c => { c with quit := true }))

/-- A command of the mail transaction (`Mail`, `Rcpt`, `Data`, `Write`, `Close` of the
data writer): it succeeds or fails and leaves the state of the client as it is. -/
def Client.command (net : SmtpNet) : Option GoError × SmtpNet := (net.next, net.advance)

/-- One call made by `EmailSender.Send` or by the pool, with its result. The log entries
of `EmailSender.Send` are not modelled. -/
inductive SmtpEvent where
  | allow (key : String) (err : Option GoError)
  | dial (addr : String) (client : Option Nat) (err : Option GoError)
  | startTLS (client : Nat) (serverName : String) (err : Option GoError)
  | auth (client : Nat) (err : Option GoError)
  | close (client : Nat)
  | poolGet (client : Option Nat) (err : Option GoError)
  | mail (client : Nat) (sender : String) (err : Option GoError)
  | rcpt (client : Nat) (addr : String) (err : Option GoError)
  | data (client : Nat) (err : Option GoError)
  | write (client : Nat) (bytes : String) (err : Option GoError)
  | dataClose (client : Nat) (err : Option GoError)
  | quit (client : Nat) (err : Option GoError)
  | poolPut (client : Nat)
deriving DecidableEq, Repr

/-- The value `smtp.PlainAuth(identity, username, password, host)`. -/
structure PlainAuth where
  identity : String
  username : String
  password : String
  host : String
deriving DecidableEq, Repr

/-- The struct `smtpPool`, without its mutex. The buffered channel `conns` is the queue
of the clients it holds, oldest first, with its capacity. -/
structure smtpPool where
  conns : List Nat
  capacity : Nat
  host : String
  auth : PlainAuth
deriving DecidableEq, Repr

/-- The loop of `newSMTPPool` (lines 40-57) with `remaining` iterations to go. -/
def newSMTPPool.fill (pool : smtpPool) (addr : String) :
    Nat → SmtpNet → Except GoError smtpPool × SmtpNet × List SmtpEvent
  | 0, net => (Except.ok pool, net, [])
  | remaining + 1, net =>
    match smtpDial addr net with
    | (Except.error err, net1) =>
      (Except.error err, net1, [SmtpEvent.dial addr none (some err)])
    | (Except.ok client, net1) =>
      match Client.StartTLS client net1 with
      | (some err, net2) =>
        (Except.error err, Client.Close client net2,
          [SmtpEvent.dial addr (some client) none,
           SmtpEvent.startTLS client pool.host (some err),
           SmtpEvent.close client])
      | (none, net2) =>
        match Client.Auth client net2 with
        | (some err, net3) =>
          (Except.error err, Client.Close client net3,
            [SmtpEvent.dial addr (some client) none,
             SmtpEvent.startTLS client pool.host none,
             SmtpEvent.auth client (some err),
             SmtpEvent.close client])
        | (none, net3) =>
          let r := newSMTPPool.fill { pool with conns := pool.conns ++ [client] } addr
            remaining net3
          (r.1, r.2.1,
            SmtpEvent.dial addr (some client) none
              :: SmtpEvent.startTLS client pool.host none
              :: SmtpEvent.auth client none
              :: r.2.2)

/-- The constructor `newSMTPPool` (lines 33-59). The size is a natural number: `make`
panics on a negative one. -/
def newSMTPPool (host port username password : String) (size : Nat) (net : SmtpNet) :
    Except GoError smtpPool × SmtpNet × List SmtpEvent :=
  newSMTPPool.fill
    { conns := [], capacity := size, host := host,
      auth := { identity := "", username := username, password := password, host := host } }
    (host ++ ":" ++ port) size net

/-- The method `smtpPool.Get` (lines 61-83): a `select` with a `default` branch. -/
def smtpPool.Get (p : smtpPool) (net : SmtpNet) :
    Except GoError Nat × smtpPool × SmtpNet × List SmtpEvent :=
  match p.conns with
  | client :: rest => (Except.ok client, { p with conns := rest }, net, [])
  | [] =>
    match smtpDial (p.host ++ ":587") net with
    | (Except.error err, net1) =>
      (Except.error err, p, net1, [SmtpEvent.dial (p.host ++ ":587") none (some err)])
    | (Except.ok client, net1) =>
      match Client.StartTLS client net1 with
      | (some err, net2) =>
        (Except.error err, p, Client.Close client net2,
          [SmtpEvent.dial (p.host ++ ":587") (some client) none,
           SmtpEvent.startTLS client p.host (some err),
           SmtpEvent.close client])
      | (none, net2) =>
        match Client.Auth client net2 with
        | (some err, net3) =>
          (Except.error err, p, Client.Close client net3,
            [SmtpEvent.dial (p.host ++ ":587") (some client) none,
             SmtpEvent.startTLS client p.host none,
             SmtpEvent.auth client (some err),
             SmtpEvent.close client])
        | (none, net3) =>
          (Except.ok client, p, net3,
            [SmtpEvent.dial (p.host ++ ":587") (some client) none,
             SmtpEvent.startTLS client p.host none,
             SmtpEvent.auth client none])

/-- The method `smtpPool.Put` (lines 85-91): a `select` with a `default` branch; the send
on the channel goes through exactly when the buffer has room. -/
def smtpPool.Put (p : smtpPool) (client : Nat) (net : SmtpNet) :
    smtpPool × SmtpNet × List SmtpEvent :=
  if p.conns.length < p.capacity then
    ({ p with conns := p.conns ++ [client] }, net, [])
  else
    (p, Client.Close client net, [SmtpEvent.close client])

/-- A call on the pool. -/
inductive PoolOp where
  | get
  | put (client : Nat)
deriving DecidableEq, Repr

/-- The pool and the network after a sequence of `Get` and `Put` calls. -/
def runPoolOps : List PoolOp → smtpPool → SmtpNet → smtpPool × SmtpNet
  | [], p, net => (p, net)
  | PoolOp.get :: ops, p, net =>
    runPoolOps ops (smtpPool.Get p net).2.1 (smtpPool.Get p net).2.2.1
  | PoolOp.put client :: ops, p, net =>
    runPoolOps ops (smtpPool.Put p client net).1 (smtpPool.Put p client net).2.1

/-! ## The email sender (`notification/email/email.go`, lines 93-197) -/

/-- The struct `email.Email` of the library `github.com/jordan-wright/email`, the
reusable message builder; a nil slice is the empty list or the empty string. -/
structure Email where
  ReplyTo : List String
  From : String
  To : List String
  Bcc : List String
  Cc : List String
  Subject : String
  Text : String
  HTML : String
  Sender : String
  Headers : List (String × List String)
  Attachments : List String
  ReadReceipt : List String
deriving DecidableEq, Repr

/-- The library call `email.NewEmail()`: a builder with nothing set. -/
def NewEmail : Email :=
  { ReplyTo := [], From := "", To := [], Bcc := [], Cc := [], Subject := "", Text := "",
    HTML := "", Sender := "", Headers := [], Attachments := [], ReadReceipt := [] }

/-- The field `emailPool`, a `sync.Pool` of builders: the builders it holds and a script
of the choices `Get` makes, one entry consumed by each `Get`. `Get` hands out the held
builder at the chosen position, or a new builder when there is none at that position. -/
structure BuilderPool where
  items : List Email
  picks : List Nat
deriving DecidableEq, Repr

/-- The call `e.emailPool.Get()` with `New` set to `email.NewEmail` (lines 110-114). -/
def BuilderPool.Get (bp : BuilderPool) : Email × BuilderPool :=
  match bp.items[bp.picks.head?.getD 0]? with
  | some msg =>
    (msg, { items := bp.items.eraseIdx (bp.picks.head?.getD 0), picks := bp.picks.tail })
  | none => (NewEmail, { bp with picks := bp.picks.tail })

/-- The call `e.emailPool.Put(msg)`. -/
def BuilderPool.Put (bp : BuilderPool) (msg : Email) : BuilderPool :=
  { bp with items := msg :: bp.items }

/-- The configuration fields of the struct `EmailSender`. -/
structure EmailSender where
  smtpHost : String
  smtpPort : String
  username : String
  password : String
deriving DecidableEq, Repr

/-- The mutable fields of the struct `EmailSender` and the network they act on. -/
structure EmailWorld (τ : Type) where
  net : SmtpNet
  pool : smtpPool
  ratelimiter : RateLimiter τ
  emailPool : BuilderPool

/-- The constant 10 as a `float64`. -/
def Float64.ten : Float64 := { bits := 4621819117588971520 }

/-- The constructor `NewEmailSender` (lines 93-116): a pool of 5 connections, a rate
limiter of 10 per second with burst 20, an empty builder pool. Next to its result it
returns the network as the construction leaves it. -/
def NewEmailSender {τ : Type} (smtpHost smtpPort username password : String)
    (picks : List Nat) (net : SmtpNet) :
    Except GoError (EmailSender × EmailWorld τ) × SmtpNet × List SmtpEvent :=
  match newSMTPPool smtpHost smtpPort username password 5 net with
  | (Except.error err, net1, evs) => (Except.error err, net1, evs)
  | (Except.ok pool, net1, evs) =>
    (Except.ok
      ({ smtpHost := smtpHost, smtpPort := smtpPort, username := username,
         password := password },
       { net := net1, pool := pool, ratelimiter := NewRateLimiter Float64.ten 20,
         emailPool := { items := [], picks := picks } }),
      net1, evs)

/-- The assignments of the first deferred function (lines 130-134). -/
def EmailSender.reset (msg : Email) : Email :=
  { msg with From := "", To := [], Subject := "", Text := "", HTML := "" }

/-- The assignments of lines 137-140. -/
def EmailSender.fillIn (e : EmailSender) (notification : Notification) (msg : Email) : Email :=
  { msg with From := e.username, To := [notification.Recipient],
             Subject := notification.Subject, HTML := notification.Body }

/-- The loop over `msg.To` (lines 168-173). -/
def EmailSender.rcptAll (client : Nat) :
    List String → SmtpNet → Option GoError × SmtpNet × List SmtpEvent
  | [], net => (none, net, [])
  | addr :: rest, net =>
    match Client.command net with
    | (some err, net1) => (some err, net1, [SmtpEvent.rcpt client addr (some err)])
    | (none, net1) =>
      let r := EmailSender.rcptAll client rest net1
      (r.1, r.2.1, SmtpEvent.rcpt client addr none :: r.2.2)

/-- The mail transaction of lines 163-196, up to the `return` that ends it. `bytes` is the
library method `msg.Bytes()`, taken as a function of the builder: the date and the
message id the library generates are not modelled. -/
def EmailSender.transaction (bytes : Email → Except GoError String) (e : EmailSender)
    (msg : Email) (client : Nat) (net : SmtpNet) :
    Option GoError × SmtpNet × List SmtpEvent :=
  match Client.command net with
  | (some err, net1) => (some err, net1, [SmtpEvent.mail client e.username (some err)])
  | (none, net1) =>
    match EmailSender.rcptAll client msg.To net1 with
    | (some err, net2, evs) => (some err, net2, SmtpEvent.mail client e.username none :: evs)
    | (none, net2, evs) =>
      match Client.command net2 with
      | (some err, net3) =>
        (some err, net3,
          SmtpEvent.mail client e.username none :: evs ++ [SmtpEvent.data client (some err)])
      | (none, net3) =>
        match bytes msg with
        | Except.error err =>
          (some err, net3,
            SmtpEvent.mail client e.username none :: evs ++ [SmtpEvent.data client none])
        | Except.ok d =>
          match Client.command net3 with
          | (some err, net4) =>
            (some err, net4,
              SmtpEvent.mail client e.username none :: evs ++
                [SmtpEvent.data client none, SmtpEvent.write client d (some err)])
          | (none, net4) =>
            match Client.command net4 with
            | (some err, net5) =>
              (some err, net5,
                SmtpEvent.mail client e.username none :: evs ++
                  [SmtpEvent.data client none, SmtpEvent.write client d none,
                   SmtpEvent.dataClose client (some err)])
            | (none, net5) =>
              (none, net5,
                SmtpEvent.mail client e.username none :: evs ++
                  [SmtpEvent.data client none, SmtpEvent.write client d none,
                   SmtpEvent.dataClose client none])

/-- The method `EmailSender.Send` (lines 118-197). The deferred functions run when the
method returns, the second one (quit the client, put it back) before the first (reset
the builder, put it back). -/
def EmailSender.Send {τ : Type} (lib : RateLib τ) (bytes : Email → Except GoError String)
    (e : EmailSender) (ctx : Context) (notification : Notification) (w : EmailWorld τ) :
    Option GoError × EmailWorld τ × List SmtpEvent :=
  match RateLimiter.Allow lib w.ratelimiter ctx notification.Recipient with
  | (some err, rl) =>
    (some err, { w with ratelimiter := rl },
      [SmtpEvent.allow notification.Recipient (some err)])
  | (none, rl) =>
    let got := w.emailPool.Get
    let msg := e.fillIn notification got.1
    match smtpPool.Get w.pool w.net with
    | (Except.error err, p1, net1, evs) =>
      (some err,
        { net := net1, pool := p1, ratelimiter := rl,
          emailPool := got.2.Put (EmailSender.reset msg) },
        SmtpEvent.allow notification.Recipient none :: evs ++
          [SmtpEvent.poolGet none (some err)])
    | (Except.ok client, p1, net1, evs) =>
      let t := EmailSender.transaction bytes e msg client net1
      let q := Client.Quit client t.2.1
      let r := smtpPool.Put p1 client q.2
      (t.1,
        { net := r.2.1, pool := r.1, ratelimiter := rl,
          emailPool := got.2.Put (EmailSender.reset msg) },
        SmtpEvent.allow notification.Recipient none :: evs ++
          [SmtpEvent.poolGet (some client) none] ++ t.2.2 ++
          [SmtpEvent.quit client q.1, SmtpEvent.poolPut client] ++ r.2.2)

/-- Consecutive `Send` calls, one per notification, each with the events it produced. -/
def EmailSender.sendAll {τ : Type} (lib : RateLib τ) (bytes : Email → Except GoError String)
    (e : EmailSender) (ctx : Context) :
    List Notification → EmailWorld τ → List (Notification × List SmtpEvent) × EmailWorld τ
  | [], w => ([], w)
  | n :: rest, w =>
    let r := EmailSender.Send lib bytes e ctx n w
    let rs := EmailSender.sendAll lib bytes e ctx rest r.2.1
    ((n, r.2.2) :: rs.1, rs.2)

/-- The message `Send` builds for a notification from a builder with nothing set. -/
def EmailSender.compose (e : EmailSender) (notification : Notification) : Email :=
  e.fillIn notification NewEmail

/-- The clients a `Send` acquired from the pool, in order. -/
def acquired : List SmtpEvent → List Nat
  | [] => []
  | SmtpEvent.poolGet (some client) _ :: rest => client :: acquired rest
  | _ :: rest => acquired rest

/-- The clients `Quit` was called on, in order. -/
def quits : List SmtpEvent → List Nat
  | [] => []
  | SmtpEvent.quit client _ :: rest => client :: quits rest
  | _ :: rest => quits rest

/-- The clients handed to `smtpPool.Put`, in order. -/
def puts : List SmtpEvent → List Nat
  | [] => []
  | SmtpEvent.poolPut client :: rest => client :: puts rest
  | _ :: rest => puts rest

/-- The events by which a `Send` takes a client from the pool, quits it or hands it back. -/
def SmtpEvent.isLifecycle : SmtpEvent → Bool
  | SmtpEvent.poolGet _ _ => true
  | SmtpEvent.quit _ _ => true
  | SmtpEvent.poolPut _ => true
  | _ => false

/-- The payloads written to a data writer, in order. -/
def written : List SmtpEvent → List String
  | [] => []
  | SmtpEvent.write _ bytes _ :: rest => bytes :: written rest
  | _ :: rest => written rest

/-- The envelope senders given to `Mail`, in order. -/
def mailedFrom : List SmtpEvent → List String
  | [] => []
  | SmtpEvent.mail _ sender _ :: rest => sender :: mailedFrom rest
  | _ :: rest => mailedFrom rest

/-- The envelope recipients given to `Rcpt`, in order. -/
def recipients : List SmtpEvent → List String
  | [] => []
  | SmtpEvent.rcpt _ addr _ :: rest => addr :: recipients rest
  | _ :: rest => recipients rest

/-- The events of opening and closing a connection. -/
def SmtpEvent.isConnect : SmtpEvent → Bool
  | SmtpEvent.dial _ _ _ => true
  | SmtpEvent.startTLS _ _ _ => true
  | SmtpEvent.auth _ _ => true
  | SmtpEvent.close _ => true
  | _ => false

/-- The events of a mail transaction. -/
def SmtpEvent.isTransaction : SmtpEvent → Bool
  | SmtpEvent.mail _ _ _ => true
  | SmtpEvent.rcpt _ _ _ => true
  | SmtpEvent.data _ _ => true
  | SmtpEvent.write _ _ _ => true
  | SmtpEvent.dataClose _ _ => true
  | _ => false

/-- Every builder the pool holds is as `email.NewEmail()` makes it. -/
def BuilderPool.blank (bp : BuilderPool) : Prop := ∀ msg ∈ bp.items, msg = NewEmail

/-! ## A concrete email sender -/

/-- A stand-in for `golang.org/x/time/rate`: a limiter counts its `Wait` calls and a
`Wait` fails exactly when the context is cancelled. -/
def sampleLib : RateLib Nat :=
  { NewLimiter := fun limit burst => { limit := limit, burst := burst, state := 0 }
    Wait := fun ctx limiter =>
      (if ctx.cancelled then some "context canceled" else none,
        { limiter with state := limiter.state + 1 }) }

/-- A stand-in for `msg.Bytes()`: the fields the sender writes, separated by bars. -/
def sampleBytes (msg : Email) : Except GoError String :=
  Except.ok (msg.From ++ "|" ++ String.intercalate "," msg.To ++ "|" ++ msg.Subject ++ "|"
    ++ msg.Text ++ "|" ++ msg.HTML)

/-- A network on which nothing has been dialed and every operation succeeds. -/
def freshNet : SmtpNet := { outcomes := [], clients := [] }

/-- A client as `newSMTPPool` leaves it in the pool. -/
def pooledClient : ClientState :=
  { addr := "smtp.example.com:587", tls := true, authed := true, quit := false,
    closed := false }

/-- The sender `NewEmailSender` returns for the host `smtp.example.com`. -/
def sampleSender : EmailSender :=
  { smtpHost := "smtp.example.com", smtpPort := "587", username := "noreply@example.com",
    password := "secret" }

/-- The pool `NewEmailSender` builds on `freshNet`. -/
def builtPool : smtpPool :=
  { conns := [0, 1, 2, 3, 4], capacity := 5, host := "smtp.example.com",
    auth := { identity := "", username := "noreply@example.com", password := "secret",
              host := "smtp.example.com" } }

/-- The world `NewEmailSender` builds on `freshNet`: five live clients, all in the pool. -/
def builtWorld : EmailWorld Nat :=
  { net := { outcomes := [],
             clients := [pooledClient, pooledClient, pooledClient, pooledClient, pooledClient] }
    pool := builtPool
    ratelimiter := NewRateLimiter Float64.ten 20
    emailPool := { items := [], picks := [] } }

/-- One successful `Send` of the sample email from the world just built. -/
def afterOneSend : Option GoError × EmailWorld Nat × List SmtpEvent :=
  EmailSender.Send sampleLib sampleBytes sampleSender Context.Background sampleEmail builtWorld

/-- A network whose second `Dial` is refused. -/
def secondDialRefused : SmtpNet :=
  { outcomes := [none, none, none, some "dial tcp: connection refused"], clients := [] }

/-- The construction of the sender on a network whose second `Dial` is refused. -/
def failedBuild : Except GoError (EmailSender × EmailWorld Nat) × SmtpNet × List SmtpEvent :=
  NewEmailSender "smtp.example.com" "587" "noreply@example.com" "secret" [] secondDialRefused

/-- The world just built, on a network that refuses the next command. -/
def mailRefusedWorld : EmailWorld Nat :=
  { builtWorld with
    net := { builtWorld.net with outcomes := [some "421 service not available"] } }

/-- A `Send` whose `MAIL` command is refused. -/
def afterRefusedSend : Option GoError × EmailWorld Nat × List SmtpEvent :=
  EmailSender.Send sampleLib sampleBytes sampleSender Context.Background sampleEmail
    mailRefusedWorld

/-- Two consecutive sends, of the sample email and of the sample push notification. -/
def twoSends : List (Notification × List SmtpEvent) × EmailWorld Nat :=
  EmailSender.sendAll sampleLib sampleBytes sampleSender Context.Background
    [sampleEmail, samplePush] builtWorld

/-! ## The job queue of the handler (`consumer.go`, lines 54-117 and 146-167) -/

/-- A run-time panic of the Go channel operations. -/
inductive GoPanic where
  | sendOnClosedChannel
  | closeOfClosedChannel
deriving DecidableEq, Repr

/-- The channel `h.jobs`: the messages it buffers (oldest first), its capacity and whether
`close` was called on it. -/
structure JobsChannel where
  buffer : List ConsumerMessage
  capacity : Nat
  closed : Bool
deriving DecidableEq, Repr

/-- The statement `h.jobs <- msg`: a panic on a closed channel, `none` while the buffer is
full (the sender stays blocked), the channel with `msg` appended otherwise. -/
def JobsChannel.send (ch : JobsChannel) (msg : ConsumerMessage) :
    Except GoPanic (Option JobsChannel) :=
  if ch.closed then Except.error GoPanic.sendOnClosedChannel
  else if ch.buffer.length < ch.capacity then
    Except.ok (some { ch with buffer := ch.buffer ++ [msg] })
  else Except.ok none

/-- The statement `close(h.jobs)`. -/
def JobsChannel.close (ch : JobsChannel) : Except GoPanic JobsChannel :=
  if ch.closed then Except.error GoPanic.closeOfClosedChannel
  else Except.ok { ch with closed := true }

/-- One receive of `for msg := range h.jobs`: the oldest buffered message; `some none` once
the channel is closed and drained (the loop ends); `none` while the channel is open and
empty (the receiver stays blocked). -/
def JobsChannel.receive (ch : JobsChannel) : Option (Option ConsumerMessage × JobsChannel) :=
  match ch.buffer with
  | msg :: rest => some (some msg, { ch with buffer := rest })
  | [] => if ch.closed then some (none, ch) else none

/-- A worker goroutine started on line 57: at the receive of `range h.jobs`, in the loop
body with a message, or past the loop and its deferred `h.wg.Done()`. -/
inductive WorkerState where
  | receiving
  | busy (msg : ConsumerMessage)
  | done
deriving DecidableEq, Repr

/-- What the goroutines of one handler share: the channel `h.jobs`, the counter of the
wait group `h.wg`, the worker goroutines started so far and, in order of completion, the
messages whose loop body has finished. -/
structure HandlerState where
  jobs : JobsChannel
  wg : Int
  goroutines : List WorkerState
  handled : List ConsumerMessage
deriving DecidableEq, Repr

/-- The handler as `ConsumeNotifications` creates it (lines 152-159):
`jobs: make(chan *sarama.ConsumerMessage, 100)`, a zero wait group, no goroutine yet. -/
def newHandlerState : HandlerState :=
  { jobs := { buffer := [], capacity := 100, closed := false }, wg := 0, goroutines := [],
    handled := [] }

/-- Where the goroutine that runs `ConsumeClaim` stands: in the spawn loop of lines 55-110
with `left` iterations to go, in the feed loop of lines 111-113 with the messages the
claim still delivers, at `close(h.jobs)` (line 116), at `return nil` (line 117), returned,
or stopped by a panic. -/
inductive ClaimState where
  | spawning (left : Nat) (messages : List ConsumerMessage)
  | feeding (messages : List ConsumerMessage)
  | closing
  | returning
  | returned
  | panicked (p : GoPanic)
deriving DecidableEq, Repr

/-- The entry of `ConsumeClaim` for a claim that delivers `messages` and then ends. -/
def ConsumeClaim.start (workers : Int) (messages : List ConsumerMessage) : ClaimState :=
  ClaimState.spawning workers.toNat messages

/-- One statement of the goroutine that runs `ConsumeClaim` (lines 55-57 and 111-117). A
blocked send leaves everything as it is. -/
def ConsumeClaim.step (c : ClaimState) (s : HandlerState) : ClaimState × HandlerState :=
  match c with
  | ClaimState.spawning (left + 1) messages =>
    (ClaimState.spawning left messages,
      { s with wg := s.wg + 1, goroutines := s.goroutines ++ [WorkerState.receiving] })
  | ClaimState.spawning 0 messages => (ClaimState.feeding messages, s)
  | ClaimState.feeding (msg :: rest) =>
    match s.jobs.send msg with
    | Except.error p => (ClaimState.panicked p, s)
    | Except.ok none => (ClaimState.feeding (msg :: rest), s)
    | Except.ok (some jobs) => (ClaimState.feeding rest, { s with jobs := jobs })
  | ClaimState.feeding [] => (ClaimState.closing, s)
  | ClaimState.closing =>
    match s.jobs.close with
    | Except.error p => (ClaimState.panicked p, s)
    | Except.ok jobs => (ClaimState.returning, { s with jobs := jobs })
  | ClaimState.returning => (ClaimState.returned, s)
  | ClaimState.returned => (ClaimState.returned, s)
  | ClaimState.panicked p => (ClaimState.panicked p, s)

/-- One step of the worker goroutine number `i` (lines 58-107): a receive from `h.jobs`,
or the end of the loop body for the message it holds (what the body does with the message
is `processMessage`; here only its completion is recorded). A blocked receive leaves
everything as it is; leaving the loop runs the deferred `h.wg.Done()`. -/
def workerStep (i : Nat) (s : HandlerState) : HandlerState :=
  match s.goroutines.get? i with
  | none => s
  | some WorkerState.done => s
  | some (WorkerState.busy msg) =>
    { s with goroutines := s.goroutines.set i WorkerState.receiving,
             handled := s.handled ++ [msg] }
  | some WorkerState.receiving =>
    match s.jobs.receive with
    | none => s
    | some (some msg, jobs) =>
      { s with jobs := jobs, goroutines := s.goroutines.set i (WorkerState.busy msg) }
    | some (none, jobs) =>
      { s with jobs := jobs, wg := s.wg - 1,
               goroutines := s.goroutines.set i WorkerState.done }

/-- Whose turn the Go scheduler gives next: the goroutine of `ConsumeClaim` or a worker. -/
inductive Turn where
  | claim
  | worker (i : Nat)
deriving DecidableEq, Repr

/-- One invocation of `ConsumeClaim` and the workers of the handler, interleaved as the
schedule says. -/
def ConsumeClaim.run : List Turn → ClaimState × HandlerState → ClaimState × HandlerState
  | [], cs => cs
  | Turn.claim :: rest, cs => ConsumeClaim.run rest (ConsumeClaim.step cs.1 cs.2)
  | Turn.worker i :: rest, cs => ConsumeClaim.run rest (cs.1, workerStep i cs.2)

/-- The topics `ConsumeNotifications` subscribes to (lines 148-151). -/
def ConsumeNotifications.topics : List String :=
  ["email-notifications", "sms-notifications", "push-notifications"]

/-- The loop of `ConsumeNotifications` (lines 161-167) as the handler sees it: the
successive `ConsumeClaim` invocations that `Consume` makes on the one handler, each with
the messages of its claim and the schedule under which it runs. A panic ends the process;
the result lists how each invocation ended. -/
def ConsumeNotifications.invocations (workers : Int) :
    List (List ConsumerMessage × List Turn) → HandlerState → List ClaimState × HandlerState
  | [], s => ([], s)
  | (messages, schedule) :: rest, s =>
    match ConsumeClaim.run schedule (ConsumeClaim.start workers messages, s) with
    | (ClaimState.panicked p, s1) => ([ClaimState.panicked p], s1)
    | (c, s1) =>
      let r := ConsumeNotifications.invocations workers rest s1
      (c :: r.1, r.2)

/-- The schedule that gives the goroutine of `ConsumeClaim` `k` turns in a row. -/
def claimTurns (k : Nat) : List Turn := List.replicate k Turn.claim

/-! ## The notification service and its table (`notification-service.go`, `repository.go`, `producer.go`) -/

/-- What the notification service acts on: the rows of the table `notifications` in the
order of their insertion, a script of availability faults of the database (one entry
consumed by each statement, `true`: the statement fails), the values the coming
`uuid.New().String()` calls return, the reading of `time.Now()`, the records the broker
has accepted as pairs of topic and payload, and the results of the coming
`SendMessage` calls of the sarama producer (`none`: accepted). -/
structure ServiceWorld where
  notifications : List Notification
  faults : List Bool
  uuids : List String
  now : Int
  produced : List (String × String)
  kafkaOutcomes : List (Option GoError)
deriving DecidableEq, Repr

/-- The call `uuid.New().String()`: the next value of the script (the nil UUID once the
script is exhausted). -/
def ServiceWorld.newUUID (w : ServiceWorld) : String × ServiceWorld :=
  (w.uuids.head?.getD "00000000-0000-0000-0000-000000000000", { w with uuids := w.uuids.tail })

/-- The world once the next entry of the fault script is consumed. -/
def ServiceWorld.advance (w : ServiceWorld) : ServiceWorld := { w with faults := w.faults.tail }

/-- The gorm statement `Create(&notification)`; `ID` is the primary key of the table
(struct tag `primaryKey`). -/
def ServiceWorld.Create (w : ServiceWorld) (row : Notification) :
    Option GormError × ServiceWorld :=
  if w.faults.head? = some true then (some GormError.unavailable, w.advance)
  else if row.ID ∈ w.notifications.map Notification.ID then
    (some GormError.uniqueViolation, w.advance)
  else (none, { w.advance with notifications := w.notifications ++ [row] })

/-- The method `Repository.SaveNotification` (repository.go, lines 40-50); its log entries
are not modelled, and `CreatedAt` is stored as given (gorm fills it in only when it is the
zero time, and the service always sets it). -/
def Repository.SaveNotification (_ctx : Context) (notification : Notification)
    (w : ServiceWorld) : Option GoError × ServiceWorld :=
  let r := if notification.ID = "" then
      ({ notification with ID := w.newUUID.1 }, w.newUUID.2)
    else (notification, w)
  match r.2.Create r.1 with
  | (some _, w1) => (some ErrDatabase, w1)
  | (none, w1) => (none, w1)

/-- The method `Producer.Produce` (producer.go, lines 57-81): nothing is sent once the
context is done (`ctx.cancelled`, with `ctx.Err()` rendered as `context canceled`);
otherwise the record goes to the broker, which accepts or refuses it. -/
def Producer.Produce (ctx : Context) (topic : String) (message : String) (w : ServiceWorld) :
    Option GoError × ServiceWorld :=
  if ctx.cancelled then (some "context canceled", w)
  else
    match w.kafkaOutcomes.head?.getD none with
    | some err => (some err, { w with kafkaOutcomes := w.kafkaOutcomes.tail })
    | none =>
      (none, { w with kafkaOutcomes := w.kafkaOutcomes.tail,
                      produced := w.produced ++ [(topic, message)] })

/-- The topic of line 106, `notifyType + "-notifications"`. -/
def SendNotification.topic (notifyType : NotificationType) : String :=
  notifyType ++ "-notifications"

/-- The notification types the service defines (the constants of `domain/notification.go`,
lines 26-30). -/
def definedTypes : List NotificationType :=
  [EmailNotification, InAppNotification, OTPNotification]

/-- The method `NotificationService.SendNotification` (notification-service.go, lines
82-117), with `kafka.Producer` as its producer; `jsonMarshal` is `json.Marshal` on a
`domain.Notification`. The fields of the struct literal are evaluated in source order, so
`ID` takes the first generated UUID and `UserId` the second (line 85 reads
`UserId: uuid.New().String(),// userId,`); the parameter `userId` reaches the log entry
of lines 111-114 only, and log entries are not modelled. An error of `SaveNotification`
is logged only. -/
def NotificationService.SendNotification (jsonMarshal : Notification → Except GoError String)
    (ctx : Context) (_userId recipient subject body : String) (notifyType : NotificationType)
    (w : ServiceWorld) : Option GoError × ServiceWorld :=
  let w1 := w.newUUID.2
  let w2 := w1.newUUID.2
  let notification : Notification :=
    { ID := w.newUUID.1, UserId := w1.newUUID.1, Subject := subject, Type_ := notifyType,
      Body := body, Recipient := recipient, IsRead := false, CreatedAt := w2.now }
  let w3 := (Repository.SaveNotification ctx notification w2).2
  match jsonMarshal notification with
  | Except.error err => (some err, w3)
  | Except.ok msg =>
    match Producer.Produce ctx (SendNotification.topic notifyType) msg w3 with
    | (some _, w4) => (some ErrKafkaProduce, w4)
    | (none, w4) => (none, w4)

/-- The method `NotificationService.SendEmailNotification` (lines 140-142). -/
def NotificationService.SendEmailNotification
    (jsonMarshal : Notification → Except GoError String) (ctx : Context)
    (userId recipient subject body : String) (w : ServiceWorld) :
    Option GoError × ServiceWorld :=
  NotificationService.SendNotification jsonMarshal ctx userId recipient subject body
    EmailNotification w

/-- The method `NotificationService.SendInAppNotification` (lines 60-81): the sibling of
`SendNotification` that saves the notification and publishes nothing. -/
def NotificationService.SendInAppNotification (ctx : Context)
    (userId recipient subject body : String) (notifyType : NotificationType)
    (w : ServiceWorld) : Option GoError × ServiceWorld :=
  let w1 := w.newUUID.2
  let notification : Notification :=
    { ID := w.newUUID.1, UserId := userId, Subject := subject, Type_ := notifyType,
      Body := body, Recipient := recipient, IsRead := false, CreatedAt := w1.now }
  (none, (Repository.SaveNotification ctx notification w1).2)

/-- Insertion of a row into a list ordered by `created_at DESC`, after the rows that are
not older than it. -/
def insertByCreatedAtDesc (row : Notification) : List Notification → List Notification
  | [] => [row]
  | r :: rest =>
    if r.CreatedAt < row.CreatedAt then row :: r :: rest
    else r :: insertByCreatedAtDesc row rest

/-- The clause `Order("created_at DESC")`. -/
def orderByCreatedAtDesc : List Notification → List Notification
  | [] => []
  | row :: rest => insertByCreatedAtDesc row (orderByCreatedAtDesc rest)

/-- The clauses `Offset(offset).Limit(limit)` as gorm builds them: `OFFSET` is written
for a positive offset only, `LIMIT` for a limit that is not negative. -/
def offsetLimit (rows : List Notification) (offset limit : Int) : List Notification :=
  let skipped := if 0 < offset then rows.drop offset.toNat else rows
  if 0 ≤ limit then skipped.take limit.toNat else skipped

/-- The offset of line 89, `(page - 1) * pageSize`. -/
def pageOffset (page pageSize : Int) : Int := (page - 1) * pageSize

/-- The method `Repository.GetAllNotifications` (repository.go, lines 71-102). The query
is narrowed by `user_id`, and by `is_read` when `isRead` is not nil; the parameter
`notifyType` is not read anywhere in the body. The third component is the returned
error. -/
def Repository.GetAllNotifications (_ctx : Context) (userId : String) (page pageSize : Int)
    (isRead : Option Bool) (_notifyType : Option String) (w : ServiceWorld) :
    (List Notification × Int × Option GoError) × ServiceWorld :=
  let byUser := w.notifications.filter (fun n => n.UserId == userId)
  let query := match isRead with
    | some b => byUser.filter (fun n => n.IsRead == b)
    | none => byUser
  if w.faults.head? = some true then (([], 0, some ErrDatabase), w.advance)
  else
    let total : Int := query.length
    let w1 := w.advance
    let offset := pageOffset page pageSize
    if w1.faults.head? = some true then (([], 0, some ErrDatabase), w1.advance)
    else ((offsetLimit (orderByCreatedAtDesc query) offset pageSize, total, none), w1.advance)

/-- The method `NotificationService.GetAllNotifications` (notification-service.go, lines
131-138): the repository's answer, passed on. -/
def NotificationService.GetAllNotifications (ctx : Context) (userId : String)
    (page pageSize : Int) (isRead : Option Bool) (notifyType : Option String)
    (w : ServiceWorld) : (List Notification × Int × Option GoError) × ServiceWorld :=
  match Repository.GetAllNotifications ctx userId page pageSize isRead notifyType w with
  | ((_, _, some err), w1) => (([], 0, some err), w1)
  | ((notifications, total, none), w1) => ((notifications, total, none), w1)

/-- The generated struct `proto.GetAllNotificationsRequest`, with the fields the handler
reads; `Page` and `PageSize` are integer fields (the handler converts them with
`int(...)`), `Type_` is the Go field `Type`. -/
structure GetAllNotificationsRequest where
  UserId : String
  Page : Int
  PageSize : Int
  IsRead : Bool
  Type_ : String
deriving DecidableEq, Repr

/-- The arguments of the call `h.notificationService.GetAllNotifications(ctx, req.UserId,
page, pageSize, isRead, notifyType)` on line 165 of handler.go. -/
structure GetAllNotificationsCall where
  userId : String
  page : Int
  pageSize : Int
  isRead : Option Bool
  notifyType : Option String
deriving DecidableEq, Repr

/-- Lines 147-163 of `Handler.GetAllNotifications`: the arguments the handler computes
from the request. Line 154 reads `page = 10` under the test `pageSize < 1`. -/
def Handler.GetAllNotifications.arguments (req : GetAllNotificationsRequest) :
    GetAllNotificationsCall :=
  let page := req.Page
  let page := if page < 1 then 1 else page
  let pageSize := req.PageSize
  let page := if pageSize < 1 then 10 else page
  let isRead := if req.IsRead then some req.IsRead else none
  let notifyType := if req.Type_ ≠ "" then some req.Type_ else none
  { userId := req.UserId, page := page, pageSize := pageSize, isRead := isRead,
    notifyType := notifyType }

/-- The generated struct `proto.GetAllNotificationsResponse`; the conversions to `int32`
of its three numbers are left out. -/
structure GetAllNotificationsResponse where
  Notifications : List Notification
  Total : Int
  Page : Int
  PageSize : Int
deriving DecidableEq, Repr

/-- The method `Handler.GetAllNotifications` (handler.go, lines 146-189). -/
def Handler.GetAllNotifications (ctx : Context) (req : GetAllNotificationsRequest)
    (w : ServiceWorld) : Except GoError GetAllNotificationsResponse × ServiceWorld :=
  let call := Handler.GetAllNotifications.arguments req
  match NotificationService.GetAllNotifications ctx call.userId call.page call.pageSize
      call.isRead call.notifyType w with
  | ((_, _, some err), w1) => (Except.error err, w1)
  | ((notifications, total, none), w1) =>
    (Except.ok { Notifications := notifications, Total := total, Page := call.page,
                 PageSize := call.pageSize }, w1)

/-! ## The OTP store (`redis/redis.go`) -/

/-- The Go struct `domain.OTP`; `ExpiresAt` is an instant in nanoseconds. -/
structure OTP where
  Code : String
  Email : String
  UserId : String
  ExpiresAt : Int
deriving DecidableEq, Repr

/-- The zero value `domain.OTP{}`. -/
def OTP.zero : OTP := { Code := "", Email := "", UserId := "", ExpiresAt := 0 }

/-- The error of a go-redis command: the sentinel `redis.Nil` (no such key) or any other
error. -/
inductive RedisError where
  | Nil
  | other (msg : String)
deriving DecidableEq, Repr

/-- The text of a go-redis error. -/
def RedisError.Error : RedisError → GoError
  | RedisError.Nil => "redis: nil"
  | RedisError.other msg => msg

/-- One key of the Redis server with its value and the instant at which it expires. -/
structure RedisEntry where
  key : String
  value : String
  expiresAt : Int
deriving DecidableEq, Repr

/-- The Redis server as the client sees it: its keys, the reading of the clock, and a
script of faults (one entry consumed by each command, `true`: the command fails, as it
does when the server is unreachable or the context is done). -/
structure RedisStore where
  entries : List RedisEntry
  now : Int
  faults : List Bool
deriving DecidableEq, Repr

/-- The store once the next entry of the fault script is consumed. -/
def RedisStore.advance (rs : RedisStore) : RedisStore := { rs with faults := rs.faults.tail }

/-- The same store at a later reading of the clock. -/
def RedisStore.atTime (rs : RedisStore) (t : Int) : RedisStore := { rs with now := t }

/-- The command `client.SetEx(ctx, key, value, expiration).Err()`: go-redis sends the
expiration in whole seconds (one second for anything shorter), and the server refuses an
expiration that is not positive. -/
def RedisStore.SetEx (rs : RedisStore) (key value : String) (expiration : Int) :
    Option RedisError × RedisStore :=
  if rs.faults.head? = some true then
    (some (RedisError.other "dial tcp: connection refused"), rs.advance)
  else if expiration ≤ 0 then
    (some (RedisError.other "ERR invalid expire time in setex command"), rs.advance)
  else
    let seconds := if expiration < Second then 1 else expiration / Second
    (none, { rs.advance with
      entries := rs.entries.filter (fun e => e.key != key) ++
        [{ key := key, value := value, expiresAt := rs.now + seconds * Second }] })

/-- The command `client.Get(ctx, key).Bytes()`: the Go pair of the data and the error,
`redis.Nil` for a key that is absent or has expired. -/
def RedisStore.Get (rs : RedisStore) (key : String) :
    (String × Option RedisError) × RedisStore :=
  if rs.faults.head? = some true then
    (("", some (RedisError.other "dial tcp: connection refused")), rs.advance)
  else
    match rs.entries.find? (fun e => e.key == key && decide (rs.now < e.expiresAt)) with
    | some e => ((e.value, none), rs.advance)
    | none => (("", some RedisError.Nil), rs.advance)

/-- The method `RedisClient.SaveOTP` (redis.go, lines 34-49); `jsonMarshal` is
`json.Marshal` on a `domain.OTP`, `time.Until(otp.ExpiresAt)` is `otp.ExpiresAt` less the
reading of the clock. -/
def RedisClient.SaveOTP (jsonMarshal : OTP → Except GoError String) (_ctx : Context)
    (otp : OTP) (rs : RedisStore) : Option GoError × RedisStore :=
  match jsonMarshal otp with
  | Except.error err => (some err, rs)
  | Except.ok data =>
    let duration := otp.ExpiresAt - rs.now
    match rs.SetEx ("otp:" ++ otp.Email) data duration with
    | (some err, rs1) => (some err.Error, rs1)
    | (none, rs1) => (none, rs1)

/-- The method `RedisClient.GetOTP` (redis.go, lines 51-75), statement by statement;
`jsonUnmarshal` is `json.Unmarshal` into a `domain.OTP`. The first test is the one of
line 53, `if err != redis.Nil`. -/
def RedisClient.GetOTP (jsonUnmarshal : String → Except GoError OTP) (_ctx : Context)
    (email : String) (rs : RedisStore) : (OTP × Option GoError) × RedisStore :=
  let r := rs.Get ("otp:" ++ email)
  let data := r.1.1
  let err := r.1.2
  if err ≠ some RedisError.Nil then
    ((OTP.zero, some ("OTP not found for email: " ++ email)), r.2)
  else if err ≠ none then ((OTP.zero, err.map RedisError.Error), r.2)
  else
    match jsonUnmarshal data with
    | Except.error e => ((OTP.zero, some e), r.2)
    | Except.ok otp =>
      if otp.ExpiresAt < r.2.now then
        ((OTP.zero, some ("OTP expired for email: " ++ email)), r.2)
      else ((otp, none), r.2)

/-! ## Concrete inputs of the service, the listing and the OTP store -/

/-- A ledger that already holds a marker for `n1`, healthy. -/
def markedLedger : DB :=
  { processed_notifications := [{ NotificationId := "n1", CreatedAt := 1600000000 }],
    faults := [] }

/-- A second record, carrying the push notification `p1`. -/
def pushMessage : ConsumerMessage := sampleMessage "p1" 8

/-- A first `ConsumeClaim` invocation on the fresh handler of `main.go` (5 workers) whose
claim delivers `emailMessage` and ends, run without any worker getting a turn: five
iterations of the spawn loop, the end of that loop, one send, the end of the feed loop,
`close` and `return`. -/
def firstClaim : ClaimState × HandlerState :=
  ConsumeClaim.run (claimTurns 10) (ConsumeClaim.start 5 [emailMessage], newHandlerState)

/-- The same invocation when worker 0 receives the message before the feed loop ends:
the message is in that worker's loop body when `ConsumeClaim` returns. -/
def firstClaimInFlight : ClaimState × HandlerState :=
  ConsumeClaim.run (claimTurns 7 ++ [Turn.worker 0] ++ claimTurns 3)
    (ConsumeClaim.start 5 [emailMessage], newHandlerState)

/-- A schedule that lets `ConsumeClaim` run to its return and then every worker started
so far finish: worker 0 receives and handles the message, all ten leave their loop. -/
def drainSchedule : List Turn :=
  claimTurns 10 ++ [Turn.worker 0, Turn.worker 0] ++
    (List.range 10).map Turn.worker

/-- Two `ConsumeClaim` invocations on the one handler, as two rounds of the loop of
`ConsumeNotifications` make them; the second claim delivers a message. -/
def twoClaims : List ClaimState × HandlerState :=
  ConsumeNotifications.invocations 5
    [([emailMessage], drainSchedule), ([pushMessage], claimTurns 10)] newHandlerState

/-- Two `ConsumeClaim` invocations on the one handler; the second claim ends without
delivering a message. -/
def twoClaimsSecondEmpty : List ClaimState × HandlerState :=
  ConsumeNotifications.invocations 5
    [([emailMessage], drainSchedule), ([], claimTurns 10)] newHandlerState

/-- A stand-in for `json.Marshal` on a notification: its fields, separated by bars. -/
def sampleMarshal (n : Notification) : Except GoError String :=
  Except.ok (n.ID ++ "|" ++ n.UserId ++ "|" ++ n.Type_ ++ "|" ++ n.Subject ++ "|" ++ n.Body
    ++ "|" ++ n.Recipient)

/-- An empty table, a healthy database and broker, two UUIDs to hand out. -/
def emptyService : ServiceWorld :=
  { notifications := [], faults := [],
    uuids := ["1b4e28ba-2fa1-11d2-883f-0016d3cca427", "6fa459ea-ee8a-3ca4-894e-db77e160355e"],
    now := 1700000000, produced := [], kafkaOutcomes := [] }

/-- The call `SendNotification(ctx, "user-1", "a@b.com", "hello", "body", "email")` on the
empty service. -/
def sentToUser1 : Option GoError × ServiceWorld :=
  NotificationService.SendNotification sampleMarshal Context.Background "user-1" "a@b.com"
    "hello" "body" EmailNotification emptyService

/-- The same call through the sibling `SendInAppNotification`. -/
def savedForUser1 : Option GoError × ServiceWorld :=
  NotificationService.SendInAppNotification Context.Background "user-1" "a@b.com" "hello"
    "body" InAppNotification emptyService

/-- A row of the table `notifications` for the user `u1`. -/
def row (id : String) (t : NotificationType) (isRead : Bool) (createdAt : Int) : Notification :=
  { ID := id, UserId := "u1", Type_ := t, Subject := "hello", Body := "body",
    Recipient := "a@b.com", IsRead := isRead, CreatedAt := createdAt }

/-- A table with an email and an in-app notification of the user `u1`, both unread. -/
def twoTypes : ServiceWorld :=
  { notifications := [row "a" EmailNotification false 10, row "b" InAppNotification false 20],
    faults := [], uuids := [], now := 1700000000, produced := [], kafkaOutcomes := [] }

/-- The listing of `u1` with the type filter `email`: first page, ten rows a page. -/
def emailListing : (List Notification × Int × Option GoError) × ServiceWorld :=
  Repository.GetAllNotifications Context.Background "u1" 1 10 none (some EmailNotification)
    twoTypes

/-- A request for the first page with page size zero. -/
def zeroSizeRequest : GetAllNotificationsRequest :=
  { UserId := "u1", Page := 1, PageSize := 0, IsRead := false, Type_ := "" }

/-- A request for the first page with a negative page size. -/
def negativeSizeRequest : GetAllNotificationsRequest :=
  { UserId := "u1", Page := 1, PageSize := -5, IsRead := false, Type_ := "" }

/-- An OTP for `a@b.com` that expires at the instant 1700000300 s. -/
def sampleOTP : OTP :=
  { Code := "123456", Email := "a@b.com", UserId := "u1",
    ExpiresAt := 1700000300 * Second }

/-- A stand-in for `json.Marshal` on an OTP: its fields, separated by bars. -/
def sampleMarshalOTP (o : OTP) : Except GoError String :=
  Except.ok (o.Code ++ "|" ++ o.Email ++ "|" ++ o.UserId)

/-- A stand-in for `json.Unmarshal` into an OTP that decodes the sample OTP. -/
def sampleUnmarshalOTP (data : String) : Except GoError OTP :=
  if data = "123456|a@b.com|u1" then Except.ok sampleOTP
  else Except.error "invalid character in payload"

/-- An empty, healthy Redis server at the instant 1700000000 s. -/
def emptyRedis : RedisStore := { entries := [], now := 1700000000 * Second, faults := [] }

/-- The store after `SaveOTP(sampleOTP)`, five minutes before the OTP expires. -/
def afterSaveOTP : Option GoError × RedisStore :=
  RedisClient.SaveOTP sampleMarshalOTP Context.Background sampleOTP emptyRedis

/-- The call `GetOTP("a@b.com")` one minute after that `SaveOTP`. -/
def getAfterSave : (OTP × Option GoError) × RedisStore :=
  RedisClient.GetOTP sampleUnmarshalOTP Context.Background "a@b.com"
    (afterSaveOTP.2.atTime (1700000060 * Second))

/-- A sender configuration with a port other than 587. -/
def port2525 : Except GoError smtpPool × SmtpNet × List SmtpEvent :=
  newSMTPPool "smtp.example.com" "2525" "noreply@example.com" "secret" 1 freshNet

/-- The pool of `port2525` once its one connection has been taken out. -/
def emptied2525 : smtpPool :=
  { conns := [], capacity := 1, host := "smtp.example.com",
    auth := { identity := "", username := "noreply@example.com", password := "secret",
              host := "smtp.example.com" } }

/-- A `Get` on that empty pool, on the network `newSMTPPool` left behind. -/
def onDemand2525 : Except GoError Nat × smtpPool × SmtpNet × List SmtpEvent :=
  smtpPool.Get emptied2525 port2525.2.1

/-- Retry limit 0, healthy store, a sender that would fail if it were called. -/
def zeroRetriesRun : Trace (PipelineWorld (List (Option GoError))) ×
    PipelineWorld (List (Option GoError)) :=
  processMessage sampleUnmarshal (mainHandler 0) emailMessage
    (sampleWorld [] [] [some ErrEmailSend])

/-- Retry limit 0, the database fails on the second statement (the marker insert). -/
def zeroRetriesMarkFails : Trace (PipelineWorld (List (Option GoError))) ×
    PipelineWorld (List (Option GoError)) :=
  processMessage sampleUnmarshal (mainHandler 0) emailMessage
    (sampleWorld [] [false, true] [some ErrEmailSend])

/-! ## The token bucket of `golang.org/x/time/rate` -/

/-- The `float64` constant `math.MaxFloat64`, which the rate library uses as `rate.Inf`. -/
def Float64.maxFloat64 : Float64 := { bits := 9218868437227405311 }

/-- The exact value of the magnitude of a finite `float64`, from its exponent and mantissa
fields (IEEE 754 binary64). -/
def Float64.magnitude (x : Float64) : ℚ :=
  let exponent := x.bits / 2 ^ 52 % 2 ^ 11
  let mantissa := x.bits % 2 ^ 52
  let significand := if exponent = 0 then mantissa else 2 ^ 52 + mantissa
  let scale := if exponent = 0 then 1 else exponent
  if 1075 ≤ scale then ((significand * 2 ^ (scale - 1075) : Nat) : ℚ)
  else mkRat significand (2 ^ (1075 - scale))

/-- The rate a `rate.Limit` stands for, in tokens per second: `none` when it sets no limit
(`rate.Inf`, and the values `+Inf` and `NaN`, which the comparisons of the library let
through), otherwise its exact value, negative for a set sign bit (`-Inf` is rendered as
`-1`: rates that are not positive all behave alike). -/
def Float64.rate? (x : Float64) : Option ℚ :=
  let negative := x.bits / 2 ^ 63 % 2 = 1
  let exponent := x.bits / 2 ^ 52 % 2 ^ 11
  let mantissa := x.bits % 2 ^ 52
  if x = Float64.maxFloat64 then none
  else if exponent = 2047 then
    if mantissa = 0 ∧ negative then some (-1) else none
  else if negative then some (-x.magnitude)
  else some x.magnitude

/-- The state of a `*rate.Limiter`, as the documentation of the library describes it: a
token bucket of the size of the burst, full at first and refilled at the rate of the
limit. `tokens` is the content of the bucket at the instant `last` (in nanoseconds),
negative when tokens are owed to callers that wait; `delays` records, oldest first, how
long each `Wait` that succeeded has blocked its caller, in nanoseconds. -/
structure TokenBucket where
  tokens : ℚ
  last : Int
  delays : List Int
deriving DecidableEq, Repr

/-- The content of the bucket at the instant `now`: what it held at `last` and what the
rate `q` has added since, up to the size of the bucket. -/
def TokenBucket.refill (bucket : TokenBucket) (q : ℚ) (burst : Int) (now : Int) : ℚ :=
  min (burst : ℚ) (bucket.tokens + ((now - min now bucket.last : Int) : ℚ) * q / 10 ^ 9)

/-- The time it takes the rate `q` to make up a deficit of tokens, as a `time.Duration`:
whole nanoseconds, the fraction cut off. The library computes the quotient in `float64`;
it is exact here. -/
def waitDuration (q : ℚ) (deficit : ℚ) : Int := Rat.floor (deficit * 10 ^ 9 / q)

/-- The two functions of `golang.org/x/time/rate` the repository calls, for calls made at
the instant `now` (the reading of `time.Now()`, in nanoseconds), after the documentation
of the library. `NewLimiter` makes a full bucket. `Wait` refuses a limiter whose burst is
less than one token and a context that is done; otherwise it reserves one token, which
fixes how long the caller is blocked: not at all while the bucket holds a token, and
otherwise for the time the rate takes to make up the deficit. It refuses when that time
goes beyond the deadline of the context. The reservation is made under the mutex of the
limiter, so calls made concurrently at one instant reserve one after another, as here.
A rate that is not positive never refills the bucket: once the bucket is empty the wait
has no end, which is rendered as an error. A context that is cancelled while the caller
is blocked is not modelled. -/
def tokenBucketAt (now : Int) : RateLib TokenBucket :=
  { NewLimiter := fun limit burst =>
      { limit := limit, burst := burst,
        state := { tokens := burst, last := now, delays := [] } }
    Wait := fun ctx limiter =>
      match limiter.limit.rate? with
      | none =>
        if ctx.cancelled then (some "context canceled", limiter)
        else
          (none, { limiter with
            state := { limiter.state with delays := limiter.state.delays ++ [0] } })
      | some q =>
        if limiter.burst < 1 then (some "rate: Wait(n=1) exceeds the burst of the limiter", limiter)
        else if ctx.cancelled then (some "context canceled", limiter)
        else if q ≤ 0 then
          if 1 ≤ limiter.state.tokens then
            (none, { limiter with
              state := { tokens := limiter.state.tokens - 1, last := now,
                         delays := limiter.state.delays ++ [0] } })
          else (some "rate: Wait(n=1) would exceed context deadline", limiter)
        else
          let tokens := limiter.state.refill q limiter.burst now - 1
          let delay := if tokens < 0 then waitDuration q (-tokens) else 0
          if (match ctx.deadline with
              | some deadline => decide (deadline - now < delay)
              | none => false) then
            (some "rate: Wait(n=1) would exceed context deadline", limiter)
          else
            (none, { limiter with
              state := { tokens := tokens, last := now,
                         delays := limiter.state.delays ++ [delay] } }) }

/-- The results, in order, of `k` consecutive `Allow` calls for `key`, and the rate
limiter after them. -/
def RateLimiter.allowTimes {τ : Type} (lib : RateLib τ) (ctx : Context) (key : String) :
    Nat → RateLimiter τ → List (Option GoError) × RateLimiter τ
  | 0, r => ([], r)
  | k + 1, r =>
    let first := r.Allow lib ctx key
    let rest := RateLimiter.allowTimes lib ctx key k first.2
    (first.1 :: rest.1, rest.2)

/-- How long the `Allow` calls for `key` have been blocked so far, oldest first. -/
def RateLimiter.delaysOf (r : RateLimiter TokenBucket) (key : String) : List Int :=
  match r.limiters key with
  | some limiter => limiter.state.delays
  | none => []

/-- The rate limiter of `NewEmailSender` (email.go, line 109), `NewRateLimiter(10, 20)`,
after 21 `Allow` calls for one recipient, all made at the instant 1700000000 s. -/
def burstAndOne : List (Option GoError) × RateLimiter TokenBucket :=
  RateLimiter.allowTimes (tokenBucketAt (1700000000 * Second)) Context.Background "a@b.com" 21
    (NewRateLimiter Float64.ten 20)

/-- The same 21 calls, followed by one more call made a tenth of a second later. -/
def burstAndTwo : Option GoError × RateLimiter TokenBucket :=
  RateLimiter.Allow (tokenBucketAt (1700000000 * Second + 100000000)) burstAndOne.2
    Context.Background "a@b.com"

/-! ## Properties of the retry loop -/

section LoopLemmas
variable {σ : Type}

theorem retryLoop_exit (h : ConsumerHandler σ) (n : Notification) (attempt : Int) (w : σ)
    (hgt : h.retries < attempt) : retryLoop h n attempt w = ([], w) := by
  rw [retryLoop, if_neg (not_le.mpr hgt)]

theorem retryLoop_success (h : ConsumerHandler σ) (n : Notification) (attempt : Int)
    (w w1 : σ) (hle : attempt ≤ h.retries)
    (hs : h.sender.Send Context.Background n w = (none, w1)) :
    retryLoop h n attempt w = ([(w, Event.send n none)], w1) := by
  rw [retryLoop, if_pos hle, hs]

theorem retryLoop_fail_last (h : ConsumerHandler σ) (n : Notification) (attempt : Int)
    (w w1 : σ) (err : GoError) (heq : attempt = h.retries)
    (hs : h.sender.Send Context.Background n w = (some err, w1)) :
    retryLoop h n attempt w =
      ([(w, Event.send n (some err)),
        (w1, Event.log LogLevel.Warn "Failed to send notification, retrying" (some err)),
        (w1, Event.log LogLevel.Error "Failed to send notification after retries" (some err))],
       w1) := by
  rw [retryLoop, if_pos (le_of_eq heq), hs]
  simp only [if_pos heq]
  rw [retryLoop_exit h n (attempt + 1) w1 (by omega)]

theorem retryLoop_fail_more (h : ConsumerHandler σ) (n : Notification) (attempt : Int)
    (w w1 : σ) (err : GoError) (hlt : attempt < h.retries)
    (hs : h.sender.Send Context.Background n w = (some err, w1)) :
    retryLoop h n attempt w =
      ((w, Event.send n (some err))
        :: (w1, Event.log LogLevel.Warn "Failed to send notification, retrying" (some err))
        :: (w1, Event.sleep (backoffDelay attempt))
        :: (retryLoop h n (attempt + 1) w1).1,
       (retryLoop h n (attempt + 1) w1).2) := by
  rw [retryLoop, if_pos (le_of_lt hlt), hs]
  simp only [if_neg (ne_of_lt hlt)]

/-- Induction over the iterations of the retry loop: a property of the loop result holds
as soon as it holds for each of the four ways one iteration can go. -/
theorem retryLoop_induction (h : ConsumerHandler σ) (n : Notification)
    (P : Int → σ → Trace σ × σ → Prop)
    (exit : ∀ a w, h.retries < a → P a w ([], w))
    (success : ∀ a w w1, a ≤ h.retries →
      h.sender.Send Context.Background n w = (none, w1) →
      P a w ([(w, Event.send n none)], w1))
    (failLast : ∀ a w w1 err, a = h.retries →
      h.sender.Send Context.Background n w = (some err, w1) →
      P a w ([(w, Event.send n (some err)),
        (w1, Event.log LogLevel.Warn "Failed to send notification, retrying" (some err)),
        (w1, Event.log LogLevel.Error "Failed to send notification after retries" (some err))],
        w1))
    (failMore : ∀ a w w1 err, a < h.retries →
      h.sender.Send Context.Background n w = (some err, w1) →
      P (a + 1) w1 (retryLoop h n (a + 1) w1) →
      P a w ((w, Event.send n (some err))
        :: (w1, Event.log LogLevel.Warn "Failed to send notification, retrying" (some err))
        :: (w1, Event.sleep (backoffDelay a))
        :: (retryLoop h n (a + 1) w1).1,
        (retryLoop h n (a + 1) w1).2)) :
    ∀ a w, P a w (retryLoop h n a w) := by
  intro a
  generalize hm : (h.retries + 1 - a).toNat = m
  induction m generalizing a with
  | zero =>
    intro w
    have hgt : h.retries < a := by omega
    rw [retryLoop_exit h n a w hgt]
    exact exit a w hgt
  | succ m ih =>
    intro w
    have hle : a ≤ h.retries := by omega
    rcases hs : h.sender.Send Context.Background n w with ⟨res, w1⟩
    cases res with
    | none =>
      rw [retryLoop_success h n a w w1 hle hs]
      exact success a w w1 hle hs
    | some err =>
      by_cases heq : a = h.retries
      · rw [retryLoop_fail_last h n a w w1 err heq hs]
        exact failLast a w w1 err heq hs
      · have hlt : a < h.retries := lt_of_le_of_ne hle heq
        rw [retryLoop_fail_more h n a w w1 err hlt hs]
        exact failMore a w w1 err hlt hs (ih (a + 1) (by omega) w1)

/-- The retry loop only sends, logs and sleeps. -/
theorem retryLoop_events_kind (h : ConsumerHandler σ) (n : Notification) (a : Int) (w : σ) :
    ∀ e ∈ events (retryLoop h n a w).1,
      e.isSend = true ∨ e.isLog = true ∨ e.isSleep = true := by
  refine retryLoop_induction h n
    (fun _ _ r => ∀ e ∈ events r.1, e.isSend = true ∨ e.isLog = true ∨ e.isSleep = true)
    ?_ ?_ ?_ ?_ a w
  · intro a w _ e he
    simp [events] at he
  · intro a w w1 _ _ e he
    simp only [events, List.map_cons, List.map_nil, List.mem_singleton] at he
    subst he
    simp [Event.isSend]
  · intro a w w1 err _ _ e he
    simp only [events, List.map_cons, List.map_nil, List.mem_cons, List.mem_singleton,
      List.not_mem_nil, or_false] at he
    rcases he with he | he | he <;> subst he <;> simp [Event.isSend, Event.isLog]
  · intro a w w1 err _ _ ih e he
    simp only [events, List.map_cons, List.mem_cons] at he
    rcases he with he | he | he | he
    · subst he; simp [Event.isSend]
    · subst he; simp [Event.isLog]
    · subst he; simp [Event.isSleep]
    · exact ih e he

theorem stateAfterSends_shift (h : ConsumerHandler σ) (n : Notification) (w : σ) (j : Nat) :
    stateAfterSends h n (h.sender.Send Context.Background n w).2 j
      = stateAfterSends h n w (j + 1) := by
  induction j with
  | zero => rfl
  | succ j ih =>
    show (h.sender.Send Context.Background n
        (stateAfterSends h n (h.sender.Send Context.Background n w).2 j)).2 = _
    rw [ih]
    rfl

theorem sendCount_cons (e : Event) (es : List Event) :
    sendCount (e :: es) = (if e.isSend = true then 1 else 0) + sendCount es := by
  unfold sendCount
  by_cases he : e.isSend = true
  · simp [List.filter_cons, he]; omega
  · simp [List.filter_cons, he]

theorem sendCount_append (es1 es2 : List Event) :
    sendCount (es1 ++ es2) = sendCount es1 + sendCount es2 := by
  simp [sendCount]

theorem markCount_append (es1 es2 : List Event) :
    markCount (es1 ++ es2) = markCount es1 + markCount es2 := by
  simp [markCount]

theorem delays_append (es1 es2 : List Event) :
    delays (es1 ++ es2) = delays es1 ++ delays es2 := by
  induction es1 with
  | nil => rfl
  | cons e es ih => cases e <;> simp [delays, ih]

theorem range_succ_map_shift (f : Int → Int) (a : Int) (k : Nat) :
    (List.range (k + 1)).map (fun i : Nat => f (a + i))
      = f a :: (List.range k).map (fun i : Nat => f (a + 1 + i)) := by
  rw [List.range_succ_eq_map]
  simp only [List.map_cons, List.map_map, Nat.cast_zero, add_zero, List.cons.injEq, true_and]
  apply List.map_congr_left
  intro i _
  simp only [Function.comp, Nat.succ_eq_add_one, Nat.cast_add, Nat.cast_one]
  congr 1
  ring

/-- The loop when the sender fails `k` more times and then succeeds on the last
permitted attempt. -/
theorem retryLoop_fail_then_succeed (h : ConsumerHandler σ) (n : Notification) :
    ∀ (k : Nat) (a : Int) (w : σ), a + k = h.retries →
      (∀ j, j < k →
        (h.sender.Send Context.Background n (stateAfterSends h n w j)).1 ≠ none) →
      (h.sender.Send Context.Background n (stateAfterSends h n w k)).1 = none →
      ∃ pre, events (retryLoop h n a w).1 = pre ++ [Event.send n none] ∧
        sendCount pre = k ∧
        (∀ e ∈ pre, e.isSend = true → e.isFailedSend = true) ∧
        (∀ e ∈ pre, e.isMarkAsProcessed = false) ∧
        delays pre = (List.range k).map (fun i : Nat => backoffDelay (a + i)) := by
  intro k
  induction k with
  | zero =>
    intro a w ha _ hok
    rcases hs : h.sender.Send Context.Background n w with ⟨res, w1⟩
    have hres : res = none := by
      have := hok
      simp only [stateAfterSends, hs] at this
      exact this
    subst hres
    rw [retryLoop_success h n a w w1 (by omega) hs]
    exact ⟨[], rfl, rfl, by simp, by simp, rfl⟩
  | succ k ih =>
    intro a w ha hfail hok
    rcases hs : h.sender.Send Context.Background n w with ⟨res, w1⟩
    have hw1 : w1 = (h.sender.Send Context.Background n w).2 := by rw [hs]
    cases res with
    | none =>
      have := hfail 0 (Nat.succ_pos k)
      simp only [stateAfterSends, hs] at this
      exact (this rfl).elim
    | some err =>
      rw [retryLoop_fail_more h n a w w1 err (by omega) hs]
      obtain ⟨pre, hpre, hcount, hfailed, hnomark, hdel⟩ := ih (a + 1) w1 (by omega)
        (fun j hj => by
          rw [hw1, stateAfterSends_shift]
          exact hfail (j + 1) (Nat.succ_lt_succ hj))
        (by rw [hw1, stateAfterSends_shift]; exact hok)
      refine ⟨Event.send n (some err)
        :: Event.log LogLevel.Warn "Failed to send notification, retrying" (some err)
        :: Event.sleep (backoffDelay a) :: pre, ?_, ?_, ?_, ?_, ?_⟩
      · simp only [events, List.map_cons, List.cons_append, List.cons.injEq, true_and]
        exact hpre
      · simp [sendCount_cons, Event.isSend, hcount]; omega
      · intro e he
        simp only [List.mem_cons] at he
        rcases he with he | he | he | he
        · subst he; intro _; rfl
        · subst he; intro hx; cases hx
        · subst he; intro hx; cases hx
        · exact hfailed e he
      · intro e he
        simp only [List.mem_cons] at he
        rcases he with he | he | he | he
        · subst he; rfl
        · subst he; rfl
        · subst he; rfl
        · exact hnomark e he
      · rw [range_succ_map_shift backoffDelay a k]
        simp [delays, hdel]

theorem send_unsupported (h : ConsumerHandler σ) (n : Notification) (w : σ)
    (hs : h.sender.strategies n.Type_ = none) :
    h.sender.Send Context.Background n w = (some (noStrategyError n.Type_), w) := by
  simp [NotificationSender.Send, hs]

/-- The loop for a notification whose type has no registered strategy: every permitted
attempt is made and fails with the no-strategy error, the world is left untouched. -/
theorem retryLoop_unsupported (h : ConsumerHandler σ) (n : Notification)
    (hs : h.sender.strategies n.Type_ = none) (a : Int) (w : σ) :
    (retryLoop h n a w).2 = w ∧
    sendCount (events (retryLoop h n a w).1) = (h.retries + 1 - a).toNat ∧
    (∀ e ∈ events (retryLoop h n a w).1, e.isSend = true →
      e = Event.send n (some (noStrategyError n.Type_))) ∧
    delays (events (retryLoop h n a w).1)
      = (List.range (h.retries - a).toNat).map (fun i : Nat => backoffDelay (a + i)) ∧
    (events (retryLoop h n a w).1).count
      (Event.log LogLevel.Warn "Failed to send notification, retrying"
        (some (noStrategyError n.Type_))) = (h.retries + 1 - a).toNat := by
  refine retryLoop_induction h n
    (fun a w r => r.2 = w ∧
      sendCount (events r.1) = (h.retries + 1 - a).toNat ∧
      (∀ e ∈ events r.1, e.isSend = true →
        e = Event.send n (some (noStrategyError n.Type_))) ∧
      delays (events r.1)
        = (List.range (h.retries - a).toNat).map (fun i : Nat => backoffDelay (a + i)) ∧
      (events r.1).count
        (Event.log LogLevel.Warn "Failed to send notification, retrying"
          (some (noStrategyError n.Type_))) = (h.retries + 1 - a).toNat)
    ?_ ?_ ?_ ?_ a w
  · intro a w hgt
    have h1 : (h.retries + 1 - a).toNat = 0 := by omega
    have h2 : (h.retries - a).toNat = 0 := by omega
    simp [events, sendCount, delays, h1, h2]
  · intro a w w1 _ hsend
    rw [send_unsupported h n w hs] at hsend
    cases hsend
  · intro a w w1 err heq hsend
    rw [send_unsupported h n w hs] at hsend
    simp only [Prod.mk.injEq, Option.some.injEq] at hsend
    obtain ⟨herr, hw⟩ := hsend
    subst herr
    subst hw
    have h1 : (h.retries + 1 - a).toNat = 1 := by omega
    have h2 : (h.retries - a).toNat = 0 := by omega
    refine ⟨rfl, ?_, ?_, ?_, ?_⟩
    · simp [events, sendCount, Event.isSend, h1]
    · intro e he
      simp only [events, List.map_cons, List.map_nil, List.mem_cons, List.mem_singleton,
        List.not_mem_nil, or_false] at he
      rcases he with he | he | he
      · subst he; intro _; rfl
      · subst he; intro hx; cases hx
      · subst he; intro hx; cases hx
    · simp [events, delays, h2]
    · simp [events, h1]
  · intro a w w1 err hlt hsend ih
    rw [send_unsupported h n w hs] at hsend
    simp only [Prod.mk.injEq, Option.some.injEq] at hsend
    obtain ⟨herr, hw⟩ := hsend
    subst herr
    subst hw
    obtain ⟨ih1, ih2, ih3, ih4, ih5⟩ := ih
    have h1 : (h.retries + 1 - a).toNat = (h.retries + 1 - (a + 1)).toNat + 1 := by omega
    have h2 : (h.retries - a).toNat = (h.retries - (a + 1)).toNat + 1 := by omega
    refine ⟨ih1, ?_, ?_, ?_, ?_⟩
    · simp only [events, List.map_cons] at ih2 ⊢
      rw [sendCount_cons, sendCount_cons, sendCount_cons, h1, ih2]
      simp [Event.isSend]
      omega
    · intro e he
      simp only [events, List.map_cons, List.mem_cons] at he
      rcases he with he | he | he | he
      · subst he; intro _; rfl
      · subst he; intro hx; cases hx
      · subst he; intro hx; cases hx
      · exact ih3 e he
    · simp only [events, List.map_cons] at ih4 ⊢
      rw [h2, range_succ_map_shift backoffDelay a]
      simp [delays, ih4]
    · simp only [events, List.map_cons] at ih5 ⊢
      rw [h1]
      simp [List.count_cons, ih5]

/-- Send attempts of the loop: attempt number `a + i` is made only if it is permitted, and
it is followed by a sleep exactly when it failed and a further attempt is permitted. -/
theorem retryLoop_attempts (h : ConsumerHandler σ) (n : Notification) (a : Int) (w : σ) :
    ∀ (i : Nat) (res : Option GoError) (d : Option Int),
      (attempts (events (retryLoop h n a w).1))[i]? = some (res, d) →
      a + i ≤ h.retries ∧
      d = if res.isSome = true ∧ a + i < h.retries then some (backoffDelay (a + i)) else none := by
  refine retryLoop_induction h n
    (fun a _ r => ∀ (i : Nat) (res : Option GoError) (d : Option Int),
      (attempts (events r.1))[i]? = some (res, d) →
      a + i ≤ h.retries ∧
      d = if res.isSome = true ∧ a + i < h.retries then some (backoffDelay (a + i)) else none)
    ?_ ?_ ?_ ?_ a w
  · intro a w _ i res d hi
    simp [events, attempts] at hi
  · intro a w w1 hle _ i res d hi
    cases i with
    | zero =>
      simp only [events, List.map_cons, List.map_nil, attempts, nextSleep,
        List.getElem?_cons_zero, Option.some.injEq, Prod.mk.injEq] at hi
      obtain ⟨h1, h2⟩ := hi
      subst h1; subst h2
      simp [hle]
    | succ i => simp [events, attempts] at hi
  · intro a w w1 err heq _ i res d hi
    cases i with
    | zero =>
      simp only [events, List.map_cons, List.map_nil, attempts, nextSleep,
        List.getElem?_cons_zero, Option.some.injEq, Prod.mk.injEq] at hi
      obtain ⟨h1, h2⟩ := hi
      subst h1; subst h2
      simp [heq]
    | succ i => simp [events, attempts] at hi
  · intro a w w1 err hlt _ ih i res d hi
    cases i with
    | zero =>
      simp only [events, List.map_cons, attempts, nextSleep,
        List.getElem?_cons_zero, Option.some.injEq, Prod.mk.injEq] at hi
      obtain ⟨h1, h2⟩ := hi
      subst h1; subst h2
      simp [hlt, le_of_lt hlt]
    | succ i =>
      simp only [events, List.map_cons, attempts, List.getElem?_cons_succ] at hi
      obtain ⟨h1, h2⟩ := ih i res d hi
      have hcast : a + ((i + 1 : Nat) : Int) = a + 1 + (i : Int) := by push_cast; ring
      rw [hcast]
      exact ⟨h1, h2⟩

/-- The delays the loop sleeps are those of consecutive attempt numbers. -/
theorem retryLoop_delays (h : ConsumerHandler σ) (n : Notification) (a : Int) (w : σ) :
    ∃ j : Nat, delays (events (retryLoop h n a w).1)
      = (List.range j).map (fun i : Nat => backoffDelay (a + i)) := by
  refine retryLoop_induction h n
    (fun a _ r => ∃ j : Nat, delays (events r.1)
      = (List.range j).map (fun i : Nat => backoffDelay (a + i)))
    ?_ ?_ ?_ ?_ a w
  · intro a w _
    exact ⟨0, rfl⟩
  · intro a w w1 _ _
    exact ⟨0, rfl⟩
  · intro a w w1 err _ _
    exact ⟨0, rfl⟩
  · intro a w w1 err _ _ ih
    obtain ⟨j, hj⟩ := ih
    refine ⟨j + 1, ?_⟩
    rw [range_succ_map_shift backoffDelay a j]
    simp only [events, List.map_cons] at hj ⊢
    simp [delays, hj]

theorem delays_increasing (a : Int) (j : Nat) :
    List.Pairwise (fun x y : Int => x < y)
      ((List.range j).map (fun i : Nat => backoffDelay (a + i))) := by
  rw [List.pairwise_map]
  refine (List.pairwise_lt_range j).imp ?_
  intro x y hxy
  simp only [backoffDelay, Second]
  omega

theorem nextSleep_inert (tail : List Event)
    (ht : ∀ e ∈ tail, e.isSend = false ∧ e.isSleep = false) : nextSleep tail = none := by
  induction tail with
  | nil => rfl
  | cons e tail ih =>
    have he := ht e (by simp)
    have ih1 := ih (fun x hx => ht x (by simp [hx]))
    cases e <;> simp_all [nextSleep, Event.isSend, Event.isSleep]

theorem attempts_inert (tail : List Event)
    (ht : ∀ e ∈ tail, e.isSend = false ∧ e.isSleep = false) : attempts tail = [] := by
  induction tail with
  | nil => rfl
  | cons e tail ih =>
    have he := ht e (by simp)
    have ih1 := ih (fun x hx => ht x (by simp [hx]))
    cases e <;> simp_all [attempts, Event.isSend, Event.isSleep]

theorem delays_inert (tail : List Event)
    (ht : ∀ e ∈ tail, e.isSend = false ∧ e.isSleep = false) : delays tail = [] := by
  induction tail with
  | nil => rfl
  | cons e tail ih =>
    have he := ht e (by simp)
    have ih1 := ih (fun x hx => ht x (by simp [hx]))
    cases e <;> simp_all [delays, Event.isSend, Event.isSleep]

theorem nextSleep_append_inert (l tail : List Event)
    (ht : ∀ e ∈ tail, e.isSend = false ∧ e.isSleep = false) :
    nextSleep (l ++ tail) = nextSleep l := by
  induction l with
  | nil => simpa [nextSleep] using nextSleep_inert tail ht
  | cons e l ih => cases e <;> simp [nextSleep, ih]

theorem attempts_append_inert (l tail : List Event)
    (ht : ∀ e ∈ tail, e.isSend = false ∧ e.isSleep = false) :
    attempts (l ++ tail) = attempts l := by
  induction l with
  | nil => simpa [attempts] using attempts_inert tail ht
  | cons e l ih =>
    cases e <;> simp [attempts, ih, nextSleep_append_inert l tail ht]

end LoopLemmas

/-! ## Properties of one message -/

section MessageLemmas
variable {σ : Type}

theorem events_append (t1 t2 : Trace σ) : events (t1 ++ t2) = events t1 ++ events t2 := by
  simp [events]

theorem events_cons (p : σ × Event) (t : Trace σ) : events (p :: t) = p.2 :: events t := by
  simp [events]

theorem processMessage_malformed (json : String → Except GoError Notification)
    (h : ConsumerHandler σ) (msg : ConsumerMessage) (w : σ) (err : GoError)
    (hj : json msg.Value = Except.error err) :
    processMessage json h msg w =
      ([(w, Event.log LogLevel.Error "Failed to un-marshall notification" (some err))], w) := by
  rw [processMessage, hj]

theorem processMessage_check_error (json : String → Except GoError Notification)
    (h : ConsumerHandler σ) (msg : ConsumerMessage) (w w1 : σ) (n : Notification)
    (processed : Bool) (err : GoError) (hj : json msg.Value = Except.ok n)
    (hc : h.repo.CheckIfProcessed Context.Background n.ID w = ((processed, some err), w1)) :
    processMessage json h msg w =
      ([(w, Event.checkIfProcessed n.ID processed (some err)),
        (w1, Event.log LogLevel.Error "Failed to check if notification processed" (some err))],
       w1) := by
  rw [processMessage, hj]
  simp only [hc]

theorem processMessage_already_processed (json : String → Except GoError Notification)
    (h : ConsumerHandler σ) (msg : ConsumerMessage) (w w1 : σ) (n : Notification)
    (hj : json msg.Value = Except.ok n)
    (hc : h.repo.CheckIfProcessed Context.Background n.ID w = ((true, none), w1)) :
    processMessage json h msg w =
      ([(w, Event.checkIfProcessed n.ID true none),
        (w1, Event.log LogLevel.Warn "Notification already processed" none)], w1) := by
  rw [processMessage, hj]
  simp only [hc]

theorem processMessage_mark_error (json : String → Except GoError Notification)
    (h : ConsumerHandler σ) (msg : ConsumerMessage) (w w1 w3 : σ) (n : Notification)
    (err : GoError) (hj : json msg.Value = Except.ok n)
    (hc : h.repo.CheckIfProcessed Context.Background n.ID w = ((false, none), w1))
    (hm : h.repo.MarkAsProcessed Context.Background n.ID (retryLoop h n 1 w1).2
      = (some err, w3)) :
    processMessage json h msg w =
      ((w, Event.checkIfProcessed n.ID false none) :: (retryLoop h n 1 w1).1 ++
        [((retryLoop h n 1 w1).2, Event.markAsProcessed n.ID (some err)),
         (w3, Event.log LogLevel.Error "Failed to mark notification as processed" (some err))],
       w3) := by
  rw [processMessage, hj]
  simp only [hc, hm]

theorem processMessage_acked (json : String → Except GoError Notification)
    (h : ConsumerHandler σ) (msg : ConsumerMessage) (w w1 w3 : σ) (n : Notification)
    (hj : json msg.Value = Except.ok n)
    (hc : h.repo.CheckIfProcessed Context.Background n.ID w = ((false, none), w1))
    (hm : h.repo.MarkAsProcessed Context.Background n.ID (retryLoop h n 1 w1).2
      = (none, w3)) :
    processMessage json h msg w =
      ((w, Event.checkIfProcessed n.ID false none) :: (retryLoop h n 1 w1).1 ++
        [((retryLoop h n 1 w1).2, Event.markAsProcessed n.ID none),
         (w3, Event.markMessage msg),
         (w3, Event.log LogLevel.Info "Notification processed" none)],
       w3) := by
  rw [processMessage, hj]
  simp only [hc, hm]

/-- A list has at most one way to be cut at an element satisfying `p` when no other
element satisfies `p`. -/
theorem split_unique {α : Type} (p : α → Bool) (A B : List α) (x : α)
    (hA : ∀ a ∈ A, p a = false) (hB : ∀ b ∈ B, p b = false) :
    ∀ (pre post : List α) (y : α), p y = true → A ++ x :: B = pre ++ y :: post →
      pre = A ∧ y = x ∧ post = B := by
  induction A with
  | nil =>
    intro pre post y hy heq
    cases pre with
    | nil =>
      simp only [List.nil_append, List.cons.injEq] at heq
      exact ⟨rfl, heq.1.symm, heq.2.symm⟩
    | cons z pre1 =>
      simp only [List.nil_append, List.cons_append, List.cons.injEq] at heq
      have hmem : y ∈ B := by rw [heq.2]; simp
      rw [hB y hmem] at hy
      cases hy
  | cons a A1 ih =>
    intro pre post y hy heq
    cases pre with
    | nil =>
      simp only [List.nil_append, List.cons_append, List.cons.injEq] at heq
      have ha := hA a (by simp)
      rw [heq.1, hy] at ha
      cases ha
    | cons z pre1 =>
      simp only [List.cons_append, List.cons.injEq] at heq
      obtain ⟨h1, h2, h3⟩ := ih (fun b hb => hA b (by simp [hb])) pre1 post y hy heq.2
      exact ⟨by rw [heq.1, h1], h2, h3⟩

/-- No element satisfying `p` can be cut out of a list none of whose elements does. -/
theorem no_split {α : Type} (p : α → Bool) (l pre post : List α) (y : α)
    (hl : ∀ a ∈ l, p a = false) (hy : p y = true) (heq : l = pre ++ y :: post) : False := by
  have hmem : y ∈ l := by rw [heq]; simp
  rw [hl y hmem] at hy
  cases hy

theorem retryLoop_no_ack (h : ConsumerHandler σ) (n : Notification) (a : Int) (w : σ) :
    ∀ e ∈ events (retryLoop h n a w).1, e.isMarkMessage = false := by
  intro e he
  rcases retryLoop_events_kind h n a w e he with hk | hk | hk <;>
    cases e <;> simp_all [Event.isSend, Event.isLog, Event.isSleep, Event.isMarkMessage]

theorem retryLoop_no_mark (h : ConsumerHandler σ) (n : Notification) (a : Int) (w : σ) :
    ∀ e ∈ events (retryLoop h n a w).1, e.isMarkAsProcessed = false := by
  intro e he
  rcases retryLoop_events_kind h n a w e he with hk | hk | hk <;>
    cases e <;> simp_all [Event.isSend, Event.isLog, Event.isSleep, Event.isMarkAsProcessed]

theorem retryLoop_no_store_error (h : ConsumerHandler σ) (n : Notification) (a : Int)
    (w : σ) : ∀ e ∈ events (retryLoop h n a w).1, e.isStoreError = false := by
  intro e he
  rcases retryLoop_events_kind h n a w e he with hk | hk | hk <;>
    cases e <;> simp_all [Event.isSend, Event.isLog, Event.isSleep, Event.isStoreError]

theorem filter_eq_nil_of_all_false {α : Type} (p : α → Bool) (l : List α)
    (hl : ∀ a ∈ l, p a = false) : l.filter p = [] := by
  rw [List.filter_eq_nil_iff]
  intro a ha
  simp [hl a ha]

theorem events_mark_error (json : String → Except GoError Notification)
    (h : ConsumerHandler σ) (msg : ConsumerMessage) (w w1 w3 : σ) (n : Notification)
    (err : GoError) (hj : json msg.Value = Except.ok n)
    (hc : h.repo.CheckIfProcessed Context.Background n.ID w = ((false, none), w1))
    (hm : h.repo.MarkAsProcessed Context.Background n.ID (retryLoop h n 1 w1).2
      = (some err, w3)) :
    events (processMessage json h msg w).1 =
      (Event.checkIfProcessed n.ID false none :: events (retryLoop h n 1 w1).1) ++
        Event.markAsProcessed n.ID (some err) ::
          [Event.log LogLevel.Error "Failed to mark notification as processed" (some err)] := by
  rw [processMessage_mark_error json h msg w w1 w3 n err hj hc hm]
  simp [events]

theorem events_acked (json : String → Except GoError Notification)
    (h : ConsumerHandler σ) (msg : ConsumerMessage) (w w1 w3 : σ) (n : Notification)
    (hj : json msg.Value = Except.ok n)
    (hc : h.repo.CheckIfProcessed Context.Background n.ID w = ((false, none), w1))
    (hm : h.repo.MarkAsProcessed Context.Background n.ID (retryLoop h n 1 w1).2
      = (none, w3)) :
    events (processMessage json h msg w).1 =
      (Event.checkIfProcessed n.ID false none :: events (retryLoop h n 1 w1).1) ++
        Event.markAsProcessed n.ID none ::
          [Event.markMessage msg, Event.log LogLevel.Info "Notification processed" none] := by
  rw [processMessage_acked json h msg w w1 w3 n hj hc hm]
  simp [events]

/-- The shapes the events of one message can take: a message is malformed, or the check
fails, or it is already processed, or it is dispatched and then marked with or without
success. -/
theorem events_shape (json : String → Except GoError Notification)
    (h : ConsumerHandler σ) (msg : ConsumerMessage) (w : σ) :
    (∃ err, json msg.Value = Except.error err ∧
      events (processMessage json h msg w).1 =
        [Event.log LogLevel.Error "Failed to un-marshall notification" (some err)]) ∨
    (∃ n processed err, json msg.Value = Except.ok n ∧
      events (processMessage json h msg w).1 =
        [] ++ Event.checkIfProcessed n.ID processed (some err) ::
          [Event.log LogLevel.Error "Failed to check if notification processed" (some err)]) ∨
    (∃ n, json msg.Value = Except.ok n ∧
      events (processMessage json h msg w).1 =
        [Event.checkIfProcessed n.ID true none,
         Event.log LogLevel.Warn "Notification already processed" none]) ∨
    (∃ n w1 err, json msg.Value = Except.ok n ∧
      events (processMessage json h msg w).1 =
        (Event.checkIfProcessed n.ID false none :: events (retryLoop h n 1 w1).1) ++
          Event.markAsProcessed n.ID (some err) ::
            [Event.log LogLevel.Error "Failed to mark notification as processed" (some err)]) ∨
    (∃ n w1, json msg.Value = Except.ok n ∧
      events (processMessage json h msg w).1 =
        (Event.checkIfProcessed n.ID false none :: events (retryLoop h n 1 w1).1) ++
          Event.markAsProcessed n.ID none ::
            [Event.markMessage msg, Event.log LogLevel.Info "Notification processed" none]) := by
  cases hj : json msg.Value with
  | error err =>
    left
    exact ⟨err, rfl, by rw [processMessage_malformed json h msg w err hj]; rfl⟩
  | ok n =>
    right
    rcases hc : h.repo.CheckIfProcessed Context.Background n.ID w with ⟨⟨processed, cerr⟩, w1⟩
    cases cerr with
    | some err =>
      left
      exact ⟨n, processed, err, rfl,
        by rw [processMessage_check_error json h msg w w1 n processed err hj hc]; rfl⟩
    | none =>
      right
      cases processed with
      | true =>
        left
        exact ⟨n, rfl, by rw [processMessage_already_processed json h msg w w1 n hj hc]; rfl⟩
      | false =>
        right
        rcases hm : h.repo.MarkAsProcessed Context.Background n.ID (retryLoop h n 1 w1).2
          with ⟨merr, w3⟩
        cases merr with
        | some err =>
          left
          exact ⟨n, w1, err, rfl, events_mark_error json h msg w w1 w3 n err hj hc hm⟩
        | none =>
          right
          exact ⟨n, w1, rfl, events_acked json h msg w w1 w3 n hj hc hm⟩

/-- The events of a message that reaches dispatch: the check, the retry loop, the
`MarkAsProcessed` call and a closing part without sends, sleeps or store calls. -/
theorem events_dispatched (json : String → Except GoError Notification)
    (h : ConsumerHandler σ) (msg : ConsumerMessage) (w w1 : σ) (n : Notification)
    (hj : json msg.Value = Except.ok n)
    (hc : h.repo.CheckIfProcessed Context.Background n.ID w = ((false, none), w1)) :
    ∃ r tail, events (processMessage json h msg w).1 =
        (Event.checkIfProcessed n.ID false none :: events (retryLoop h n 1 w1).1) ++
          Event.markAsProcessed n.ID r :: tail ∧
      (∀ e ∈ Event.markAsProcessed n.ID r :: tail,
        e.isSend = false ∧ e.isSleep = false) ∧
      (∀ e ∈ Event.markAsProcessed n.ID r :: tail,
        ∀ err, e ≠ Event.log LogLevel.Warn "Failed to send notification, retrying" err) := by
  rcases hm : h.repo.MarkAsProcessed Context.Background n.ID (retryLoop h n 1 w1).2
    with ⟨merr, w3⟩
  cases merr with
  | some err =>
    refine ⟨some err, _, events_mark_error json h msg w w1 w3 n err hj hc hm, ?_, ?_⟩
    · intro e he
      simp only [List.mem_cons, List.mem_singleton, List.not_mem_nil, or_false] at he
      rcases he with he | he <;> subst he <;> exact ⟨rfl, rfl⟩
    · intro e he
      simp only [List.mem_cons, List.mem_singleton, List.not_mem_nil, or_false] at he
      rcases he with he | he <;> subst he <;> simp
  | none =>
    refine ⟨none, _, events_acked json h msg w w1 w3 n hj hc hm, ?_, ?_⟩
    · intro e he
      simp only [List.mem_cons, List.mem_singleton, List.not_mem_nil, or_false] at he
      rcases he with he | he | he <;> subst he <;> exact ⟨rfl, rfl⟩
    · intro e he
      simp only [List.mem_cons, List.mem_singleton, List.not_mem_nil, or_false] at he
      rcases he with he | he | he <;> subst he <;> simp

end MessageLemmas


/-! ## Properties of the idempotency ledger -/

section LedgerLemmas
variable {σs : Type}

theorem DB.advance_processedIds (db : DB) : db.advance.processedIds = db.processedIds := rfl

theorem checkIfProcessed_ledger (ctx : Context) (id : String) (db : DB) :
    (Repository.CheckIfProcessed ctx id db).2.processedIds = db.processedIds := by
  unfold Repository.CheckIfProcessed DB.First
  split <;> rename_i heq <;> revert heq <;> split <;> try split
  all_goals
    intro heq
    simp only [Prod.mk.injEq] at heq
    rw [← heq.2]
    rfl

theorem checkIfProcessed_absent (ctx : Context) (id : String) (db : DB)
    (hc : (Repository.CheckIfProcessed ctx id db).1 = (false, none)) :
    id ∉ db.processedIds := by
  unfold Repository.CheckIfProcessed DB.First at hc
  by_cases hf : db.faults.head? = some true
  · simp [hf] at hc
  · simp only [hf, if_false] at hc
    cases hfind : db.processed_notifications.find?
        (fun row => row.NotificationId == id) with
    | some row => simp [hfind] at hc
    | none =>
      rw [List.find?_eq_none] at hfind
      intro hmem
      simp only [DB.processedIds, List.mem_map] at hmem
      obtain ⟨row, hrow, hid⟩ := hmem
      exact hfind row hrow (by simp [hid])

theorem markAsProcessed_nodup (ctx : Context) (id : String) (now : Int) (db : DB)
    (hnd : db.processedIds.Nodup) :
    (Repository.MarkAsProcessed ctx id now db).2.processedIds.Nodup := by
  unfold Repository.MarkAsProcessed DB.Create
  by_cases hf : db.faults.head? = some true
  · simpa [hf, DB.advance_processedIds] using hnd
  · by_cases hin : id ∈ db.processedIds
    · simpa [hf, hin, DB.advance_processedIds] using hnd
    · simp only [hf, hin, if_false]
      simp only [DB.processedIds, DB.advance, List.map_append, List.map_cons, List.map_nil]
      rw [List.nodup_append]
      refine ⟨hnd, List.nodup_singleton _, ?_⟩
      intro a ha hb
      simp only [List.mem_singleton] at hb
      subst hb
      exact hin ha

theorem pipeline_send_db (strategies : NotificationType → Option (SenderStrategy σs))
    (workers retries : Int) (ctx : Context) (n : Notification) (w : PipelineWorld σs) :
    ((pipelineHandler strategies workers retries).sender.Send ctx n w).2.db = w.db := by
  simp only [NotificationSender.Send, pipelineHandler]
  cases strategies n.Type_ with
  | none => rfl
  | some s => rfl

/-- Sending never touches the database: the retry loop runs against an unchanged ledger. -/
theorem pipeline_retryLoop_db (strategies : NotificationType → Option (SenderStrategy σs))
    (workers retries : Int) (n : Notification) (a : Int) (w : PipelineWorld σs) :
    (retryLoop (pipelineHandler strategies workers retries) n a w).2.db = w.db ∧
    ∀ p ∈ (retryLoop (pipelineHandler strategies workers retries) n a w).1,
      p.1.db = w.db ∧ p.2.isMarkAsProcessed = false := by
  refine retryLoop_induction (pipelineHandler strategies workers retries) n
    (fun _ w r => r.2.db = w.db ∧ ∀ p ∈ r.1, p.1.db = w.db ∧ p.2.isMarkAsProcessed = false)
    ?_ ?_ ?_ ?_ a w
  · intro a w _
    exact ⟨rfl, by simp⟩
  · intro a w w1 _ hs
    have hdb := pipeline_send_db strategies workers retries Context.Background n w
    rw [hs] at hdb
    refine ⟨hdb, ?_⟩
    intro p hp
    simp only [List.mem_singleton] at hp
    subst hp
    exact ⟨rfl, rfl⟩
  · intro a w w1 err _ hs
    have hdb := pipeline_send_db strategies workers retries Context.Background n w
    rw [hs] at hdb
    refine ⟨hdb, ?_⟩
    intro p hp
    simp only [List.mem_cons, List.mem_singleton, List.not_mem_nil, or_false] at hp
    rcases hp with hp | hp | hp <;> subst hp
    · exact ⟨rfl, rfl⟩
    · exact ⟨hdb, rfl⟩
    · exact ⟨hdb, rfl⟩
  · intro a w w1 err _ hs ih
    have hdb := pipeline_send_db strategies workers retries Context.Background n w
    rw [hs] at hdb
    simp only at hdb
    refine ⟨by rw [ih.1, hdb], ?_⟩
    intro p hp
    simp only [List.mem_cons] at hp
    rcases hp with hp | hp | hp | hp
    · subst hp; exact ⟨rfl, rfl⟩
    · subst hp; exact ⟨hdb, rfl⟩
    · subst hp; exact ⟨hdb, rfl⟩
    · obtain ⟨h1, h2⟩ := ih.2 p hp
      exact ⟨by rw [h1, hdb], h2⟩

theorem pipeline_check_ledger (strategies : NotificationType → Option (SenderStrategy σs))
    (workers retries : Int) (ctx : Context) (id : String) (w : PipelineWorld σs) :
    ((pipelineHandler strategies workers retries).repo.CheckIfProcessed ctx id w).2.db.processedIds
      = w.db.processedIds :=
  checkIfProcessed_ledger ctx id w.db

theorem pipeline_check_absent (strategies : NotificationType → Option (SenderStrategy σs))
    (workers retries : Int) (ctx : Context) (id : String) (w : PipelineWorld σs)
    (hc : ((pipelineHandler strategies workers retries).repo.CheckIfProcessed ctx id w).1
      = (false, none)) :
    id ∉ w.db.processedIds :=
  checkIfProcessed_absent ctx id w.db hc

theorem pipeline_mark_nodup (strategies : NotificationType → Option (SenderStrategy σs))
    (workers retries : Int) (ctx : Context) (id : String) (w : PipelineWorld σs)
    (hnd : w.db.processedIds.Nodup) :
    ((pipelineHandler strategies workers retries).repo.MarkAsProcessed ctx id w).2.db.processedIds.Nodup :=
  markAsProcessed_nodup ctx id w.clock w.db hnd

/-- One message keeps the ledger free of duplicates at every step, and `MarkAsProcessed`
is only ever called for an id that has no marker at that moment. -/
theorem pipeline_processMessage_ledger (json : String → Except GoError Notification)
    (strategies : NotificationType → Option (SenderStrategy σs))
    (workers retries : Int) (msg : ConsumerMessage) (w : PipelineWorld σs)
    (hnd : w.db.processedIds.Nodup) :
    (processMessage json (pipelineHandler strategies workers retries) msg w).2.db.processedIds.Nodup ∧
    ∀ p ∈ (processMessage json (pipelineHandler strategies workers retries) msg w).1,
      p.1.db.processedIds.Nodup ∧
      ∀ id res, p.2 = Event.markAsProcessed id res → id ∉ p.1.db.processedIds := by
  cases hj : json msg.Value with
  | error err =>
    rw [processMessage_malformed json _ msg w err hj]
    refine ⟨hnd, ?_⟩
    intro p hp
    simp only [List.mem_singleton] at hp
    subst hp
    exact ⟨hnd, fun id res hx => by cases hx⟩
  | ok n =>
    rcases hc : (pipelineHandler strategies workers retries).repo.CheckIfProcessed
      Context.Background n.ID w with ⟨⟨processed, cerr⟩, w1⟩
    have hw1 : w1.db.processedIds = w.db.processedIds := by
      have := pipeline_check_ledger strategies workers retries Context.Background n.ID w
      rw [hc] at this
      exact this
    have hnd1 : w1.db.processedIds.Nodup := by rw [hw1]; exact hnd
    cases cerr with
    | some err =>
      rw [processMessage_check_error json _ msg w w1 n processed err hj hc]
      refine ⟨hnd1, ?_⟩
      intro p hp
      simp only [List.mem_cons, List.mem_singleton, List.not_mem_nil, or_false] at hp
      rcases hp with hp | hp <;> subst hp
      · exact ⟨hnd, fun id res hx => by cases hx⟩
      · exact ⟨hnd1, fun id res hx => by cases hx⟩
    | none =>
      cases processed with
      | true =>
        rw [processMessage_already_processed json _ msg w w1 n hj hc]
        refine ⟨hnd1, ?_⟩
        intro p hp
        simp only [List.mem_cons, List.mem_singleton, List.not_mem_nil, or_false] at hp
        rcases hp with hp | hp <;> subst hp
        · exact ⟨hnd, fun id res hx => by cases hx⟩
        · exact ⟨hnd1, fun id res hx => by cases hx⟩
      | false =>
        have habs : n.ID ∉ w.db.processedIds := by
          apply pipeline_check_absent strategies workers retries Context.Background n.ID w
          rw [hc]
        obtain ⟨hloop, hstates⟩ := pipeline_retryLoop_db strategies workers retries n 1 w1
        have hnd2 : (retryLoop (pipelineHandler strategies workers retries) n 1
            w1).2.db.processedIds.Nodup := by rw [hloop]; exact hnd1
        have habs2 : n.ID ∉ (retryLoop (pipelineHandler strategies workers retries) n 1
            w1).2.db.processedIds := by rw [hloop, hw1]; exact habs
        rcases hm : (pipelineHandler strategies workers retries).repo.MarkAsProcessed
          Context.Background n.ID
          (retryLoop (pipelineHandler strategies workers retries) n 1 w1).2 with ⟨merr, w3⟩
        have hnd3 : w3.db.processedIds.Nodup := by
          have := pipeline_mark_nodup strategies workers retries Context.Background n.ID
            (retryLoop (pipelineHandler strategies workers retries) n 1 w1).2 hnd2
          rw [hm] at this
          exact this
        have hloopStates : ∀ p ∈ (retryLoop (pipelineHandler strategies workers retries)
            n 1 w1).1, p.1.db.processedIds.Nodup ∧
            ∀ id res, p.2 = Event.markAsProcessed id res → id ∉ p.1.db.processedIds := by
          intro p hp
          obtain ⟨h1, h2⟩ := hstates p hp
          refine ⟨by rw [h1]; exact hnd1, ?_⟩
          intro id res hx
          rw [hx] at h2
          cases h2
        cases merr with
        | some err =>
          rw [processMessage_mark_error json _ msg w w1 w3 n err hj hc hm]
          refine ⟨hnd3, ?_⟩
          intro p hp
          simp only [List.cons_append, List.mem_cons, List.mem_append, List.mem_singleton,
            List.not_mem_nil, or_false] at hp
          rcases hp with hp | hp | hp | hp
          · subst hp; exact ⟨hnd, fun id res hx => by cases hx⟩
          · exact hloopStates p hp
          · subst hp
            refine ⟨hnd2, ?_⟩
            intro id res hx
            simp only [Event.markAsProcessed.injEq] at hx
            rw [← hx.1]
            exact habs2
          · subst hp; exact ⟨hnd3, fun id res hx => by cases hx⟩
        | none =>
          rw [processMessage_acked json _ msg w w1 w3 n hj hc hm]
          refine ⟨hnd3, ?_⟩
          intro p hp
          simp only [List.cons_append, List.mem_cons, List.mem_append, List.mem_singleton,
            List.not_mem_nil, or_false] at hp
          rcases hp with hp | hp | hp | hp | hp
          · subst hp; exact ⟨hnd, fun id res hx => by cases hx⟩
          · exact hloopStates p hp
          · subst hp
            refine ⟨hnd2, ?_⟩
            intro id res hx
            simp only [Event.markAsProcessed.injEq] at hx
            rw [← hx.1]
            exact habs2
          · subst hp; exact ⟨hnd3, fun id res hx => by cases hx⟩
          · subst hp; exact ⟨hnd3, fun id res hx => by cases hx⟩

end LedgerLemmas

/-! ## The concrete pipeline, evaluated -/

section Evaluation

theorem exhaustedRun_events : events exhaustedRun.1 =
    [Event.checkIfProcessed "n1" false none,
     Event.send sampleEmail (some ErrEmailSend),
     Event.log LogLevel.Warn "Failed to send notification, retrying" (some ErrEmailSend),
     Event.sleep 1000000000,
     Event.send sampleEmail (some ErrEmailSend),
     Event.log LogLevel.Warn "Failed to send notification, retrying" (some ErrEmailSend),
     Event.sleep 2000000000,
     Event.send sampleEmail (some ErrEmailSend),
     Event.log LogLevel.Warn "Failed to send notification, retrying" (some ErrEmailSend),
     Event.log LogLevel.Error "Failed to send notification after retries" (some ErrEmailSend),
     Event.markAsProcessed "n1" none,
     Event.markMessage emailMessage,
     Event.log LogLevel.Info "Notification processed" none] := by
  simp [exhaustedRun, emailMessage, processMessage, retryLoop, mainHandler, pipelineHandler,
    sampleUnmarshal, sampleMessage, sampleWorld, Repository.asInterface,
    Repository.CheckIfProcessed, Repository.MarkAsProcessed, DB.First, DB.Create, DB.advance,
    DB.processedIds, NotificationSender.Send, mainStrategies, SenderStrategy.onPipeline,
    scriptedSender, events, sampleEmail, EmailNotification, ErrEmailSend, backoffDelay, Second]

theorem exhaustedRun_ledger : exhaustedRun.2.db.processedIds = ["n1"] := by
  simp [exhaustedRun, emailMessage, processMessage, retryLoop, mainHandler, pipelineHandler,
    sampleUnmarshal, sampleMessage, sampleWorld, Repository.asInterface,
    Repository.CheckIfProcessed, Repository.MarkAsProcessed, DB.First, DB.Create, DB.advance,
    DB.processedIds, NotificationSender.Send, mainStrategies, SenderStrategy.onPipeline,
    scriptedSender, events, sampleEmail, EmailNotification, ErrEmailSend, backoffDelay, Second]

theorem thirdTimeRun_events : events thirdTimeRun.1 =
    [Event.checkIfProcessed "n1" false none,
     Event.send sampleEmail (some ErrEmailSend),
     Event.log LogLevel.Warn "Failed to send notification, retrying" (some ErrEmailSend),
     Event.sleep 1000000000,
     Event.send sampleEmail (some ErrEmailSend),
     Event.log LogLevel.Warn "Failed to send notification, retrying" (some ErrEmailSend),
     Event.sleep 2000000000,
     Event.send sampleEmail none,
     Event.markAsProcessed "n1" none,
     Event.markMessage emailMessage,
     Event.log LogLevel.Info "Notification processed" none] := by
  simp [thirdTimeRun, emailMessage, processMessage, retryLoop, mainHandler, pipelineHandler,
    sampleUnmarshal, sampleMessage, sampleWorld, Repository.asInterface,
    Repository.CheckIfProcessed, Repository.MarkAsProcessed, DB.First, DB.Create, DB.advance,
    DB.processedIds, NotificationSender.Send, mainStrategies, SenderStrategy.onPipeline,
    scriptedSender, events, sampleEmail, EmailNotification, ErrEmailSend, backoffDelay, Second]

theorem deliveredRun_events : events deliveredRun.1 =
    [Event.checkIfProcessed "n1" false none,
     Event.send sampleEmail none,
     Event.markAsProcessed "n1" none,
     Event.markMessage emailMessage,
     Event.log LogLevel.Info "Notification processed" none] := by
  simp [deliveredRun, emailMessage, processMessage, retryLoop, mainHandler, pipelineHandler,
    sampleUnmarshal, sampleMessage, sampleWorld, Repository.asInterface,
    Repository.CheckIfProcessed, Repository.MarkAsProcessed, DB.First, DB.Create, DB.advance,
    DB.processedIds, NotificationSender.Send, mainStrategies, SenderStrategy.onPipeline,
    scriptedSender, events, sampleEmail, EmailNotification, ErrEmailSend, backoffDelay, Second]

theorem duplicateRun_events : events duplicateRun.1 =
    [Event.checkIfProcessed "n1" true none,
     Event.log LogLevel.Warn "Notification already processed" none] := by
  simp [duplicateRun, emailMessage, processMessage, retryLoop, mainHandler, pipelineHandler,
    sampleUnmarshal, sampleMessage, sampleWorld, Repository.asInterface,
    Repository.CheckIfProcessed, Repository.MarkAsProcessed, DB.First, DB.Create, DB.advance,
    DB.processedIds, NotificationSender.Send, mainStrategies, SenderStrategy.onPipeline,
    scriptedSender, events, sampleEmail, EmailNotification, ErrEmailSend, backoffDelay, Second]

theorem unsupportedRun_events : events unsupportedRun.1 =
    [Event.checkIfProcessed "p1" false none,
     Event.send samplePush (some (noStrategyError "push")),
     Event.log LogLevel.Warn "Failed to send notification, retrying"
       (some (noStrategyError "push")),
     Event.sleep 1000000000,
     Event.send samplePush (some (noStrategyError "push")),
     Event.log LogLevel.Warn "Failed to send notification, retrying"
       (some (noStrategyError "push")),
     Event.sleep 2000000000,
     Event.send samplePush (some (noStrategyError "push")),
     Event.log LogLevel.Warn "Failed to send notification, retrying"
       (some (noStrategyError "push")),
     Event.log LogLevel.Error "Failed to send notification after retries"
       (some (noStrategyError "push")),
     Event.markAsProcessed "p1" none,
     Event.markMessage (sampleMessage "p1" 8),
     Event.log LogLevel.Info "Notification processed" none] := by
  simp [unsupportedRun, emailMessage, processMessage, retryLoop, mainHandler, pipelineHandler,
    sampleUnmarshal, sampleMessage, sampleWorld, Repository.asInterface,
    Repository.CheckIfProcessed, Repository.MarkAsProcessed, DB.First, DB.Create, DB.advance,
    DB.processedIds, NotificationSender.Send, mainStrategies, SenderStrategy.onPipeline,
    scriptedSender, events, samplePush, EmailNotification, ErrEmailSend, backoffDelay, Second]

theorem storeDownRun_events : events storeDownRun.1 =
    [Event.checkIfProcessed "n1" false (some ErrDatabase),
     Event.log LogLevel.Error "Failed to check if notification processed"
       (some ErrDatabase)] := by
  simp [storeDownRun, emailMessage, processMessage, retryLoop, mainHandler, pipelineHandler,
    sampleUnmarshal, sampleMessage, sampleWorld, Repository.asInterface,
    Repository.CheckIfProcessed, Repository.MarkAsProcessed, DB.First, DB.Create, DB.advance,
    DB.processedIds, NotificationSender.Send, mainStrategies, SenderStrategy.onPipeline,
    scriptedSender, events, sampleEmail, EmailNotification, ErrEmailSend, backoffDelay, Second]

theorem markFailsRun_events : events markFailsRun.1 =
    [Event.checkIfProcessed "n1" false none,
     Event.send sampleEmail none,
     Event.markAsProcessed "n1" (some ErrDatabase),
     Event.log LogLevel.Error "Failed to mark notification as processed"
       (some ErrDatabase)] := by
  simp [markFailsRun, emailMessage, processMessage, retryLoop, mainHandler, pipelineHandler,
    sampleUnmarshal, sampleMessage, sampleWorld, Repository.asInterface,
    Repository.CheckIfProcessed, Repository.MarkAsProcessed, DB.First, DB.Create, DB.advance,
    DB.processedIds, NotificationSender.Send, mainStrategies, SenderStrategy.onPipeline,
    scriptedSender, events, sampleEmail, EmailNotification, ErrEmailSend, backoffDelay, Second]

end Evaluation

/-! ## The worker contract -/

section WorkerContract
variable {σ : Type}

/-- C1 (code defect). With retry limit 3, a healthy store and a sender that fails on
every attempt, the worker calls `Send` exactly three times, all failing, and then,
because the `continue` on line 93 only ends the retry loop, goes on to call
`MarkAsProcessed`: the marker for `n1` is written to the ledger and the message is
acknowledged. The claim says no marker is written. -/
theorem exhausted_retries_write_marker :
    sendCount (events exhaustedRun.1) = 3 ∧
    (∀ e ∈ events exhaustedRun.1, e.isSend = true → e.isFailedSend = true) ∧
    markCount (events exhaustedRun.1) = 1 ∧
    Event.markAsProcessed "n1" none ∈ events exhaustedRun.1 ∧
    Event.markMessage emailMessage ∈ events exhaustedRun.1 ∧
    exhaustedRun.2.db.processedIds = ["n1"] := by
  rw [exhaustedRun_events]
  refine ⟨by decide, by decide, by decide, by decide, by decide, exhaustedRun_ledger⟩

/-- C2. With retry limit `R >= 1`, a well-formed message that is not yet processed and a
sender that fails on attempts `1..R-1` and succeeds on attempt `R`: the worker calls
`Send` exactly `R` times, the first `R-1` calls failing, and calls `MarkAsProcessed`
exactly once, straight after the successful `R`-th `Send` and never before it. The
delays slept between the attempts are 1 s, 2 s, ..., `(R-1)` s. -/
theorem retry_until_success (json : String → Except GoError Notification)
    (h : ConsumerHandler σ) (msg : ConsumerMessage) (w w1 : σ) (n : Notification)
    (R : Nat) (hR : 1 ≤ R) (hret : h.retries = (R : Int))
    (hj : json msg.Value = Except.ok n)
    (hc : h.repo.CheckIfProcessed Context.Background n.ID w = ((false, none), w1))
    (hfail : ∀ j, j + 1 < R →
      (h.sender.Send Context.Background n (stateAfterSends h n w1 j)).1 ≠ none)
    (hok : (h.sender.Send Context.Background n (stateAfterSends h n w1 (R - 1))).1 = none) :
    ∃ pre post r,
      events (processMessage json h msg w).1
        = pre ++ Event.send n none :: Event.markAsProcessed n.ID r :: post ∧
      sendCount pre = R - 1 ∧
      (∀ e ∈ pre, e.isSend = true → e.isFailedSend = true) ∧
      markCount pre = 0 ∧
      sendCount post = 0 ∧
      markCount post = 0 ∧
      sendCount (events (processMessage json h msg w).1) = R ∧
      markCount (events (processMessage json h msg w).1) = 1 ∧
      delays (events (processMessage json h msg w).1)
        = (List.range (R - 1)).map (fun i : Nat => Second * ((i : Int) + 1)) := by
  obtain ⟨pre0, hpre0, hcount, hfailed, hnomark, hdel⟩ :=
    retryLoop_fail_then_succeed h n (R - 1) 1 w1 (by omega)
      (fun j hj => hfail j (by omega)) hok
  have hmark0 : markCount pre0 = 0 := by
    simp only [markCount, List.length_eq_zero]
    exact filter_eq_nil_of_all_false Event.isMarkAsProcessed pre0 hnomark
  have hdel1 : delays pre0 = (List.range (R - 1)).map (fun i : Nat => Second * ((i : Int) + 1)) := by
    rw [hdel]
    apply List.map_congr_left
    intro i _
    simp only [backoffDelay]
    congr 1
    ring
  have hfailed1 : ∀ e ∈ Event.checkIfProcessed n.ID false none :: pre0,
      e.isSend = true → e.isFailedSend = true := by
    intro e he
    simp only [List.mem_cons] at he
    rcases he with he | he
    · subst he; intro hx; cases hx
    · exact hfailed e he
  rcases hm : h.repo.MarkAsProcessed Context.Background n.ID (retryLoop h n 1 w1).2
    with ⟨merr, w3⟩
  cases merr with
  | some err =>
    have hev := events_mark_error json h msg w w1 w3 n err hj hc hm
    rw [hpre0] at hev
    refine ⟨Event.checkIfProcessed n.ID false none :: pre0,
      [Event.log LogLevel.Error "Failed to mark notification as processed" (some err)],
      some err, ?_, ?_, hfailed1, ?_, ?_, ?_, ?_, ?_, ?_⟩
    · rw [hev]; simp
    · simp [sendCount_cons, Event.isSend, hcount]
    · simpa [markCount, List.filter_cons, Event.isMarkAsProcessed] using hmark0
    · simp [sendCount, Event.isSend]
    · simp [markCount, Event.isMarkAsProcessed]
    · rw [hev]
      simp [sendCount_append, sendCount_cons, Event.isSend, hcount]
      simp [sendCount]
      omega
    · rw [hev]
      simp [markCount_append, hmark0, markCount, List.filter_cons, Event.isMarkAsProcessed]
      simpa [markCount] using hmark0
    · rw [hev]
      simp [delays_append, delays, hdel1]
  | none =>
    have hev := events_acked json h msg w w1 w3 n hj hc hm
    rw [hpre0] at hev
    refine ⟨Event.checkIfProcessed n.ID false none :: pre0,
      [Event.markMessage msg, Event.log LogLevel.Info "Notification processed" none],
      none, ?_, ?_, hfailed1, ?_, ?_, ?_, ?_, ?_, ?_⟩
    · rw [hev]; simp
    · simp [sendCount_cons, Event.isSend, hcount]
    · simpa [markCount, List.filter_cons, Event.isMarkAsProcessed] using hmark0
    · simp [sendCount, Event.isSend]
    · simp [markCount, Event.isMarkAsProcessed]
    · rw [hev]
      simp [sendCount_append, sendCount_cons, Event.isSend, hcount]
      simp [sendCount]
      omega
    · rw [hev]
      simp [markCount_append, hmark0, markCount, List.filter_cons, Event.isMarkAsProcessed]
      simpa [markCount] using hmark0
    · rw [hev]
      simp [delays_append, delays, hdel1]

/-- C2, witness: retry limit 3 and a sender that fails twice and then succeeds. -/
theorem retry_until_success_witness :
    (mainHandler 3).retries = ((3 : Nat) : Int) ∧
    sampleUnmarshal emailMessage.Value = Except.ok sampleEmail ∧
    ∃ pre post r,
      events thirdTimeRun.1
        = pre ++ Event.send sampleEmail none :: Event.markAsProcessed sampleEmail.ID r :: post ∧
      sendCount pre = 3 - 1 ∧
      (∀ e ∈ pre, e.isSend = true → e.isFailedSend = true) ∧
      markCount pre = 0 ∧
      sendCount post = 0 ∧
      markCount post = 0 ∧
      sendCount (events thirdTimeRun.1) = 3 ∧
      markCount (events thirdTimeRun.1) = 1 ∧
      delays (events thirdTimeRun.1)
        = (List.range (3 - 1)).map (fun i : Nat => Second * ((i : Int) + 1)) := by
  have hj : sampleUnmarshal emailMessage.Value = Except.ok sampleEmail := by
    simp [sampleUnmarshal, emailMessage, sampleMessage, sampleEmail]
  refine ⟨rfl, hj, ?_⟩
  exact retry_until_success sampleUnmarshal (mainHandler 3) emailMessage
    (sampleWorld [] [] [some ErrEmailSend, some ErrEmailSend])
    (sampleWorld [] [] [some ErrEmailSend, some ErrEmailSend]) sampleEmail 3
    (by decide) rfl hj
    (by simp [mainHandler, pipelineHandler, Repository.asInterface,
      Repository.CheckIfProcessed, DB.First, DB.advance, sampleWorld, sampleEmail])
    (by
      intro j hj
      have hcases : j = 0 ∨ j = 1 := by omega
      rcases hcases with rfl | rfl <;>
        simp [stateAfterSends, mainHandler, pipelineHandler, NotificationSender.Send,
          mainStrategies, SenderStrategy.onPipeline, scriptedSender, sampleEmail, sampleWorld,
          EmailNotification])
    (by
      simp [stateAfterSends, mainHandler, pipelineHandler, NotificationSender.Send,
        mainStrategies, SenderStrategy.onPipeline, scriptedSender, sampleEmail, sampleWorld,
        EmailNotification])

/-- C3. The worker acknowledges a message (`session.MarkMessage`) only straight after
`MarkAsProcessed` for the decoded notification id has returned success while processing
that same message: the acknowledged record is the message itself, it is acknowledged once,
no store call of the message has failed, and after the acknowledgment the worker makes
no further call to the store, the sender, the session or the timer (only the closing log
entry follows). -/
theorem ack_only_after_marker_written (json : String → Except GoError Notification)
    (h : ConsumerHandler σ) (msg : ConsumerMessage) (w : σ)
    (pre post : List Event) (m : ConsumerMessage)
    (hsplit : events (processMessage json h msg w).1 = pre ++ Event.markMessage m :: post) :
    m = msg ∧
    (∃ n pre0, json msg.Value = Except.ok n ∧
      pre = pre0 ++ [Event.markAsProcessed n.ID none] ∧ markCount pre0 = 0) ∧
    ackCount pre = 0 ∧
    (∀ e ∈ pre, e.isStoreError = false) ∧
    (∀ e ∈ post, e.isLog = true) := by
  rcases events_shape json h msg w with
    ⟨err, _, hev⟩ | ⟨n, processed, err, _, hev⟩ | ⟨n, _, hev⟩ | ⟨n, w1, err, _, hev⟩ |
    ⟨n, w1, hj, hev⟩
  · exact (no_split Event.isMarkMessage _ pre post (Event.markMessage m)
      (by simp [Event.isMarkMessage]) rfl (hev.symm.trans hsplit)).elim
  · exact (no_split Event.isMarkMessage _ pre post (Event.markMessage m)
      (by simp [Event.isMarkMessage]) rfl (hev.symm.trans hsplit)).elim
  · exact (no_split Event.isMarkMessage _ pre post (Event.markMessage m)
      (by simp [Event.isMarkMessage]) rfl (hev.symm.trans hsplit)).elim
  · refine (no_split Event.isMarkMessage _ pre post (Event.markMessage m) ?_ rfl
      (hev.symm.trans hsplit)).elim
    intro a ha
    simp only [List.cons_append, List.mem_cons, List.mem_append, List.not_mem_nil,
      or_false] at ha
    rcases ha with ha | ha | ha | ha
    · subst ha; rfl
    · exact retryLoop_no_ack h n 1 w1 a ha
    · subst ha; rfl
    · subst ha; rfl
  · have hev2 : (Event.checkIfProcessed n.ID false none :: events (retryLoop h n 1 w1).1 ++
          [Event.markAsProcessed n.ID none]) ++ Event.markMessage msg ::
          [Event.log LogLevel.Info "Notification processed" none]
        = pre ++ Event.markMessage m :: post := by
      rw [← hsplit, hev]; simp
    have hA : ∀ a ∈ Event.checkIfProcessed n.ID false none ::
        events (retryLoop h n 1 w1).1 ++ [Event.markAsProcessed n.ID none],
        a.isMarkMessage = false := by
      intro a ha
      simp only [List.cons_append, List.mem_cons, List.mem_append, List.not_mem_nil,
        or_false] at ha
      rcases ha with ha | ha | ha
      · subst ha; rfl
      · exact retryLoop_no_ack h n 1 w1 a ha
      · subst ha; rfl
    obtain ⟨hpre, hm, hpost⟩ := split_unique Event.isMarkMessage _ _ _ hA
      (by simp [Event.isLog, Event.isMarkMessage]) pre post (Event.markMessage m) rfl hev2
    refine ⟨?_, ⟨n, Event.checkIfProcessed n.ID false none :: events (retryLoop h n 1 w1).1,
      hj, hpre, ?_⟩, ?_, ?_, ?_⟩
    · simpa using hm
    · have hz := filter_eq_nil_of_all_false Event.isMarkAsProcessed _
        (retryLoop_no_mark h n 1 w1)
      simp [markCount, List.filter_cons, Event.isMarkAsProcessed, hz]
    · rw [hpre]
      simp only [ackCount, List.length_eq_zero]
      exact filter_eq_nil_of_all_false Event.isMarkMessage _ hA
    · intro e he
      rw [hpre] at he
      simp only [List.cons_append, List.mem_cons, List.mem_append, List.not_mem_nil,
        or_false] at he
      rcases he with he | he | he
      · subst he; rfl
      · exact retryLoop_no_store_error h n 1 w1 e he
      · subst he; rfl
    · intro e he
      rw [hpost] at he
      simp only [List.mem_singleton] at he
      subst he; rfl

/-- C3, witness: a delivered message; the acknowledgment comes straight after the
successful `MarkAsProcessed` and only the closing log entry follows. -/
theorem ack_only_after_marker_written_witness :
    events deliveredRun.1 =
      [Event.checkIfProcessed "n1" false none, Event.send sampleEmail none,
        Event.markAsProcessed "n1" none] ++
        Event.markMessage emailMessage ::
          [Event.log LogLevel.Info "Notification processed" none] ∧
    (emailMessage = emailMessage ∧
      (∃ n pre0, sampleUnmarshal emailMessage.Value = Except.ok n ∧
        [Event.checkIfProcessed "n1" false none, Event.send sampleEmail none,
          Event.markAsProcessed "n1" none] = pre0 ++ [Event.markAsProcessed n.ID none] ∧
        markCount pre0 = 0) ∧
      ackCount [Event.checkIfProcessed "n1" false none, Event.send sampleEmail none,
        Event.markAsProcessed "n1" none] = 0 ∧
      (∀ e ∈ [Event.checkIfProcessed "n1" false none, Event.send sampleEmail none,
        Event.markAsProcessed "n1" none], e.isStoreError = false) ∧
      (∀ e ∈ [Event.log LogLevel.Info "Notification processed" none], e.isLog = true)) :=
  ⟨deliveredRun_events,
    ack_only_after_marker_written sampleUnmarshal (mainHandler 3) emailMessage
      (sampleWorld [] [] []) _ _ _ deliveredRun_events⟩

/-- C4. When the payload decodes to a notification whose id the idempotency store reports
as processed, the worker calls neither `Send` nor `MarkAsProcessed` for that message. -/
theorem processed_message_never_resent (json : String → Except GoError Notification)
    (h : ConsumerHandler σ) (msg : ConsumerMessage) (w w1 : σ) (n : Notification)
    (hj : json msg.Value = Except.ok n)
    (hc : h.repo.CheckIfProcessed Context.Background n.ID w = ((true, none), w1)) :
    sendCount (events (processMessage json h msg w).1) = 0 ∧
    markCount (events (processMessage json h msg w).1) = 0 := by
  rw [processMessage_already_processed json h msg w w1 n hj hc]
  simp [events, sendCount, markCount, Event.isSend, Event.isMarkAsProcessed]

/-- C4, witness: the ledger already holds `n1`. -/
theorem processed_message_never_resent_witness :
    sampleUnmarshal emailMessage.Value = Except.ok sampleEmail ∧
    sendCount (events duplicateRun.1) = 0 ∧ markCount (events duplicateRun.1) = 0 := by
  have hj : sampleUnmarshal emailMessage.Value = Except.ok sampleEmail := by
    simp [sampleUnmarshal, emailMessage, sampleMessage, sampleEmail]
  exact ⟨hj, processed_message_never_resent sampleUnmarshal (mainHandler 3) emailMessage
    (sampleWorld [{ NotificationId := "n1", CreatedAt := 1600000000 }] [] [])
    (sampleWorld [{ NotificationId := "n1", CreatedAt := 1600000000 }] [] []) sampleEmail hj
    (by simp [mainHandler, pipelineHandler, Repository.asInterface,
      Repository.CheckIfProcessed, DB.First, DB.advance, sampleWorld, sampleEmail])⟩

/-- C5, counterexample: the ledger holds a marker for `n1`, and while the worker
processes the record carrying `n1` it never calls `session.MarkMessage`. -/
theorem processed_message_not_acknowledged :
    "n1" ∈ (sampleWorld [{ NotificationId := "n1", CreatedAt := 1600000000 }] [] []).db.processedIds ∧
    Event.markMessage emailMessage ∉ events duplicateRun.1 ∧
    ackCount (events duplicateRun.1) = 0 := by
  rw [duplicateRun_events]
  refine ⟨by simp [sampleWorld, DB.processedIds], by decide, by decide⟩

/-- C5, as amended. When the notification id is already marked processed the worker
skips delivery and moves on without acknowledging: it logs a warning, makes no `Send`
call and does not call `session.MarkMessage` for that message. -/
theorem processed_message_skipped_without_ack
    (json : String → Except GoError Notification)
    (h : ConsumerHandler σ) (msg : ConsumerMessage) (w w1 : σ) (n : Notification)
    (hj : json msg.Value = Except.ok n)
    (hc : h.repo.CheckIfProcessed Context.Background n.ID w = ((true, none), w1)) :
    events (processMessage json h msg w).1 =
      [Event.checkIfProcessed n.ID true none,
       Event.log LogLevel.Warn "Notification already processed" none] ∧
    ackCount (events (processMessage json h msg w).1) = 0 ∧
    (processMessage json h msg w).2 = w1 := by
  rw [processMessage_already_processed json h msg w w1 n hj hc]
  simp [events, ackCount, Event.isMarkMessage]

/-- C5 as amended, witness: the ledger already holds `n1`. -/
theorem processed_message_skipped_without_ack_witness :
    sampleUnmarshal emailMessage.Value = Except.ok sampleEmail ∧
    events duplicateRun.1 =
      [Event.checkIfProcessed sampleEmail.ID true none,
       Event.log LogLevel.Warn "Notification already processed" none] ∧
    ackCount (events duplicateRun.1) = 0 ∧
    duplicateRun.2 = sampleWorld [{ NotificationId := "n1", CreatedAt := 1600000000 }] [] [] := by
  have hj : sampleUnmarshal emailMessage.Value = Except.ok sampleEmail := by
    simp [sampleUnmarshal, emailMessage, sampleMessage, sampleEmail]
  exact ⟨hj, processed_message_skipped_without_ack sampleUnmarshal (mainHandler 3)
    emailMessage
    (sampleWorld [{ NotificationId := "n1", CreatedAt := 1600000000 }] [] [])
    (sampleWorld [{ NotificationId := "n1", CreatedAt := 1600000000 }] [] []) sampleEmail hj
    (by simp [mainHandler, pipelineHandler, Repository.asInterface,
      Repository.CheckIfProcessed, DB.First, DB.advance, sampleWorld, sampleEmail])⟩

/-- C6, counterexample: with retry limit 3 and no sender registered for the type `push`,
the worker makes three dispatch attempts, not one, and sleeps twice between them. -/
theorem unsupported_channel_attempted_thrice :
    (mainHandler 3).sender.strategies samplePush.Type_ = none ∧
    sendCount (events unsupportedRun.1) = 3 ∧
    sleepCount (events unsupportedRun.1) = 2 ∧
    delays (events unsupportedRun.1) = [1000000000, 2000000000] := by
  rw [unsupportedRun_events]
  refine ⟨by simp [mainHandler, pipelineHandler, mainStrategies, samplePush,
    EmailNotification], by decide, by decide, by decide⟩

/-- C6, as amended. For a message whose notification type has no registered sender,
every dispatch attempt returns the no-strategy error and the worker treats it like any
other send failure: it makes as many attempts as the retry limit allows (`R` of them, none
when `R <= 0`), logs the error after each attempt, and sleeps `k` seconds after the `k`-th
attempt for every `k < R`. -/
theorem unsupported_channel_retried (json : String → Except GoError Notification)
    (h : ConsumerHandler σ) (msg : ConsumerMessage) (w w1 : σ) (n : Notification)
    (hj : json msg.Value = Except.ok n)
    (hc : h.repo.CheckIfProcessed Context.Background n.ID w = ((false, none), w1))
    (hs : h.sender.strategies n.Type_ = none) :
    sendCount (events (processMessage json h msg w).1) = h.retries.toNat ∧
    (∀ e ∈ events (processMessage json h msg w).1, e.isSend = true →
      e = Event.send n (some (noStrategyError n.Type_))) ∧
    (events (processMessage json h msg w).1).count
      (Event.log LogLevel.Warn "Failed to send notification, retrying"
        (some (noStrategyError n.Type_))) = h.retries.toNat ∧
    delays (events (processMessage json h msg w).1)
      = (List.range (h.retries - 1).toNat).map (fun i : Nat => Second * ((i : Int) + 1)) := by
  obtain ⟨r, tail, hev, hinert, hnowarn⟩ := events_dispatched json h msg w w1 n hj hc
  obtain ⟨_, hcount, hall, hdel, hlog⟩ := retryLoop_unsupported h n hs 1 w1
  have hR : (h.retries + 1 - 1).toNat = h.retries.toNat := by congr 1; ring
  rw [hR] at hcount hlog
  have htail0 : sendCount (Event.markAsProcessed n.ID r :: tail) = 0 := by
    simp only [sendCount, List.length_eq_zero]
    exact filter_eq_nil_of_all_false Event.isSend _ (fun e he => (hinert e he).1)
  refine ⟨?_, ?_, ?_, ?_⟩
  · rw [hev, sendCount_append, sendCount_cons, hcount, htail0]
    simp [Event.isSend]
  · intro e he hsend
    rw [hev] at he
    simp only [List.cons_append, List.mem_cons, List.mem_append] at he
    rcases he with he | he | he | he
    · subst he; cases hsend
    · exact hall e he hsend
    · subst he; cases hsend
    · have := (hinert e (by simp [he])).1
      rw [this] at hsend
      cases hsend
  · rw [hev, List.count_append, List.count_cons, hlog]
    have hz : List.count (Event.log LogLevel.Warn "Failed to send notification, retrying"
        (some (noStrategyError n.Type_))) (Event.markAsProcessed n.ID r :: tail) = 0 := by
      rw [List.count_eq_zero]
      intro hmem
      exact hnowarn _ hmem _ rfl
    rw [hz]
    simp
  · rw [hev, delays_append, delays_inert _ hinert]
    simp only [delays, List.append_nil]
    rw [hdel]
    apply List.map_congr_left
    intro i _
    simp only [backoffDelay]
    congr 1
    ring

/-- C6 as amended, witness: retry limit 3 and a push notification. -/
theorem unsupported_channel_retried_witness :
    sampleUnmarshal (sampleMessage "p1" 8).Value = Except.ok samplePush ∧
    (mainHandler 3).sender.strategies samplePush.Type_ = none ∧
    sendCount (events unsupportedRun.1) = (mainHandler 3).retries.toNat ∧
    (∀ e ∈ events unsupportedRun.1, e.isSend = true →
      e = Event.send samplePush (some (noStrategyError samplePush.Type_))) ∧
    (events unsupportedRun.1).count
      (Event.log LogLevel.Warn "Failed to send notification, retrying"
        (some (noStrategyError samplePush.Type_))) = (mainHandler 3).retries.toNat ∧
    delays (events unsupportedRun.1)
      = (List.range ((mainHandler 3).retries - 1).toNat).map
          (fun i : Nat => Second * ((i : Int) + 1)) := by
  have hj : sampleUnmarshal (sampleMessage "p1" 8).Value = Except.ok samplePush := by
    simp [sampleUnmarshal, sampleMessage, samplePush]
  have hs : (mainHandler 3).sender.strategies samplePush.Type_ = none := by
    simp [mainHandler, pipelineHandler, mainStrategies, samplePush, EmailNotification]
  exact ⟨hj, hs, unsupported_channel_retried sampleUnmarshal (mainHandler 3)
    (sampleMessage "p1" 8) (sampleWorld [] [] []) (sampleWorld [] [] []) samplePush hj
    (by simp [mainHandler, pipelineHandler, Repository.asInterface,
      Repository.CheckIfProcessed, DB.First, DB.advance, sampleWorld, samplePush,
      DB.processedIds]) hs⟩

/-- C7, counterexample: the store fails on the idempotency check and the worker makes no
dispatch attempt at all for the message; the store fails on the marker insert and the
worker neither sends again nor repeats the store call, and does not acknowledge. -/
theorem store_error_no_redispatch :
    (events storeDownRun.1 =
      [Event.checkIfProcessed "n1" false (some ErrDatabase),
       Event.log LogLevel.Error "Failed to check if notification processed"
         (some ErrDatabase)] ∧
     sendCount (events storeDownRun.1) = 0) ∧
    (events markFailsRun.1 =
      [Event.checkIfProcessed "n1" false none,
       Event.send sampleEmail none,
       Event.markAsProcessed "n1" (some ErrDatabase),
       Event.log LogLevel.Error "Failed to mark notification as processed"
         (some ErrDatabase)] ∧
     sendCount (events markFailsRun.1) = 1 ∧
     markCount (events markFailsRun.1) = 1 ∧
     ackCount (events markFailsRun.1) = 0) := by
  rw [storeDownRun_events, markFailsRun_events]
  refine ⟨⟨rfl, by decide⟩, rfl, by decide, by decide, by decide⟩

/-- C7, as amended. When a call to the idempotency store returns an error, the worker
logs the error and abandons the message at once: whichever store call failed, the only
thing that follows it in the processing of the message is one error log entry (no
`Send`, no further store call, no acknowledgment). -/
theorem store_error_abandons_message (json : String → Except GoError Notification)
    (h : ConsumerHandler σ) (msg : ConsumerMessage) (w : σ)
    (pre post : List Event) (e : Event)
    (hsplit : events (processMessage json h msg w).1 = pre ++ e :: post)
    (he : e.isStoreError = true) :
    ∃ text err, post = [Event.log LogLevel.Error text (some err)] := by
  rcases events_shape json h msg w with
    ⟨err, _, hev⟩ | ⟨n, processed, err, _, hev⟩ | ⟨n, _, hev⟩ | ⟨n, w1, err, _, hev⟩ |
    ⟨n, w1, hj, hev⟩
  · exact (no_split Event.isStoreError _ pre post e
      (by simp [Event.isStoreError]) he (hev.symm.trans hsplit)).elim
  · obtain ⟨_, _, hpost⟩ := split_unique Event.isStoreError [] _ _
      (by simp) (by simp [Event.isStoreError]) pre post e he (hev.symm.trans hsplit)
    exact ⟨_, err, hpost⟩
  · exact (no_split Event.isStoreError _ pre post e
      (by simp [Event.isStoreError]) he (hev.symm.trans hsplit)).elim
  · have hA : ∀ a ∈ Event.checkIfProcessed n.ID false none ::
        events (retryLoop h n 1 w1).1, a.isStoreError = false := by
      intro a ha
      simp only [List.mem_cons] at ha
      rcases ha with ha | ha
      · subst ha; rfl
      · exact retryLoop_no_store_error h n 1 w1 a ha
    obtain ⟨_, _, hpost⟩ := split_unique Event.isStoreError _ _ _ hA
      (by simp [Event.isStoreError]) pre post e he (hev.symm.trans hsplit)
    exact ⟨_, err, hpost⟩
  · refine (no_split Event.isStoreError _ pre post e ?_ he (hev.symm.trans hsplit)).elim
    intro a ha
    simp only [List.cons_append, List.mem_cons, List.mem_append, List.not_mem_nil,
      or_false] at ha
    rcases ha with ha | ha | ha | ha | ha
    · subst ha; rfl
    · exact retryLoop_no_store_error h n 1 w1 a ha
    · subst ha; rfl
    · subst ha; rfl
    · subst ha; rfl

/-- C7 as amended, witness: the store fails on the marker insert. -/
theorem store_error_abandons_message_witness :
    (Event.markAsProcessed "n1" (some ErrDatabase)).isStoreError = true ∧
    ∃ text err,
      [Event.log LogLevel.Error "Failed to mark notification as processed" (some ErrDatabase)]
        = [Event.log LogLevel.Error text (some err)] :=
  ⟨rfl, store_error_abandons_message sampleUnmarshal (mainHandler 3) emailMessage
    (sampleWorld [] [false, true] [])
    [Event.checkIfProcessed "n1" false none, Event.send sampleEmail none]
    [Event.log LogLevel.Error "Failed to mark notification as processed" (some ErrDatabase)]
    (Event.markAsProcessed "n1" (some ErrDatabase)) markFailsRun_events rfl⟩

/-- C8. Whatever the retry limit `R` and whatever the sender does, the `k`-th send
attempt of a message (`k >= 1`) is made only if `k <= R`; when it fails and `k < R` the
worker then sleeps exactly `k` times one second; after a successful attempt and after
the `R`-th attempt it does not sleep; and the delays slept while processing the message
are strictly increasing. -/
theorem backoff_is_linear (json : String → Except GoError Notification)
    (h : ConsumerHandler σ) (msg : ConsumerMessage) (w : σ)
    (k : Nat) (res : Option GoError) (d : Option Int) (hk1 : 1 ≤ k)
    (hk : (attempts (events (processMessage json h msg w).1))[k - 1]? = some (res, d)) :
    (k : Int) ≤ h.retries ∧
    (res ≠ none → (k : Int) < h.retries → d = some (Second * (k : Int))) ∧
    (res = none → d = none) ∧
    ((k : Int) = h.retries → d = none) ∧
    List.Pairwise (fun x y : Int => x < y) (delays (events (processMessage json h msg w).1)) := by
  have key : ∀ (n : Notification) (w1 : σ) (r : Option GoError) (tail : List Event),
      events (processMessage json h msg w).1 =
        (Event.checkIfProcessed n.ID false none :: events (retryLoop h n 1 w1).1) ++
          Event.markAsProcessed n.ID r :: tail →
      (∀ e ∈ Event.markAsProcessed n.ID r :: tail, e.isSend = false ∧ e.isSleep = false) →
      (k : Int) ≤ h.retries ∧
      (res ≠ none → (k : Int) < h.retries → d = some (Second * (k : Int))) ∧
      (res = none → d = none) ∧
      ((k : Int) = h.retries → d = none) ∧
      List.Pairwise (fun x y : Int => x < y)
        (delays (events (processMessage json h msg w).1)) := by
    intro n w1 r tail hev hinert
    have hatt : attempts (events (processMessage json h msg w).1)
        = attempts (events (retryLoop h n 1 w1).1) := by
      rw [hev, List.cons_append]
      simp only [attempts]
      exact attempts_append_inert _ _ hinert
    have hdel : delays (events (processMessage json h msg w).1)
        = delays (events (retryLoop h n 1 w1).1) := by
      rw [hev, delays_append, delays_inert _ hinert]
      simp [delays]
    rw [hatt] at hk
    obtain ⟨hle, hd⟩ := retryLoop_attempts h n 1 w1 (k - 1) res d hk
    have hcast : (1 : Int) + ((k - 1 : Nat) : Int) = (k : Int) := by omega
    rw [hcast] at hle hd
    refine ⟨hle, ?_, ?_, ?_, ?_⟩
    · intro hres hlt
      have hsome : res.isSome = true := by
        cases res with
        | none => exact (hres rfl).elim
        | some _ => rfl
      rw [hd, if_pos ⟨hsome, hlt⟩]
      rfl
    · intro hres
      rw [hd, hres]
      simp
    · intro heq
      rw [hd, if_neg]
      intro hcon
      omega
    · rw [hdel]
      obtain ⟨j, hj⟩ := retryLoop_delays h n 1 w1
      rw [hj]
      exact delays_increasing 1 j
  rcases events_shape json h msg w with
    ⟨err, _, hev⟩ | ⟨n, processed, err, _, hev⟩ | ⟨n, _, hev⟩ | ⟨n, w1, err, _, hev⟩ |
    ⟨n, w1, _, hev⟩
  · rw [hev] at hk; simp [attempts] at hk
  · rw [hev] at hk; simp [attempts] at hk
  · rw [hev] at hk; simp [attempts] at hk
  · refine key n w1 (some err) _ hev ?_
    intro e he
    simp only [List.mem_cons, List.mem_singleton, List.not_mem_nil, or_false] at he
    rcases he with he | he <;> subst he <;> exact ⟨rfl, rfl⟩
  · refine key n w1 none _ hev ?_
    intro e he
    simp only [List.mem_cons, List.mem_singleton, List.not_mem_nil, or_false] at he
    rcases he with he | he | he <;> subst he <;> exact ⟨rfl, rfl⟩

/-- C8, witness: retry limit 3, the second attempt fails and is followed by a sleep of
two seconds. -/
theorem backoff_is_linear_witness :
    (attempts (events thirdTimeRun.1))[2 - 1]? = some (some ErrEmailSend, some 2000000000) ∧
    (((2 : Nat) : Int) ≤ (mainHandler 3).retries ∧
     (some ErrEmailSend ≠ none → ((2 : Nat) : Int) < (mainHandler 3).retries →
       some 2000000000 = some (Second * ((2 : Nat) : Int))) ∧
     (some ErrEmailSend = none → some (2000000000 : Int) = none) ∧
     (((2 : Nat) : Int) = (mainHandler 3).retries → some (2000000000 : Int) = none) ∧
     List.Pairwise (fun x y : Int => x < y) (delays (events thirdTimeRun.1))) := by
  have hk : (attempts (events thirdTimeRun.1))[2 - 1]?
      = some (some ErrEmailSend, some 2000000000) := by
    rw [thirdTimeRun_events]
    simp [attempts, nextSleep]
  exact ⟨hk, backoff_is_linear sampleUnmarshal (mainHandler 3) emailMessage
    (sampleWorld [] [] [some ErrEmailSend, some ErrEmailSend]) 2 (some ErrEmailSend)
    (some 2000000000) (by decide) hk⟩

/-- C9. A message whose payload `json.Unmarshal` rejects is dropped: the worker logs the
error and makes no idempotency check, no `Send`, no backoff sleep, no `MarkAsProcessed`
and no acknowledgment for it, leaves the world as it was, and goes on with the next
message. -/
theorem malformed_message_dropped (json : String → Except GoError Notification)
    (h : ConsumerHandler σ) (msg : ConsumerMessage) (w : σ) (err : GoError)
    (hj : json msg.Value = Except.error err) :
    events (processMessage json h msg w).1 =
      [Event.log LogLevel.Error "Failed to un-marshall notification" (some err)] ∧
    (processMessage json h msg w).2 = w ∧
    ((events (processMessage json h msg w).1).filter Event.isCheckIfProcessed = [] ∧
     sendCount (events (processMessage json h msg w).1) = 0 ∧
     sleepCount (events (processMessage json h msg w).1) = 0 ∧
     markCount (events (processMessage json h msg w).1) = 0 ∧
     ackCount (events (processMessage json h msg w).1) = 0) ∧
    ∀ rest : List ConsumerMessage,
      workerLoop json h (msg :: rest) w =
        ((w, Event.log LogLevel.Error "Failed to un-marshall notification" (some err))
          :: (workerLoop json h rest w).1, (workerLoop json h rest w).2) := by
  refine ⟨?_, ?_, ?_, ?_⟩
  · rw [processMessage_malformed json h msg w err hj]; rfl
  · rw [processMessage_malformed json h msg w err hj]
  · rw [processMessage_malformed json h msg w err hj]
    simp [events, sendCount, sleepCount, markCount, ackCount, Event.isSend, Event.isSleep,
      Event.isMarkAsProcessed, Event.isMarkMessage, Event.isCheckIfProcessed]
  · intro rest
    rw [workerLoop, processMessage_malformed json h msg w err hj]
    rfl

/-- C9, witness: the payload `garbage` is rejected by the decoder. -/
theorem malformed_message_dropped_witness :
    sampleUnmarshal (sampleMessage "garbage" 6).Value
      = Except.error "invalid character in payload" ∧
    events (processMessage sampleUnmarshal (mainHandler 3) (sampleMessage "garbage" 6)
      (sampleWorld [] [] [])).1 =
      [Event.log LogLevel.Error "Failed to un-marshall notification"
        (some "invalid character in payload")] ∧
    (processMessage sampleUnmarshal (mainHandler 3) (sampleMessage "garbage" 6)
      (sampleWorld [] [] [])).2 = sampleWorld [] [] [] := by
  have hj : sampleUnmarshal (sampleMessage "garbage" 6).Value
      = Except.error "invalid character in payload" := by
    simp [sampleUnmarshal, sampleMessage]
  have hw := malformed_message_dropped sampleUnmarshal (mainHandler 3)
    (sampleMessage "garbage" 6) (sampleWorld [] [] []) "invalid character in payload" hj
  exact ⟨hj, hw.1, hw.2.1⟩

end WorkerContract

/-! ## The ledger invariant -/

/-- C10. For every sequence of messages one worker processes in order against the
ledger of `database.Repository` (whatever the registered senders do and whichever
database statements fail), starting from a ledger without duplicates: the ledger holds
at most one marker per notification id in every state of the run and at its end, and
every `MarkAsProcessed` call is made for an id that has no marker at that moment. -/
theorem ledger_one_marker_per_id {σs : Type} (json : String → Except GoError Notification)
    (strategies : NotificationType → Option (SenderStrategy σs))
    (workers retries : Int) (msgs : List ConsumerMessage) (w : PipelineWorld σs)
    (hnd : w.db.processedIds.Nodup) :
    (workerLoop json (pipelineHandler strategies workers retries) msgs w).2.db.processedIds.Nodup ∧
    ∀ p ∈ (workerLoop json (pipelineHandler strategies workers retries) msgs w).1,
      p.1.db.processedIds.Nodup ∧
      ∀ id res, p.2 = Event.markAsProcessed id res → id ∉ p.1.db.processedIds := by
  induction msgs generalizing w with
  | nil =>
    exact ⟨hnd, by simp [workerLoop]⟩
  | cons msg rest ih =>
    obtain ⟨h1, h2⟩ := pipeline_processMessage_ledger json strategies workers retries msg w hnd
    obtain ⟨h3, h4⟩ := ih (processMessage json (pipelineHandler strategies workers retries)
      msg w).2 h1
    refine ⟨h3, ?_⟩
    intro p hp
    simp only [workerLoop, List.mem_append] at hp
    rcases hp with hp | hp
    · exact h2 p hp
    · exact h4 p hp

/-- C10, witness: one worker, retry limit 3, an empty ledger and the records `garbage`,
`n1`, `n1`. -/
theorem ledger_one_marker_per_id_witness :
    (sampleWorld [] [] []).db.processedIds.Nodup ∧
    batchRun.2.db.processedIds.Nodup ∧
    ∀ p ∈ batchRun.1,
      p.1.db.processedIds.Nodup ∧
      ∀ id res, p.2 = Event.markAsProcessed id res → id ∉ p.1.db.processedIds :=
  ⟨by simp [sampleWorld, DB.processedIds],
    ledger_one_marker_per_id sampleUnmarshal mainStrategies 5 3
      [sampleMessage "garbage" 6, emailMessage, sampleMessage "n1" 9] (sampleWorld [] [] [])
      (by simp [sampleWorld, DB.processedIds])⟩

/-! ## The sender registry -/

/-- C11. For every registry and every notification `n`: when a sender is registered for
`n.Type`, `NotificationSender.Send` returns exactly what that sender returns and leaves
the world as that sender leaves it, the sender being invoked once, with the same context
and `n`; when none is registered it returns the no-strategy error, changes nothing and
invokes no sender. -/
theorem registry_delegates_once {σ : Type} (s : NotificationSender σ) (ctx : Context)
    (n : Notification) (w : σ) (calls : List SendCall) :
    (∀ strategy, s.strategies n.Type_ = some strategy →
      NotificationSender.Send s ctx n w = strategy.Send ctx n w ∧
      NotificationSender.Send s.recorded ctx n (w, calls) =
        ((strategy.Send ctx n w).1,
          ((strategy.Send ctx n w).2,
            calls ++ [{ key := n.Type_, ctx := ctx, notification := n }]))) ∧
    (s.strategies n.Type_ = none →
      NotificationSender.Send s ctx n w = (some (noStrategyError n.Type_), w) ∧
      NotificationSender.Send s.recorded ctx n (w, calls) =
        (some (noStrategyError n.Type_), (w, calls))) := by
  constructor
  · intro strategy hs
    simp [NotificationSender.Send, NotificationSender.recorded, SenderStrategy.recorded, hs]
  · intro hs
    simp [NotificationSender.Send, NotificationSender.recorded, hs]

/-- C11, witness: the registry of `main.go`, asked for an email (registered) and for a
push notification (not registered). -/
theorem registry_delegates_once_witness :
    (NotificationSender.Send (NotificationSender.recorded { strategies := mainStrategies })
        Context.Background sampleEmail ([some ErrEmailSend], []) =
      (some ErrEmailSend,
        ([], [{ key := EmailNotification, ctx := Context.Background,
                notification := sampleEmail }]))) ∧
    (NotificationSender.Send (NotificationSender.recorded { strategies := mainStrategies })
        Context.Background samplePush ([some ErrEmailSend], []) =
      (some (noStrategyError "push"), ([some ErrEmailSend], []))) :=
  ⟨((registry_delegates_once { strategies := mainStrategies } Context.Background sampleEmail
      [some ErrEmailSend] []).1 scriptedSender rfl).2,
   ((registry_delegates_once { strategies := mainStrategies } Context.Background samplePush
      [some ErrEmailSend] []).2 rfl).2⟩

/-! ## The rate limiter -/

section RateLimiterContract
variable {τ : Type}

theorem allow_result (lib : RateLib τ) (r : RateLimiter τ) (ctx : Context) (key : String) :
    (RateLimiter.Allow lib r ctx key).1
      = (lib.Wait ctx (r.bucket lib key)).1.map (fun _ => ErrRateLimit) := by
  unfold RateLimiter.Allow
  rcases hw : lib.Wait ctx (r.bucket lib key) with ⟨res, l1⟩
  cases res <;> simp [hw]

theorem allow_limiters (lib : RateLib τ) (r : RateLimiter τ) (ctx : Context) (key : String) :
    (RateLimiter.Allow lib r ctx key).2 =
      { r with limiters := fun k =>
          if k = key then some (lib.Wait ctx (r.bucket lib key)).2 else r.limiters k } := by
  unfold RateLimiter.Allow
  rcases hw : lib.Wait ctx (r.bucket lib key) with ⟨res, l1⟩
  cases res <;> simp [hw]

/-- C19. `RateLimiter.Allow` returns `domain.ErrRateLimit` whenever `limiter.Wait(ctx)`
on the bucket of the key returns an error (the wait was aborted), returns nil exactly
when the wait succeeds, and never returns any other error. -/
theorem allow_error_is_rate_limit (lib : RateLib τ) (r : RateLimiter τ) (ctx : Context)
    (key : String) :
    ((lib.Wait ctx (r.bucket lib key)).1 ≠ none →
      (RateLimiter.Allow lib r ctx key).1 = some ErrRateLimit) ∧
    ((RateLimiter.Allow lib r ctx key).1 = none ↔
      (lib.Wait ctx (r.bucket lib key)).1 = none) ∧
    ((RateLimiter.Allow lib r ctx key).1 = none ∨
      (RateLimiter.Allow lib r ctx key).1 = some ErrRateLimit) := by
  rw [allow_result]
  cases (lib.Wait ctx (r.bucket lib key)).1 <;> simp

/-- C19, witness: a cancelled context makes the stand-in library fail the wait. -/
theorem allow_error_is_rate_limit_witness :
    (sampleLib.Wait { deadline := none, cancelled := true }
      ((NewRateLimiter Float64.ten 20).bucket sampleLib "a@b.com")).1 ≠ none ∧
    (RateLimiter.Allow sampleLib (NewRateLimiter Float64.ten 20)
      { deadline := none, cancelled := true } "a@b.com").1 = some ErrRateLimit :=
  ⟨by simp [sampleLib],
   (allow_error_is_rate_limit sampleLib (NewRateLimiter Float64.ten 20)
      { deadline := none, cancelled := true } "a@b.com").1 (by simp [sampleLib])⟩

/-- C20. `RateLimiter.Allow(ctx, key)` leaves the limiter's rate and burst and the bucket
of every other key as they were; a key that has a bucket keeps that bucket (it is the
one the wait is made on, not a new one); a key without a bucket gets one made with the
limiter's own rate and burst; and every key that had a bucket still has one. -/
theorem allow_only_adds_buckets (lib : RateLib τ) (r : RateLimiter τ) (ctx : Context)
    (key : String) :
    (RateLimiter.Allow lib r ctx key).2.rate = r.rate ∧
    (RateLimiter.Allow lib r ctx key).2.burst = r.burst ∧
    (∀ k, k ≠ key → (RateLimiter.Allow lib r ctx key).2.limiters k = r.limiters k) ∧
    (∀ limiter, r.limiters key = some limiter →
      (RateLimiter.Allow lib r ctx key).2.limiters key = some (lib.Wait ctx limiter).2) ∧
    (r.limiters key = none →
      (RateLimiter.Allow lib r ctx key).2.limiters key
        = some (lib.Wait ctx (lib.NewLimiter r.rate r.burst)).2) ∧
    (∀ k, r.hasBucket k = true → (RateLimiter.Allow lib r ctx key).2.hasBucket k = true) := by
  rw [allow_limiters]
  refine ⟨rfl, rfl, ?_, ?_, ?_, ?_⟩
  · intro k hk
    simp [hk]
  · intro limiter hl
    simp [RateLimiter.bucket, hl]
  · intro hl
    simp [RateLimiter.bucket, hl]
  · intro k hk
    by_cases hkey : k = key
    · simp [RateLimiter.hasBucket, hkey]
    · simpa [RateLimiter.hasBucket, hkey] using hk

/-- C20, witness: a first call for `a@b.com` creates its bucket with rate 10 and burst 20,
a second call waits on that same bucket and leaves the other keys without one. -/
theorem allow_only_adds_buckets_witness :
    (NewRateLimiter Float64.ten 20 : RateLimiter Nat).limiters "a@b.com" = none ∧
    (RateLimiter.Allow sampleLib (NewRateLimiter Float64.ten 20) Context.Background
      "a@b.com").2.limiters "a@b.com"
      = some (sampleLib.Wait Context.Background (sampleLib.NewLimiter Float64.ten 20)).2 ∧
    (RateLimiter.Allow sampleLib
      (RateLimiter.Allow sampleLib (NewRateLimiter Float64.ten 20) Context.Background
        "a@b.com").2 Context.Background "a@b.com").2.limiters "a@b.com"
      = some (sampleLib.Wait Context.Background
          (sampleLib.Wait Context.Background (sampleLib.NewLimiter Float64.ten 20)).2).2 :=
  ⟨rfl,
   (allow_only_adds_buckets sampleLib (NewRateLimiter Float64.ten 20) Context.Background
      "a@b.com").2.2.2.2.1 rfl,
   (allow_only_adds_buckets sampleLib
      (RateLimiter.Allow sampleLib (NewRateLimiter Float64.ten 20) Context.Background
        "a@b.com").2 Context.Background "a@b.com").2.2.2.1
      (sampleLib.Wait Context.Background (sampleLib.NewLimiter Float64.ten 20)).2
      ((allow_only_adds_buckets sampleLib (NewRateLimiter Float64.ten 20) Context.Background
        "a@b.com").2.2.2.2.1 rfl)⟩

end RateLimiterContract

/-! ## The connection pool -/

section PoolLemmas

theorem updateAt_length_append {α : Type} (f : α → α) (l : List α) (a : α) :
    updateAt f l.length (l ++ [a]) = l ++ [f a] := by
  induction l with
  | nil => rfl
  | cons b l ih => simp [updateAt, ih]

theorem getElem?_length_append {α : Type} (l : List α) (a : α) :
    (l ++ [a])[l.length]? = some a := by
  simp

/-- A client that has just been dialed, upgraded and authenticated is live. -/
theorem fresh_client_live (addr : String) (net : SmtpNet) (net1 net2 net3 : SmtpNet)
    (client : Nat)
    (hd : smtpDial addr net = (Except.ok client, net1))
    (ht : Client.StartTLS client net1 = (none, net2))
    (ha : Client.Auth client net2 = (none, net3)) :
    client = net.clients.length ∧ net3.isLive client = true := by
  unfold smtpDial at hd
  cases hn : net.next with
  | some err => simp [hn] at hd
  | none =>
    simp only [hn, Prod.mk.injEq, Except.ok.injEq] at hd
    obtain ⟨hc, hnet1⟩ := hd
    subst hc
    subst hnet1
    unfold Client.StartTLS at ht
    cases hn1 : SmtpNet.next { net.advance with
        clients := net.clients ++
          [{ addr := addr, tls := false, authed := false, quit := false, closed := false }] } with
    | some err => simp [hn1] at ht
    | none =>
      simp only [hn1, Prod.mk.injEq, true_and] at ht
      subst ht
      unfold Client.Auth at ha
      simp only [SmtpNet.update, SmtpNet.advance, updateAt_length_append] at ha
      split at ha
      · simp at ha
      · simp only [Prod.mk.injEq, true_and] at ha
        subst ha
        refine ⟨rfl, ?_⟩
        simp [SmtpNet.isLive, SmtpNet.update, SmtpNet.advance, updateAt_length_append,
          ClientState.live]

theorem get_dial_error (p : smtpPool) (net net1 : SmtpNet) (err : GoError)
    (hc : p.conns = [])
    (hd : smtpDial (p.host ++ ":587") net = (Except.error err, net1)) :
    smtpPool.Get p net =
      (Except.error err, p, net1, [SmtpEvent.dial (p.host ++ ":587") none (some err)]) := by
  unfold smtpPool.Get
  rw [hc]
  simp only [hd]

theorem get_tls_error (p : smtpPool) (net net1 net2 : SmtpNet) (client : Nat) (err : GoError)
    (hc : p.conns = [])
    (hd : smtpDial (p.host ++ ":587") net = (Except.ok client, net1))
    (ht : Client.StartTLS client net1 = (some err, net2)) :
    smtpPool.Get p net =
      (Except.error err, p, Client.Close client net2,
        [SmtpEvent.dial (p.host ++ ":587") (some client) none,
         SmtpEvent.startTLS client p.host (some err),
         SmtpEvent.close client]) := by
  unfold smtpPool.Get
  rw [hc]
  simp only [hd, ht]

theorem get_auth_error (p : smtpPool) (net net1 net2 net3 : SmtpNet) (client : Nat)
    (err : GoError) (hc : p.conns = [])
    (hd : smtpDial (p.host ++ ":587") net = (Except.ok client, net1))
    (ht : Client.StartTLS client net1 = (none, net2))
    (ha : Client.Auth client net2 = (some err, net3)) :
    smtpPool.Get p net =
      (Except.error err, p, Client.Close client net3,
        [SmtpEvent.dial (p.host ++ ":587") (some client) none,
         SmtpEvent.startTLS client p.host none,
         SmtpEvent.auth client (some err),
         SmtpEvent.close client]) := by
  unfold smtpPool.Get
  rw [hc]
  simp only [hd, ht, ha]

theorem get_fresh (p : smtpPool) (net net1 net2 net3 : SmtpNet) (client : Nat)
    (hc : p.conns = [])
    (hd : smtpDial (p.host ++ ":587") net = (Except.ok client, net1))
    (ht : Client.StartTLS client net1 = (none, net2))
    (ha : Client.Auth client net2 = (none, net3)) :
    smtpPool.Get p net =
      (Except.ok client, p, net3,
        [SmtpEvent.dial (p.host ++ ":587") (some client) none,
         SmtpEvent.startTLS client p.host none,
         SmtpEvent.auth client none]) := by
  unfold smtpPool.Get
  rw [hc]
  simp only [hd, ht, ha]

end PoolLemmas

/-- C15. When the pool holds an idle connection, `smtpPool.Get` returns the oldest one,
removes it from the pool and performs no network operation. When it holds none, it
does not wait: it dials, upgrades to TLS and authenticates a new client, in that order,
stopping at the first step that fails (and closing the client if it was dialed); it
returns an error exactly when one of the three steps failed, and otherwise the new
client, which is live; the pool itself is left as it was. -/
theorem pool_get_prefers_idle (p : smtpPool) (net : SmtpNet) :
    (∀ client rest, p.conns = client :: rest →
      smtpPool.Get p net = (Except.ok client, { p with conns := rest }, net, [])) ∧
    (p.conns = [] →
      (smtpPool.Get p net).2.1 = p ∧
      ((∃ err, (smtpPool.Get p net).1 = Except.error err ∧
          (smtpPool.Get p net).2.2.2 = [SmtpEvent.dial (p.host ++ ":587") none (some err)]) ∨
       (∃ client err, (smtpPool.Get p net).1 = Except.error err ∧
          (smtpPool.Get p net).2.2.2 =
            [SmtpEvent.dial (p.host ++ ":587") (some client) none,
             SmtpEvent.startTLS client p.host (some err),
             SmtpEvent.close client]) ∨
       (∃ client err, (smtpPool.Get p net).1 = Except.error err ∧
          (smtpPool.Get p net).2.2.2 =
            [SmtpEvent.dial (p.host ++ ":587") (some client) none,
             SmtpEvent.startTLS client p.host none,
             SmtpEvent.auth client (some err),
             SmtpEvent.close client]) ∨
       (∃ client, (smtpPool.Get p net).1 = Except.ok client ∧
          (smtpPool.Get p net).2.2.2 =
            [SmtpEvent.dial (p.host ++ ":587") (some client) none,
             SmtpEvent.startTLS client p.host none,
             SmtpEvent.auth client none] ∧
          client = net.clients.length ∧
          (smtpPool.Get p net).2.2.1.isLive client = true))) := by
  constructor
  · intro client rest hc
    simp [smtpPool.Get, hc]
  · intro hc
    rcases hd : smtpDial (p.host ++ ":587") net with ⟨dres, net1⟩
    cases dres with
    | error err =>
      rw [get_dial_error p net net1 err hc hd]
      exact ⟨rfl, Or.inl ⟨err, rfl, rfl⟩⟩
    | ok client =>
      rcases ht : Client.StartTLS client net1 with ⟨tres, net2⟩
      cases tres with
      | some err =>
        rw [get_tls_error p net net1 net2 client err hc hd ht]
        exact ⟨rfl, Or.inr (Or.inl ⟨client, err, rfl, rfl⟩)⟩
      | none =>
        rcases ha : Client.Auth client net2 with ⟨ares, net3⟩
        cases ares with
        | some err =>
          rw [get_auth_error p net net1 net2 net3 client err hc hd ht ha]
          exact ⟨rfl, Or.inr (Or.inr (Or.inl ⟨client, err, rfl, rfl⟩))⟩
        | none =>
          obtain ⟨h1, h2⟩ := fresh_client_live _ net net1 net2 net3 client hd ht ha
          rw [get_fresh p net net1 net2 net3 client hc hd ht ha]
          exact ⟨rfl, Or.inr (Or.inr (Or.inr ⟨client, rfl, rfl, h1, h2⟩))⟩

section PoolInvariant

/-- Whatever happens on the network, `Get` leaves the pool with its oldest connection
removed, if it had one, and otherwise unchanged. -/
theorem get_pool (p : smtpPool) (net : SmtpNet) :
    (smtpPool.Get p net).2.1 = { p with conns := p.conns.tail } := by
  cases hc : p.conns with
  | cons client rest => simp [smtpPool.Get, hc]
  | nil =>
    have hp : ({ p with conns := [] } : smtpPool) = p := by
      cases p
      simp_all
    rw [List.tail_nil, hp]
    rcases hd : smtpDial (p.host ++ ":587") net with ⟨dres, net1⟩
    cases dres with
    | error err => rw [get_dial_error p net net1 err hc hd]
    | ok client =>
      rcases ht : Client.StartTLS client net1 with ⟨tres, net2⟩
      cases tres with
      | some err => rw [get_tls_error p net net1 net2 client err hc hd ht]
      | none =>
        rcases ha : Client.Auth client net2 with ⟨ares, net3⟩
        cases ares with
        | some err => rw [get_auth_error p net net1 net2 net3 client err hc hd ht ha]
        | none => rw [get_fresh p net net1 net2 net3 client hc hd ht ha]

theorem put_pool (p : smtpPool) (client : Nat) (net : SmtpNet) :
    (smtpPool.Put p client net).1.capacity = p.capacity ∧
    ((smtpPool.Put p client net).1.conns.length ≤ p.capacity ∨
      (smtpPool.Put p client net).1.conns = p.conns) := by
  unfold smtpPool.Put
  by_cases h : p.conns.length < p.capacity
  · rw [if_pos h]
    refine ⟨rfl, Or.inl ?_⟩
    simp only [List.length_append, List.length_singleton]
    omega
  · rw [if_neg h]
    exact ⟨rfl, Or.inr rfl⟩

theorem runPoolOps_bounded (ops : List PoolOp) :
    ∀ (p : smtpPool) (net : SmtpNet), p.conns.length ≤ p.capacity →
      (runPoolOps ops p net).1.conns.length ≤ p.capacity ∧
      (runPoolOps ops p net).1.capacity = p.capacity := by
  induction ops with
  | nil =>
    intro p net h
    exact ⟨h, rfl⟩
  | cons op ops ih =>
    intro p net h
    cases op with
    | get =>
      have hg := get_pool p net
      have hlen : (smtpPool.Get p net).2.1.conns.length ≤ (smtpPool.Get p net).2.1.capacity := by
        rw [hg]
        simp only [List.length_tail]
        omega
      have hcap : (smtpPool.Get p net).2.1.capacity = p.capacity := by rw [hg]
      obtain ⟨h1, h2⟩ := ih _ (smtpPool.Get p net).2.2.1 hlen
      simp only [runPoolOps]
      rw [hcap] at h1 h2
      exact ⟨h1, h2⟩
    | put client =>
      obtain ⟨hcap, hor⟩ := put_pool p client net
      have hlen : (smtpPool.Put p client net).1.conns.length
          ≤ (smtpPool.Put p client net).1.capacity := by
        rw [hcap]
        rcases hor with hor | hor
        · exact hor
        · rw [hor]; exact h
      obtain ⟨h1, h2⟩ := ih _ (smtpPool.Put p client net).2.1 hlen
      simp only [runPoolOps]
      rw [hcap] at h1 h2
      exact ⟨h1, h2⟩

/-- A successful construction fills the pool to its capacity. -/
theorem fill_full (addr : String) :
    ∀ (remaining : Nat) (pool pool1 : smtpPool) (net : SmtpNet),
      (newSMTPPool.fill pool addr remaining net).1 = Except.ok pool1 →
      pool1.capacity = pool.capacity ∧
      pool1.conns.length = pool.conns.length + remaining := by
  intro remaining
  induction remaining with
  | zero =>
    intro pool pool1 net h
    simp only [newSMTPPool.fill, Except.ok.injEq] at h
    subst h
    exact ⟨rfl, rfl⟩
  | succ k ih =>
    intro pool pool1 net h
    unfold newSMTPPool.fill at h
    rcases hd : smtpDial addr net with ⟨dres, net1⟩
    rw [hd] at h
    cases dres with
    | error err => simp at h
    | ok client =>
      simp only at h
      rcases ht : Client.StartTLS client net1 with ⟨tres, net2⟩
      rw [ht] at h
      cases tres with
      | some err => simp at h
      | none =>
        simp only at h
        rcases ha : Client.Auth client net2 with ⟨ares, net3⟩
        rw [ha] at h
        cases ares with
        | some err => simp at h
        | none =>
          simp only at h
          obtain ⟨h1, h2⟩ := ih _ pool1 net3 h
          refine ⟨h1, ?_⟩
          rw [h2]
          simp
          omega

end PoolInvariant

/-- C16. `smtpPool.Put(c)` adds `c` to the idle connections when the pool holds fewer
connections than its capacity, and otherwise closes `c` and leaves the pool as it was.
A pool that `newSMTPPool` built with size `N` has capacity `N` and holds `N` connections,
and after any sequence of `Get` and `Put` calls a pool that was within its capacity still
is, with the same capacity. -/
theorem pool_put_bounded (p : smtpPool) (client : Nat) (net : SmtpNet) :
    (p.conns.length < p.capacity →
      smtpPool.Put p client net = ({ p with conns := p.conns ++ [client] }, net, [])) ∧
    (¬ p.conns.length < p.capacity →
      smtpPool.Put p client net = (p, Client.Close client net, [SmtpEvent.close client])) ∧
    (∀ (host port username password : String) (size : Nat) (net0 : SmtpNet),
      (newSMTPPool host port username password size net0).1 = Except.ok p →
      p.capacity = size ∧ p.conns.length = size) ∧
    (p.conns.length ≤ p.capacity → ∀ ops : List PoolOp,
      (runPoolOps ops p net).1.conns.length ≤ p.capacity ∧
      (runPoolOps ops p net).1.capacity = p.capacity) := by
  refine ⟨?_, ?_, ?_, ?_⟩
  · intro h
    simp [smtpPool.Put, h]
  · intro h
    simp [smtpPool.Put, h]
  · intro host port username password size net0 h
    have := fill_full (host ++ ":" ++ port) size _ p net0 h
    simpa using this
  · intro h ops
    exact runPoolOps_bounded ops p net h

/-- C15, witness: a pool holding five connections hands out the oldest one; an empty
pool is left as it is. -/
theorem pool_get_prefers_idle_witness :
    builtPool.conns = 0 :: [1, 2, 3, 4] ∧
    smtpPool.Get builtPool builtWorld.net
      = (Except.ok 0, { builtPool with conns := [1, 2, 3, 4] }, builtWorld.net, []) ∧
    (smtpPool.Get { builtPool with conns := [] } freshNet).2.1
      = { builtPool with conns := [] } :=
  ⟨rfl, (pool_get_prefers_idle builtPool builtWorld.net).1 0 [1, 2, 3, 4] rfl,
    ((pool_get_prefers_idle { builtPool with conns := [] } freshNet).2 rfl).1⟩

/-- C16, witness: the pool built with size 5 is full, so a sixth connection is closed;
after a `Get` there is room again. -/
theorem pool_put_bounded_witness :
    (¬ builtPool.conns.length < builtPool.capacity) ∧
    smtpPool.Put builtPool 5 builtWorld.net
      = (builtPool, Client.Close 5 builtWorld.net, [SmtpEvent.close 5]) ∧
    (runPoolOps [PoolOp.get, PoolOp.put 0, PoolOp.put 5] builtPool builtWorld.net).1.conns.length
      ≤ builtPool.capacity :=
  ⟨by decide, (pool_put_bounded builtPool 5 builtWorld.net).2.1 (by decide),
    ((pool_put_bounded builtPool 5 builtWorld.net).2.2.2 (by decide)
      [PoolOp.get, PoolOp.put 0, PoolOp.put 5]).1⟩

/-! ## The email sender -/

section SenderLemmas
variable {τ : Type}

theorem acquired_append (l1 l2 : List SmtpEvent) :
    acquired (l1 ++ l2) = acquired l1 ++ acquired l2 := by
  induction l1 with
  | nil => rfl
  | cons e l ih =>
    cases e with
    | poolGet client err => cases client <;> simp [acquired, ih]
    | _ => simp [acquired, ih]

theorem quits_append (l1 l2 : List SmtpEvent) : quits (l1 ++ l2) = quits l1 ++ quits l2 := by
  induction l1 with
  | nil => rfl
  | cons e l ih => cases e <;> simp [quits, ih]

theorem puts_append (l1 l2 : List SmtpEvent) : puts (l1 ++ l2) = puts l1 ++ puts l2 := by
  induction l1 with
  | nil => rfl
  | cons e l ih => cases e <;> simp [puts, ih]

theorem written_append (l1 l2 : List SmtpEvent) :
    written (l1 ++ l2) = written l1 ++ written l2 := by
  induction l1 with
  | nil => rfl
  | cons e l ih => cases e <;> simp [written, ih]

theorem mailedFrom_append (l1 l2 : List SmtpEvent) :
    mailedFrom (l1 ++ l2) = mailedFrom l1 ++ mailedFrom l2 := by
  induction l1 with
  | nil => rfl
  | cons e l ih => cases e <;> simp [mailedFrom, ih]

theorem recipients_append (l1 l2 : List SmtpEvent) :
    recipients (l1 ++ l2) = recipients l1 ++ recipients l2 := by
  induction l1 with
  | nil => rfl
  | cons e l ih => cases e <;> simp [recipients, ih]

/-- Events of opening and closing connections acquire, quit, release and transmit nothing. -/
theorem connect_only (l : List SmtpEvent) (h : ∀ e ∈ l, e.isConnect = true) :
    acquired l = [] ∧ quits l = [] ∧ puts l = [] ∧ written l = [] ∧ mailedFrom l = [] ∧
    recipients l = [] := by
  induction l with
  | nil => exact ⟨rfl, rfl, rfl, rfl, rfl, rfl⟩
  | cons e l ih =>
    have he := h e (by simp)
    obtain ⟨h1, h2, h3, h4, h5, h6⟩ := ih (fun x hx => h x (by simp [hx]))
    cases e <;>
      simp_all [SmtpEvent.isConnect, acquired, quits, puts, written, mailedFrom, recipients]

/-- Events of a mail transaction acquire, quit and release nothing. -/
theorem transaction_only (l : List SmtpEvent) (h : ∀ e ∈ l, e.isTransaction = true) :
    acquired l = [] ∧ quits l = [] ∧ puts l = [] := by
  induction l with
  | nil => exact ⟨rfl, rfl, rfl⟩
  | cons e l ih =>
    have he := h e (by simp)
    obtain ⟨h1, h2, h3⟩ := ih (fun x hx => h x (by simp [hx]))
    cases e <;> simp_all [SmtpEvent.isTransaction, acquired, quits, puts]

theorem get_events_connect (p : smtpPool) (net : SmtpNet) :
    ∀ e ∈ (smtpPool.Get p net).2.2.2, e.isConnect = true := by
  cases hc : p.conns with
  | cons client rest => simp [smtpPool.Get, hc]
  | nil =>
    rcases hd : smtpDial (p.host ++ ":587") net with ⟨dres, net1⟩
    cases dres with
    | error err =>
      rw [get_dial_error p net net1 err hc hd]
      simp [SmtpEvent.isConnect]
    | ok client =>
      rcases ht : Client.StartTLS client net1 with ⟨tres, net2⟩
      cases tres with
      | some err =>
        rw [get_tls_error p net net1 net2 client err hc hd ht]
        simp [SmtpEvent.isConnect]
      | none =>
        rcases ha : Client.Auth client net2 with ⟨ares, net3⟩
        cases ares with
        | some err =>
          rw [get_auth_error p net net1 net2 net3 client err hc hd ht ha]
          simp [SmtpEvent.isConnect]
        | none =>
          rw [get_fresh p net net1 net2 net3 client hc hd ht ha]
          simp [SmtpEvent.isConnect]

theorem put_events_connect (p : smtpPool) (client : Nat) (net : SmtpNet) :
    ∀ e ∈ (smtpPool.Put p client net).2.2, e.isConnect = true := by
  unfold smtpPool.Put
  by_cases h : p.conns.length < p.capacity
  · rw [if_pos h]; simp
  · rw [if_neg h]; simp [SmtpEvent.isConnect]

/-- The loop over the recipients only issues `Rcpt`, for addresses of the list. -/
theorem rcptAll_events (client : Nat) (addrs : List String) :
    ∀ net : SmtpNet,
      (∀ e ∈ (EmailSender.rcptAll client addrs net).2.2, e.isTransaction = true) ∧
      written (EmailSender.rcptAll client addrs net).2.2 = [] ∧
      mailedFrom (EmailSender.rcptAll client addrs net).2.2 = [] ∧
      (∀ a ∈ recipients (EmailSender.rcptAll client addrs net).2.2, a ∈ addrs) := by
  induction addrs with
  | nil =>
    intro net
    simp [EmailSender.rcptAll, written, mailedFrom, recipients]
  | cons addr rest ih =>
    intro net
    unfold EmailSender.rcptAll
    rcases hc : Client.command net with ⟨res, net1⟩
    cases res with
    | some err =>
      simp [SmtpEvent.isTransaction, written, mailedFrom, recipients]
    | none =>
      obtain ⟨h1, h2, h3, h4⟩ := ih net1
      refine ⟨?_, ?_, ?_, ?_⟩
      · intro e he
        simp only [List.mem_cons] at he
        rcases he with he | he
        · subst he; rfl
        · exact h1 e he
      · simpa [written] using h2
      · simpa [mailedFrom] using h3
      · intro a ha
        simp only [recipients, List.mem_cons] at ha
        rcases ha with ha | ha
        · simp [ha]
        · simp [h4 a ha]

/-- The mail transaction only issues transaction commands: `Mail` for the configured
username, `Rcpt` for addresses of the builder and `Write` of the encoded builder. -/
theorem transaction_events (bytes : Email → Except GoError String) (e : EmailSender)
    (msg : Email) (client : Nat) (net : SmtpNet) :
    (∀ ev ∈ (EmailSender.transaction bytes e msg client net).2.2, ev.isTransaction = true) ∧
    (∀ d ∈ written (EmailSender.transaction bytes e msg client net).2.2,
      bytes msg = Except.ok d) ∧
    (∀ s ∈ mailedFrom (EmailSender.transaction bytes e msg client net).2.2, s = e.username) ∧
    (∀ a ∈ recipients (EmailSender.transaction bytes e msg client net).2.2, a ∈ msg.To) := by
  rcases hm : Client.command net with ⟨mres, net1⟩
  cases mres with
  | some err =>
    unfold EmailSender.transaction
    simp [hm, SmtpEvent.isTransaction, written, mailedFrom, recipients]
  | none =>
    obtain ⟨h1, h2, h3, h4⟩ := rcptAll_events client msg.To net1
    rcases hr : EmailSender.rcptAll client msg.To net1 with ⟨rres, net2, evs⟩
    rw [hr] at h1 h2 h3 h4
    simp only at h1 h2 h3 h4
    have hkind : ∀ tail : List SmtpEvent, (∀ ev ∈ tail, ev.isTransaction = true) →
        ∀ ev ∈ SmtpEvent.mail client e.username none :: evs ++ tail,
          ev.isTransaction = true := by
      intro tail ht ev hev
      simp only [List.cons_append, List.mem_cons, List.mem_append] at hev
      rcases hev with hev | hev | hev
      · subst hev; rfl
      · exact h1 ev hev
      · exact ht ev hev
    cases rres with
    | some err =>
      unfold EmailSender.transaction
      simp only [hm, hr]
      refine ⟨?_, ?_, ?_, ?_⟩
      · simpa using hkind [] (by simp)
      · simp [written, h2]
      · simp [mailedFrom, h3]
      · simpa [recipients] using h4
    | none =>
      rcases hd : Client.command net2 with ⟨dres, net3⟩
      cases dres with
      | some err =>
        unfold EmailSender.transaction
        simp only [hm, hr, hd]
        refine ⟨hkind _ (by simp [SmtpEvent.isTransaction]), ?_, ?_, ?_⟩
        · simp [written, written_append, h2]
        · simp [mailedFrom, mailedFrom_append, h3]
        · simpa [recipients, recipients_append] using h4
      | none =>
        cases hb : bytes msg with
        | error err =>
          unfold EmailSender.transaction
          simp only [hm, hr, hd, hb]
          refine ⟨hkind _ (by simp [SmtpEvent.isTransaction]), ?_, ?_, ?_⟩
          · simp [written, written_append, h2]
          · simp [mailedFrom, mailedFrom_append, h3]
          · simpa [recipients, recipients_append] using h4
        | ok d =>
          rcases hw : Client.command net3 with ⟨wres, net4⟩
          cases wres with
          | some err =>
            unfold EmailSender.transaction
            simp only [hm, hr, hd, hb, hw]
            refine ⟨hkind _ (by simp [SmtpEvent.isTransaction]), ?_, ?_, ?_⟩
            · simp [written, written_append, h2]
            · simp [mailedFrom, mailedFrom_append, h3]
            · simpa [recipients, recipients_append] using h4
          | none =>
            rcases hcl : Client.command net4 with ⟨cres, net5⟩
            cases cres with
            | some err =>
              unfold EmailSender.transaction
              simp only [hm, hr, hd, hb, hw, hcl]
              refine ⟨hkind _ (by simp [SmtpEvent.isTransaction]), ?_, ?_, ?_⟩
              · simp [written, written_append, h2]
              · simp [mailedFrom, mailedFrom_append, h3]
              · simpa [recipients, recipients_append] using h4
            | none =>
              unfold EmailSender.transaction
              simp only [hm, hr, hd, hb, hw, hcl]
              refine ⟨hkind _ (by simp [SmtpEvent.isTransaction]), ?_, ?_, ?_⟩
              · simp [written, written_append, h2]
              · simp [mailedFrom, mailedFrom_append, h3]
              · simpa [recipients, recipients_append] using h4

theorem send_rate_limited (lib : RateLib τ) (bytes : Email → Except GoError String)
    (e : EmailSender) (ctx : Context) (n : Notification) (w : EmailWorld τ)
    (err : GoError) (rl : RateLimiter τ)
    (hA : RateLimiter.Allow lib w.ratelimiter ctx n.Recipient = (some err, rl)) :
    EmailSender.Send lib bytes e ctx n w =
      (some err, { w with ratelimiter := rl }, [SmtpEvent.allow n.Recipient (some err)]) := by
  unfold EmailSender.Send
  simp only [hA]

theorem send_no_client (lib : RateLib τ) (bytes : Email → Except GoError String)
    (e : EmailSender) (ctx : Context) (n : Notification) (w : EmailWorld τ)
    (err : GoError) (rl : RateLimiter τ) (p1 : smtpPool) (net1 : SmtpNet)
    (evs : List SmtpEvent)
    (hA : RateLimiter.Allow lib w.ratelimiter ctx n.Recipient = (none, rl))
    (hG : smtpPool.Get w.pool w.net = (Except.error err, p1, net1, evs)) :
    EmailSender.Send lib bytes e ctx n w =
      (some err,
        { net := net1, pool := p1, ratelimiter := rl,
          emailPool := w.emailPool.Get.2.Put
            (EmailSender.reset (e.fillIn n w.emailPool.Get.1)) },
        SmtpEvent.allow n.Recipient none :: evs ++ [SmtpEvent.poolGet none (some err)]) := by
  unfold EmailSender.Send
  simp only [hA, hG]

theorem send_with_client (lib : RateLib τ) (bytes : Email → Except GoError String)
    (e : EmailSender) (ctx : Context) (n : Notification) (w : EmailWorld τ)
    (client : Nat) (rl : RateLimiter τ) (p1 : smtpPool) (net1 : SmtpNet)
    (evs : List SmtpEvent)
    (hA : RateLimiter.Allow lib w.ratelimiter ctx n.Recipient = (none, rl))
    (hG : smtpPool.Get w.pool w.net = (Except.ok client, p1, net1, evs)) :
    EmailSender.Send lib bytes e ctx n w =
      ((EmailSender.transaction bytes e (e.fillIn n w.emailPool.Get.1) client net1).1,
        { net := (smtpPool.Put p1 client (Client.Quit client
            (EmailSender.transaction bytes e (e.fillIn n w.emailPool.Get.1) client
              net1).2.1).2).2.1,
          pool := (smtpPool.Put p1 client (Client.Quit client
            (EmailSender.transaction bytes e (e.fillIn n w.emailPool.Get.1) client
              net1).2.1).2).1,
          ratelimiter := rl,
          emailPool := w.emailPool.Get.2.Put
            (EmailSender.reset (e.fillIn n w.emailPool.Get.1)) },
        SmtpEvent.allow n.Recipient none :: evs ++
          [SmtpEvent.poolGet (some client) none] ++
          (EmailSender.transaction bytes e (e.fillIn n w.emailPool.Get.1) client net1).2.2 ++
          [SmtpEvent.quit client (Client.Quit client
            (EmailSender.transaction bytes e (e.fillIn n w.emailPool.Get.1) client
              net1).2.1).1, SmtpEvent.poolPut client] ++
          (smtpPool.Put p1 client (Client.Quit client
            (EmailSender.transaction bytes e (e.fillIn n w.emailPool.Get.1) client
              net1).2.1).2).2.2) := by
  unfold EmailSender.Send
  simp only [hA, hG]

theorem builderPool_get_blank (bp : BuilderPool) (h : bp.blank) :
    bp.Get.1 = NewEmail ∧ bp.Get.2.blank := by
  unfold BuilderPool.Get
  cases hi : bp.items[bp.picks.head?.getD 0]? with
  | some msg =>
    refine ⟨h msg (List.getElem?_mem hi), ?_⟩
    intro m hm
    exact h m (List.mem_of_mem_eraseIdx hm)
  | none => exact ⟨rfl, h⟩

theorem reset_fillIn (e : EmailSender) (n : Notification) :
    EmailSender.reset (e.fillIn n NewEmail) = NewEmail := rfl

theorem builderPool_after_send (e : EmailSender) (n : Notification) (bp : BuilderPool)
    (h : bp.blank) :
    (bp.Get.2.Put (EmailSender.reset (e.fillIn n bp.Get.1))).blank := by
  obtain ⟨h1, h2⟩ := builderPool_get_blank bp h
  rw [h1, reset_fillIn]
  intro m hm
  simp only [BuilderPool.Put, List.mem_cons] at hm
  rcases hm with hm | hm
  · exact hm
  · exact h2 m hm

/-- One `Send` from a builder pool whose builders are blank: the pool is left that way,
and what is transmitted is made from the username and the notification alone. -/
theorem send_blank (lib : RateLib τ) (bytes : Email → Except GoError String)
    (e : EmailSender) (ctx : Context) (n : Notification) (w : EmailWorld τ)
    (hblank : w.emailPool.blank) :
    (EmailSender.Send lib bytes e ctx n w).2.1.emailPool.blank ∧
    (∀ d ∈ written (EmailSender.Send lib bytes e ctx n w).2.2,
      bytes (e.compose n) = Except.ok d) ∧
    (∀ s ∈ mailedFrom (EmailSender.Send lib bytes e ctx n w).2.2, s = e.username) ∧
    (∀ a ∈ recipients (EmailSender.Send lib bytes e ctx n w).2.2, a = n.Recipient) := by
  rcases hA : RateLimiter.Allow lib w.ratelimiter ctx n.Recipient with ⟨ares, rl⟩
  cases ares with
  | some err =>
    rw [send_rate_limited lib bytes e ctx n w err rl hA]
    exact ⟨hblank, by simp [written], by simp [mailedFrom], by simp [recipients]⟩
  | none =>
    rcases hG : smtpPool.Get w.pool w.net with ⟨gres, p1, net1, evs⟩
    have hevs := get_events_connect w.pool w.net
    rw [hG] at hevs
    obtain ⟨_, _, _, hw, hmf, hrc⟩ := connect_only evs hevs
    cases gres with
    | error err =>
      rw [send_no_client lib bytes e ctx n w err rl p1 net1 evs hA hG]
      refine ⟨builderPool_after_send e n w.emailPool hblank, ?_, ?_, ?_⟩
      · simp [written, written_append, hw]
      · simp [mailedFrom, mailedFrom_append, hmf]
      · simp [recipients, recipients_append, hrc]
    | ok client =>
      rw [send_with_client lib bytes e ctx n w client rl p1 net1 evs hA hG]
      have hmsg : e.fillIn n w.emailPool.Get.1 = e.compose n := by
        rw [(builderPool_get_blank w.emailPool hblank).1]
        rfl
      rw [hmsg]
      obtain ⟨_, ht2, ht3, ht4⟩ := transaction_events bytes e (e.compose n) client net1
      obtain ⟨_, _, _, hpw, hpm, hpr⟩ := connect_only _
        (put_events_connect p1 client
          (Client.Quit client (EmailSender.transaction bytes e (e.compose n) client net1).2.1).2)
      refine ⟨?_, ?_, ?_, ?_⟩
      · rw [← hmsg]
        exact builderPool_after_send e n w.emailPool hblank
      · intro d hd
        simp [written, written_append, hw, hpw] at hd
        exact ht2 d hd
      · intro s hs
        simp [mailedFrom, mailedFrom_append, hmf, hpm] at hs
        exact ht3 s hs
      · intro a ha
        simp [recipients, recipients_append, hrc, hpr] at ha
        have := ht4 a ha
        simpa [EmailSender.compose, EmailSender.fillIn] using this

/-- One `Send`: the clients quit and the clients put back are exactly those acquired. -/
theorem send_lifecycle (lib : RateLib τ) (bytes : Email → Except GoError String)
    (e : EmailSender) (ctx : Context) (n : Notification) (w : EmailWorld τ) :
    quits (EmailSender.Send lib bytes e ctx n w).2.2
      = acquired (EmailSender.Send lib bytes e ctx n w).2.2 ∧
    puts (EmailSender.Send lib bytes e ctx n w).2.2
      = acquired (EmailSender.Send lib bytes e ctx n w).2.2 ∧
    acquired (EmailSender.Send lib bytes e ctx n w).2.2 =
      (match (RateLimiter.Allow lib w.ratelimiter ctx n.Recipient).1,
          (smtpPool.Get w.pool w.net).1 with
        | none, Except.ok client => [client]
        | _, _ => []) := by
  rcases hA : RateLimiter.Allow lib w.ratelimiter ctx n.Recipient with ⟨ares, rl⟩
  cases ares with
  | some err =>
    rw [send_rate_limited lib bytes e ctx n w err rl hA]
    exact ⟨rfl, rfl, rfl⟩
  | none =>
    rcases hG : smtpPool.Get w.pool w.net with ⟨gres, p1, net1, evs⟩
    have hevs := get_events_connect w.pool w.net
    rw [hG] at hevs
    obtain ⟨ha, hq, hp, _, _, _⟩ := connect_only evs hevs
    cases gres with
    | error err =>
      rw [send_no_client lib bytes e ctx n w err rl p1 net1 evs hA hG]
      simp [acquired, quits, puts, acquired_append, quits_append, puts_append, ha, hq, hp]
    | ok client =>
      rw [send_with_client lib bytes e ctx n w client rl p1 net1 evs hA hG]
      obtain ⟨ht1, _, _, _⟩ := transaction_events bytes e (e.fillIn n w.emailPool.Get.1)
        client net1
      obtain ⟨hta, htq, htp⟩ := transaction_only _ ht1
      obtain ⟨hpa, hpq, hpp, _, _, _⟩ := connect_only _
        (put_events_connect p1 client
          (Client.Quit client (EmailSender.transaction bytes e
            (e.fillIn n w.emailPool.Get.1) client net1).2.1).2)
      simp [acquired, quits, puts, acquired_append, quits_append, puts_append, ha, hq, hp,
        hta, htq, htp, hpa, hpq, hpp]

end SenderLemmas

section SenderContract
variable {τ : Type}

/-- C12. In `EmailSender.Send`, whatever the outcome of each step: the clients on which
`Quit` is called are exactly the clients acquired from the pool, each once, and so are
the clients handed to `smtpPool.Put`. When the rate limit or the acquisition fails no
client is acquired, hence none is quit or put back; when a client is acquired it is the
only one, so on every way out of the method (success, or failure of `Mail`, `Rcpt`,
`Data`, the encoding, the write or the close of the data writer) it is quit exactly once
and put back exactly once. -/
theorem connection_quit_and_released_once (lib : RateLib τ)
    (bytes : Email → Except GoError String) (e : EmailSender) (ctx : Context)
    (n : Notification) (w : EmailWorld τ) :
    quits (EmailSender.Send lib bytes e ctx n w).2.2
      = acquired (EmailSender.Send lib bytes e ctx n w).2.2 ∧
    puts (EmailSender.Send lib bytes e ctx n w).2.2
      = acquired (EmailSender.Send lib bytes e ctx n w).2.2 ∧
    ((RateLimiter.Allow lib w.ratelimiter ctx n.Recipient).1 ≠ none →
      acquired (EmailSender.Send lib bytes e ctx n w).2.2 = []) ∧
    (∀ err, (smtpPool.Get w.pool w.net).1 = Except.error err →
      acquired (EmailSender.Send lib bytes e ctx n w).2.2 = []) ∧
    (∀ client, (RateLimiter.Allow lib w.ratelimiter ctx n.Recipient).1 = none →
      (smtpPool.Get w.pool w.net).1 = Except.ok client →
      acquired (EmailSender.Send lib bytes e ctx n w).2.2 = [client]) := by
  obtain ⟨h1, h2, h3⟩ := send_lifecycle lib bytes e ctx n w
  refine ⟨h1, h2, ?_, ?_, ?_⟩
  · intro hA
    rw [h3]
    cases hres : (RateLimiter.Allow lib w.ratelimiter ctx n.Recipient).1 with
    | none => exact (hA hres).elim
    | some err => rfl
  · intro err hG
    rw [h3, hG]
    cases (RateLimiter.Allow lib w.ratelimiter ctx n.Recipient).1 <;> rfl
  · intro client hA hG
    rw [h3, hA, hG]

/-- C17. For every sequence of consecutive `Send` calls starting from a builder pool
whose builders are blank (as the empty pool of `NewEmailSender` is), whichever builder
the pool hands out and whichever step fails: the builder pool holds only blank builders
afterwards, and in each send the payload written is the encoding of the message made
from the configured username and that send's notification alone, the envelope sender
is the username and the envelope recipient is that notification's recipient. -/
theorem builder_reset_between_sends (lib : RateLib τ)
    (bytes : Email → Except GoError String) (e : EmailSender) (ctx : Context)
    (ns : List Notification) (w : EmailWorld τ) (hblank : w.emailPool.blank) :
    (EmailSender.sendAll lib bytes e ctx ns w).2.emailPool.blank ∧
    ∀ p ∈ (EmailSender.sendAll lib bytes e ctx ns w).1,
      (∀ d ∈ written p.2, bytes (e.compose p.1) = Except.ok d) ∧
      (∀ s ∈ mailedFrom p.2, s = e.username) ∧
      (∀ a ∈ recipients p.2, a = p.1.Recipient) := by
  induction ns generalizing w with
  | nil => exact ⟨hblank, by simp [EmailSender.sendAll]⟩
  | cons n rest ih =>
    obtain ⟨h1, h2, h3, h4⟩ := send_blank lib bytes e ctx n w hblank
    obtain ⟨h5, h6⟩ := ih (EmailSender.Send lib bytes e ctx n w).2.1 h1
    refine ⟨h5, ?_⟩
    intro p hp
    simp only [EmailSender.sendAll, List.mem_cons] at hp
    rcases hp with hp | hp
    · subst hp
      exact ⟨h2, h3, h4⟩
    · exact h6 p hp

end SenderContract

/-- C12, witness: a successful send and a send whose `MAIL` command is refused both
acquire client 0, quit it once and put it back once. -/
theorem connection_quit_and_released_once_witness :
    ((RateLimiter.Allow sampleLib builtWorld.ratelimiter Context.Background
        sampleEmail.Recipient).1 = none ∧
      (smtpPool.Get builtWorld.pool builtWorld.net).1 = Except.ok 0 ∧
      afterOneSend.1 = none ∧
      acquired afterOneSend.2.2 = [0] ∧
      quits afterOneSend.2.2 = acquired afterOneSend.2.2 ∧
      puts afterOneSend.2.2 = acquired afterOneSend.2.2) ∧
    (afterRefusedSend.1 = some "421 service not available" ∧
      acquired afterRefusedSend.2.2 = [0] ∧
      quits afterRefusedSend.2.2 = acquired afterRefusedSend.2.2 ∧
      puts afterRefusedSend.2.2 = acquired afterRefusedSend.2.2) :=
  ⟨⟨rfl, rfl, rfl,
    (connection_quit_and_released_once sampleLib sampleBytes sampleSender Context.Background
      sampleEmail builtWorld).2.2.2.2 0 rfl rfl,
    (connection_quit_and_released_once sampleLib sampleBytes sampleSender Context.Background
      sampleEmail builtWorld).1,
    (connection_quit_and_released_once sampleLib sampleBytes sampleSender Context.Background
      sampleEmail builtWorld).2.1⟩,
   ⟨rfl,
    (connection_quit_and_released_once sampleLib sampleBytes sampleSender Context.Background
      sampleEmail mailRefusedWorld).2.2.2.2 0 rfl rfl,
    (connection_quit_and_released_once sampleLib sampleBytes sampleSender Context.Background
      sampleEmail mailRefusedWorld).1,
    (connection_quit_and_released_once sampleLib sampleBytes sampleSender Context.Background
      sampleEmail mailRefusedWorld).2.1⟩⟩

/-- C13 (code defect). `NewEmailSender` builds a pool of five live clients. One
successful `Send` takes client 0 from the pool, and its deferred function calls `Quit`
on the client and then hands it to `Put`: the pool holds client 0 again, and client 0
has been quit, so it is no longer a live handle. -/
theorem pool_holds_quit_connection :
    (NewEmailSender "smtp.example.com" "587" "noreply@example.com" "secret" [] freshNet).1
      = Except.ok (sampleSender, builtWorld) ∧
    (∀ client ∈ builtWorld.pool.conns, builtWorld.net.isLive client = true) ∧
    afterOneSend.1 = none ∧
    afterOneSend.2.1.pool.conns = [1, 2, 3, 4, 0] ∧
    afterOneSend.2.1.net.clients[0]? = some { pooledClient with quit := true } ∧
    afterOneSend.2.1.net.isLive 0 = false :=
  ⟨rfl, by decide, rfl, rfl, rfl, rfl⟩

/-- C14 (code defect). The sender is constructed on a network that accepts the first
connection and refuses the second `Dial`: the construction returns the error and no
sender, client 0 was dialed, upgraded and authenticated during it, `Close` was never
called on it, and it is still open afterwards. -/
theorem failed_construction_leaks_connection :
    failedBuild.1 = Except.error "dial tcp: connection refused" ∧
    failedBuild.2.2 =
      [SmtpEvent.dial "smtp.example.com:587" (some 0) none,
       SmtpEvent.startTLS 0 "smtp.example.com" none,
       SmtpEvent.auth 0 none,
       SmtpEvent.dial "smtp.example.com:587" none (some "dial tcp: connection refused")] ∧
    SmtpEvent.close 0 ∉ failedBuild.2.2 ∧
    failedBuild.2.1.isOpen 0 = true :=
  ⟨rfl, rfl, by decide, rfl⟩

/-- C17, witness: two consecutive sends from the world `NewEmailSender` built. -/
theorem builder_reset_between_sends_witness :
    builtWorld.emailPool.blank ∧
    twoSends.2.emailPool.blank ∧
    ∀ p ∈ twoSends.1,
      (∀ d ∈ written p.2, sampleBytes (sampleSender.compose p.1) = Except.ok d) ∧
      (∀ s ∈ mailedFrom p.2, s = sampleSender.username) ∧
      (∀ a ∈ recipients p.2, a = p.1.Recipient) :=
  ⟨(by intro m hm; cases hm),
   builder_reset_between_sends sampleLib sampleBytes sampleSender Context.Background
     [sampleEmail, samplePush] builtWorld (by intro m hm; cases hm)⟩

/-! ## Duplicate markers -/

/-- C21, counterexample: the healthy ledger already holds a marker for `n1`, and
`MarkAsProcessed("n1")` returns `ErrDatabase`, not nil. -/
theorem duplicate_marker_reported :
    "n1" ∈ markedLedger.processedIds ∧ markedLedger.faults = [] ∧
    (Repository.MarkAsProcessed Context.Background "n1" 1700000000 markedLedger).1
      = some ErrDatabase := by
  decide

/-- C21, amended: when a marker for `id` already exists, `MarkAsProcessed(id)` returns
`ErrDatabase` (the insert is rejected by the primary key, or fails for want of the
database) and the rows of the ledger stay as they were. -/
theorem duplicate_marker_is_database_error (ctx : Context) (id : String) (now : Int)
    (db : DB) (hdup : id ∈ db.processedIds) :
    (Repository.MarkAsProcessed ctx id now db).1 = some ErrDatabase ∧
    (Repository.MarkAsProcessed ctx id now db).2.processed_notifications
      = db.processed_notifications := by
  unfold Repository.MarkAsProcessed DB.Create
  by_cases hf : db.faults.head? = some true
  · simp [hf, DB.advance]
  · simp [hf, hdup, DB.advance]

/-- C21, witness: the ledger that holds `n1`. -/
theorem duplicate_marker_is_database_error_witness :
    "n1" ∈ markedLedger.processedIds ∧
    (Repository.MarkAsProcessed Context.Background "n1" 1700000000 markedLedger).1
      = some ErrDatabase ∧
    (Repository.MarkAsProcessed Context.Background "n1" 1700000000
      markedLedger).2.processed_notifications = markedLedger.processed_notifications :=
  ⟨by decide, duplicate_marker_is_database_error Context.Background "n1" 1700000000
    markedLedger (by decide)⟩

/-! ## The job queue -/

section QueueLemmas

theorem run_append (t1 t2 : List Turn) (cs : ClaimState × HandlerState) :
    ConsumeClaim.run (t1 ++ t2) cs = ConsumeClaim.run t2 (ConsumeClaim.run t1 cs) := by
  induction t1 generalizing cs with
  | nil => rfl
  | cons t rest ih =>
    cases t with
    | claim => simp only [List.cons_append, ConsumeClaim.run]; exact ih _
    | worker i => simp only [List.cons_append, ConsumeClaim.run]; exact ih _

/-- The spawn loop leaves the channel as it is. -/
theorem spawn_loop_jobs (k : Nat) (messages : List ConsumerMessage) (s : HandlerState) :
    ∃ s1, ConsumeClaim.run (claimTurns k) (ClaimState.spawning k messages, s)
        = (ClaimState.spawning 0 messages, s1) ∧ s1.jobs = s.jobs := by
  induction k generalizing s with
  | zero => exact ⟨s, rfl, rfl⟩
  | succ k ih =>
    obtain ⟨s1, h1, h2⟩ := ih
      { s with wg := s.wg + 1, goroutines := s.goroutines ++ [WorkerState.receiving] }
    refine ⟨s1, ?_, h2⟩
    simpa [claimTurns, List.replicate_succ, ConsumeClaim.run, ConsumeClaim.step] using h1

/-- On a handler whose channel is closed, every `ConsumeClaim` invocation that gets its
turns panics: at the first send if its claim delivers a message, at `close` if not. -/
theorem claim_on_closed_queue_panics (workers : Int) (messages : List ConsumerMessage)
    (s : HandlerState) (hc : s.jobs.closed = true) :
    (ConsumeClaim.run (claimTurns (workers.toNat + 3))
      (ConsumeClaim.start workers messages, s)).1 =
      ClaimState.panicked (if messages = [] then GoPanic.closeOfClosedChannel
        else GoPanic.sendOnClosedChannel) := by
  obtain ⟨s1, h1, h2⟩ := spawn_loop_jobs workers.toNat messages s
  have hsplit : claimTurns (workers.toNat + 3) = claimTurns workers.toNat ++ claimTurns 3 := by
    simp [claimTurns, List.replicate_add]
  rw [hsplit, run_append, ConsumeClaim.start, h1]
  have hc1 : s1.jobs.closed = true := by rw [h2]; exact hc
  cases messages with
  | nil =>
    simp [claimTurns, List.replicate, ConsumeClaim.run, ConsumeClaim.step,
      JobsChannel.close, hc1]
  | cons msg rest =>
    simp [claimTurns, List.replicate, ConsumeClaim.run, ConsumeClaim.step,
      JobsChannel.send, hc1]

/-- An invocation of `ConsumeClaim` that is given its turns and no worker any closes the
channel and returns, whatever the workers have yet to do: with room in the buffer for
its messages it ends with these messages still queued. -/
theorem claim_returns_without_workers (workers : Int) (msg : ConsumerMessage) :
    (ConsumeClaim.run (claimTurns (workers.toNat + 5))
      (ConsumeClaim.start workers [msg], newHandlerState)).1 = ClaimState.returned ∧
    (ConsumeClaim.run (claimTurns (workers.toNat + 5))
      (ConsumeClaim.start workers [msg], newHandlerState)).2.jobs.buffer = [msg] ∧
    (ConsumeClaim.run (claimTurns (workers.toNat + 5))
      (ConsumeClaim.start workers [msg], newHandlerState)).2.jobs.closed = true := by
  obtain ⟨s1, h1, h2⟩ := spawn_loop_jobs workers.toNat [msg] newHandlerState
  have hsplit : claimTurns (workers.toNat + 5) = claimTurns workers.toNat ++ claimTurns 5 := by
    simp [claimTurns, List.replicate_add]
  rw [hsplit, run_append, ConsumeClaim.start, h1]
  have hb : s1.jobs = { buffer := [], capacity := 100, closed := false } := by
    rw [h2]; rfl
  simp [claimTurns, List.replicate, ConsumeClaim.run, ConsumeClaim.step,
    JobsChannel.send, JobsChannel.close, hb]

end QueueLemmas

/-- C22: the second `ConsumeClaim` invocation on the one handler of `ConsumeNotifications`
meets the channel the first invocation closed. After a first invocation that returned and
whose workers all finished, a second one whose claim delivers a message panics with a
send on a closed channel, and one whose claim delivers nothing panics with a second
`close`; in both runs the channel is closed when the second invocation starts. -/
theorem second_claim_hits_closed_queue :
    twoClaims.1 =
      [ClaimState.returned, ClaimState.panicked GoPanic.sendOnClosedChannel] ∧
    twoClaimsSecondEmpty.1 =
      [ClaimState.returned, ClaimState.panicked GoPanic.closeOfClosedChannel] ∧
    (ConsumeClaim.run drainSchedule
      (ConsumeClaim.start 5 [emailMessage], newHandlerState)).2.jobs.closed = true ∧
    (ConsumeClaim.run drainSchedule
      (ConsumeClaim.start 5 [emailMessage], newHandlerState)).2.handled = [emailMessage] := by
  decide

/-- C23: `ConsumeClaim` returns without waiting for the workers. On the fresh handler of
`main.go`, a claim that delivers one message and ends: when no worker has had a turn,
`ConsumeClaim` has returned while the message is still in the queue; when worker 0 has
received it, `ConsumeClaim` has returned while the message is in that worker's loop
body. In both runs no message has been handled and the wait group still counts five
workers. -/
theorem claim_returns_before_workers_finish :
    firstClaim.1 = ClaimState.returned ∧
    firstClaim.2.jobs.buffer = [emailMessage] ∧
    firstClaim.2.handled = [] ∧ firstClaim.2.wg = 5 ∧
    firstClaimInFlight.1 = ClaimState.returned ∧
    firstClaimInFlight.2.goroutines.head? = some (WorkerState.busy emailMessage) ∧
    firstClaimInFlight.2.handled = [] ∧ firstClaimInFlight.2.wg = 5 := by
  decide


/-! ## The notification service -/

/-- C24: the notification `SendNotification` saves and publishes carries a generated UUID
as its `UserId`, not the caller's `userId`. For the call with `userId = "user-1"` the row
saved and the record published both carry the second generated UUID; the result of
`SendNotification` does not depend on `userId` at all; the sibling
`SendInAppNotification` saves the caller's `userId`. -/
theorem sent_notification_has_generated_user :
    sentToUser1.1 = none ∧
    sentToUser1.2.notifications =
      [{ ID := "1b4e28ba-2fa1-11d2-883f-0016d3cca427",
         UserId := "6fa459ea-ee8a-3ca4-894e-db77e160355e", Type_ := EmailNotification,
         Subject := "hello", Body := "body", Recipient := "a@b.com", IsRead := false,
         CreatedAt := 1700000000 }] ∧
    sentToUser1.2.produced =
      [("email-notifications",
        "1b4e28ba-2fa1-11d2-883f-0016d3cca427|6fa459ea-ee8a-3ca4-894e-db77e160355e|email|hello|body|a@b.com")] ∧
    savedForUser1.2.notifications.map Notification.UserId = ["user-1"] ∧
    (∀ (jsonMarshal : Notification → Except GoError String) (ctx : Context)
      (userId other recipient subject body : String) (notifyType : NotificationType)
      (w : ServiceWorld),
      NotificationService.SendNotification jsonMarshal ctx userId recipient subject body
        notifyType w =
      NotificationService.SendNotification jsonMarshal ctx other recipient subject body
        notifyType w) := by
  refine ⟨by decide, by decide, by decide, by decide, ?_⟩
  intro jsonMarshal ctx userId other recipient subject body notifyType w
  rfl

/-! ## The listing -/

section ListingLemmas

theorem mem_insertByCreatedAtDesc (row x : Notification) (l : List Notification) :
    x ∈ insertByCreatedAtDesc row l ↔ x = row ∨ x ∈ l := by
  induction l with
  | nil => simp [insertByCreatedAtDesc]
  | cons r rest ih =>
    unfold insertByCreatedAtDesc
    by_cases hlt : r.CreatedAt < row.CreatedAt
    · simp [hlt]
    · simp only [hlt, if_false, List.mem_cons, ih]
      tauto

theorem mem_orderByCreatedAtDesc (x : Notification) (l : List Notification) :
    x ∈ orderByCreatedAtDesc l ↔ x ∈ l := by
  induction l with
  | nil => simp [orderByCreatedAtDesc]
  | cons r rest ih => simp [orderByCreatedAtDesc, mem_insertByCreatedAtDesc, ih]

theorem mem_offsetLimit (x : Notification) (rows : List Notification) (offset limit : Int)
    (hx : x ∈ offsetLimit rows offset limit) : x ∈ rows := by
  unfold offsetLimit at hx
  by_cases ho : 0 < offset <;> by_cases hl : 0 ≤ limit <;> simp only [ho, hl, if_true, if_false] at hx
  · exact List.mem_of_mem_drop (List.mem_of_mem_take hx)
  · exact List.mem_of_mem_drop hx
  · exact List.mem_of_mem_take hx
  · exact hx

/-- The two filters the query does apply: every notification the listing returns belongs
to the user asked for and, when `isRead` is given, has that read state. -/
theorem listing_respects_user_and_read_state (ctx : Context) (userId : String)
    (page pageSize : Int) (isRead : Option Bool) (notifyType : Option String)
    (w : ServiceWorld) (n : Notification)
    (hn : n ∈ (Repository.GetAllNotifications ctx userId page pageSize isRead notifyType
      w).1.1) :
    n.UserId = userId ∧ ∀ b, isRead = some b → n.IsRead = b := by
  unfold Repository.GetAllNotifications at hn
  by_cases hf : w.faults.head? = some true
  · simp [hf] at hn
  · by_cases hf1 : w.advance.faults.head? = some true
    · simp [hf, hf1] at hn
    · simp only [hf, hf1, if_false] at hn
      have hq := (mem_orderByCreatedAtDesc n _).mp (mem_offsetLimit n _ _ _ hn)
      cases isRead with
      | none =>
        simp only [List.mem_filter, beq_iff_eq] at hq
        exact ⟨hq.2, by intro b hb; cases hb⟩
      | some b0 =>
        simp only [List.mem_filter, beq_iff_eq] at hq
        refine ⟨hq.1.2, ?_⟩
        intro b hb
        cases hb
        exact hq.2

end ListingLemmas

/-- C25: the type filter is not applied. The table holds an email and an in-app
notification of the user `u1`; the listing asked for with the type filter `email` returns
both and counts two. For every input the answer of `GetAllNotifications` is the same
whatever `notifyType` is. -/
theorem type_filter_not_applied :
    emailListing.1 =
      ([row "b" InAppNotification false 20, row "a" EmailNotification false 10], 2, none) ∧
    (row "b" InAppNotification false 20).Type_ ≠ EmailNotification ∧
    (∀ (ctx : Context) (userId : String) (page pageSize : Int) (isRead : Option Bool)
      (notifyType other : Option String) (w : ServiceWorld),
      Repository.GetAllNotifications ctx userId page pageSize isRead notifyType w =
      Repository.GetAllNotifications ctx userId page pageSize isRead other w) := by
  refine ⟨by decide, by decide, ?_⟩
  intro ctx userId page pageSize isRead notifyType other w
  rfl


/-! ## A retry limit that is not positive -/

section ZeroRetries
variable {σ : Type}

theorem zeroRetriesRun_events : events zeroRetriesRun.1 =
    [Event.checkIfProcessed "n1" false none,
     Event.markAsProcessed "n1" none,
     Event.markMessage emailMessage,
     Event.log LogLevel.Info "Notification processed" none] ∧
    zeroRetriesRun.2.db.processedIds = ["n1"] ∧
    zeroRetriesRun.2.senders = [some ErrEmailSend] := by
  simp [zeroRetriesRun, emailMessage, processMessage, retryLoop, mainHandler, pipelineHandler,
    sampleUnmarshal, sampleMessage, sampleWorld, Repository.asInterface,
    Repository.CheckIfProcessed, Repository.MarkAsProcessed, DB.First, DB.Create, DB.advance,
    DB.processedIds, events, EmailNotification, ErrEmailSend]

theorem zeroRetriesMarkFails_events : events zeroRetriesMarkFails.1 =
    [Event.checkIfProcessed "n1" false none,
     Event.markAsProcessed "n1" (some ErrDatabase),
     Event.log LogLevel.Error "Failed to mark notification as processed"
       (some ErrDatabase)] ∧
    zeroRetriesMarkFails.2.db.processedIds = [] := by
  simp [zeroRetriesMarkFails, emailMessage, processMessage, retryLoop, mainHandler,
    pipelineHandler, sampleUnmarshal, sampleMessage, sampleWorld, Repository.asInterface,
    Repository.CheckIfProcessed, Repository.MarkAsProcessed, DB.First, DB.Create, DB.advance,
    DB.processedIds, events, EmailNotification, ErrEmailSend, ErrDatabase]

end ZeroRetries

/-- C26: with a retry limit `R <= 0`, a well-formed message that the ledger does not hold
is never sent: the worker calls neither `Send` nor `time.Sleep`; right after the check, in
the state the check left, it calls `MarkAsProcessed`; when that call returns nil the
message is acknowledged (the events are the check, the marking, `session.MarkMessage` and
the log entry), and when it returns an error the events are the check, the failed marking
and its log entry. -/
theorem nonpositive_retries_skip_send {σ : Type}
    (json : String → Except GoError Notification)
    (h : ConsumerHandler σ) (msg : ConsumerMessage) (w w1 : σ) (n : Notification)
    (hr : h.retries ≤ 0) (hj : json msg.Value = Except.ok n)
    (hc : h.repo.CheckIfProcessed Context.Background n.ID w = ((false, none), w1)) :
    sendCount (events (processMessage json h msg w).1) = 0 ∧
    sleepCount (events (processMessage json h msg w).1) = 0 ∧
    (∀ w3, h.repo.MarkAsProcessed Context.Background n.ID w1 = (none, w3) →
      events (processMessage json h msg w).1 =
        [Event.checkIfProcessed n.ID false none,
         Event.markAsProcessed n.ID none,
         Event.markMessage msg,
         Event.log LogLevel.Info "Notification processed" none] ∧
      (processMessage json h msg w).2 = w3) ∧
    (∀ err w3, h.repo.MarkAsProcessed Context.Background n.ID w1 = (some err, w3) →
      events (processMessage json h msg w).1 =
        [Event.checkIfProcessed n.ID false none,
         Event.markAsProcessed n.ID (some err),
         Event.log LogLevel.Error "Failed to mark notification as processed" (some err)] ∧
      (processMessage json h msg w).2 = w3) := by
  have hloop : retryLoop h n 1 w1 = ([], w1) := retryLoop_exit h n 1 w1 (by omega)
  rcases hm : h.repo.MarkAsProcessed Context.Background n.ID w1 with ⟨r, w3⟩
  cases r with
  | none =>
    have hm1 : h.repo.MarkAsProcessed Context.Background n.ID (retryLoop h n 1 w1).2
        = (none, w3) := by rw [hloop]; exact hm
    rw [processMessage_acked json h msg w w1 w3 n hj hc hm1, hloop]
    refine ⟨by simp [events, sendCount, Event.isSend],
      by simp [events, sleepCount, Event.isSleep], ?_, ?_⟩
    · intro w4 h4
      cases h4
      exact ⟨by simp [events], rfl⟩
    · intro err w4 h4
      cases h4
  | some e =>
    have hm1 : h.repo.MarkAsProcessed Context.Background n.ID (retryLoop h n 1 w1).2
        = (some e, w3) := by rw [hloop]; exact hm
    rw [processMessage_mark_error json h msg w w1 w3 n e hj hc hm1, hloop]
    refine ⟨by simp [events, sendCount, Event.isSend],
      by simp [events, sleepCount, Event.isSleep], ?_, ?_⟩
    · intro w4 h4
      cases h4
    · intro err w4 h4
      cases h4
      exact ⟨by simp [events], rfl⟩

/-- C26, witness: the handler of `main.go` with retry limit 0, the email `n1`, a healthy
store and a sender that would fail. -/
theorem nonpositive_retries_skip_send_witness :
    (mainHandler 0).retries ≤ 0 ∧
    sampleUnmarshal emailMessage.Value = Except.ok sampleEmail ∧
    (sendCount (events zeroRetriesRun.1) = 0 ∧
     sleepCount (events zeroRetriesRun.1) = 0 ∧
     (∀ w3, (mainHandler 0).repo.MarkAsProcessed Context.Background sampleEmail.ID
        (sampleWorld [] [] [some ErrEmailSend]) = (none, w3) →
       events zeroRetriesRun.1 =
         [Event.checkIfProcessed sampleEmail.ID false none,
          Event.markAsProcessed sampleEmail.ID none,
          Event.markMessage emailMessage,
          Event.log LogLevel.Info "Notification processed" none] ∧
       zeroRetriesRun.2 = w3) ∧
     (∀ err w3, (mainHandler 0).repo.MarkAsProcessed Context.Background sampleEmail.ID
        (sampleWorld [] [] [some ErrEmailSend]) = (some err, w3) →
       events zeroRetriesRun.1 =
         [Event.checkIfProcessed sampleEmail.ID false none,
          Event.markAsProcessed sampleEmail.ID (some err),
          Event.log LogLevel.Error "Failed to mark notification as processed" (some err)] ∧
       zeroRetriesRun.2 = w3)) := by
  have hj : sampleUnmarshal emailMessage.Value = Except.ok sampleEmail := by
    simp [sampleUnmarshal, emailMessage, sampleMessage, sampleEmail]
  have hr : (mainHandler 0).retries ≤ 0 := by
    simp [mainHandler, pipelineHandler]
  exact ⟨hr, hj, nonpositive_retries_skip_send sampleUnmarshal (mainHandler 0) emailMessage
    (sampleWorld [] [] [some ErrEmailSend]) (sampleWorld [] [] [some ErrEmailSend])
    sampleEmail hr hj
    (by simp [mainHandler, pipelineHandler, Repository.asInterface,
      Repository.CheckIfProcessed, DB.First, DB.advance, sampleWorld, sampleEmail])⟩

/-! ## The endpoint of the pool -/

/-- C27: with the port `2525` configured, `newSMTPPool` dials `smtp.example.com:2525`,
and a `Get` on the emptied pool dials `smtp.example.com:587`. -/
theorem on_demand_dial_ignores_port :
    port2525.1 = Except.ok { emptied2525 with conns := [0] } ∧
    port2525.2.1.clients.map ClientState.addr = ["smtp.example.com:2525"] ∧
    (smtpPool.Get { emptied2525 with conns := [0] } port2525.2.1).1 = Except.ok 0 ∧
    (smtpPool.Get { emptied2525 with conns := [0] } port2525.2.1).2.1 = emptied2525 ∧
    onDemand2525.1 = Except.ok 1 ∧
    onDemand2525.2.2.1.clients.map ClientState.addr =
      ["smtp.example.com:2525", "smtp.example.com:587"] :=
  ⟨rfl, by decide, rfl, rfl, rfl, by decide⟩

/-! ## Topics -/

/-- C28, counterexample: the topic `SendNotification` publishes an in-app notification to,
`inapp-notifications`, is not among the topics `ConsumeNotifications` subscribes to. -/
theorem inapp_topic_not_subscribed :
    SendNotification.topic InAppNotification = "inapp-notifications" ∧
    SendNotification.topic InAppNotification ∉ ConsumeNotifications.topics := by
  decide

/-- C28, amended: of the notification types the service defines, `email` is the only one
whose topic is among the topics `ConsumeNotifications` subscribes to; the topics of
`inapp` and `otp` are not subscribed. -/
theorem only_email_topic_subscribed (t : NotificationType) (ht : t ∈ definedTypes) :
    SendNotification.topic t ∈ ConsumeNotifications.topics ↔ t = EmailNotification := by
  simp only [definedTypes, List.mem_cons, List.mem_singleton, List.not_mem_nil, or_false] at ht
  rcases ht with rfl | rfl | rfl <;> decide

/-- C28, witness: the type `email`, whose topic is subscribed. -/
theorem only_email_topic_subscribed_witness :
    EmailNotification ∈ definedTypes ∧
    (SendNotification.topic EmailNotification ∈ ConsumeNotifications.topics ↔
      EmailNotification = EmailNotification) :=
  ⟨by decide, only_email_topic_subscribed EmailNotification (by decide)⟩

/-! ## The OTP store -/

/-- C29: `GetOTP` after `SaveOTP` does not return the OTP. `SaveOTP(sampleOTP)` succeeds
and stores the key `otp:a@b.com` until the OTP expires; `GetOTP("a@b.com")` one minute
later, four minutes before expiry, returns the zero OTP and the error
`OTP not found for email: a@b.com`. For every store, email and decoder, `GetOTP` returns
an error. -/
theorem get_otp_after_save_not_found :
    afterSaveOTP.1 = none ∧
    afterSaveOTP.2.entries =
      [{ key := "otp:a@b.com", value := "123456|a@b.com|u1",
         expiresAt := 1700000300 * Second }] ∧
    getAfterSave.1 = (OTP.zero, some "OTP not found for email: a@b.com") ∧
    (∀ (jsonUnmarshal : String → Except GoError OTP) (ctx : Context) (email : String)
      (rs : RedisStore), (RedisClient.GetOTP jsonUnmarshal ctx email rs).1.2 ≠ none) := by
  refine ⟨by decide, by decide, by decide, ?_⟩
  intro jsonUnmarshal ctx email rs
  unfold RedisClient.GetOTP
  by_cases h1 : (rs.Get ("otp:" ++ email)).1.2 = some RedisError.Nil
  · simp [h1]
  · simp [h1]

/-! ## Paging -/

/-- C30: the handler does not default the page size. For a request with page 1 and page
size 0 it passes page 10 and page size 0 to the service; for page size -5 it passes page
10 and page size -5, and the repository's offset is -45. For every request the page size
passed is the one received, and the page passed is at least 1. -/
theorem page_size_not_defaulted :
    Handler.GetAllNotifications.arguments zeroSizeRequest =
      { userId := "u1", page := 10, pageSize := 0, isRead := none, notifyType := none } ∧
    Handler.GetAllNotifications.arguments negativeSizeRequest =
      { userId := "u1", page := 10, pageSize := -5, isRead := none, notifyType := none } ∧
    pageOffset (Handler.GetAllNotifications.arguments negativeSizeRequest).page
      (Handler.GetAllNotifications.arguments negativeSizeRequest).pageSize = -45 ∧
    (∀ req : GetAllNotificationsRequest,
      (Handler.GetAllNotifications.arguments req).pageSize = req.PageSize ∧
      1 ≤ (Handler.GetAllNotifications.arguments req).page) := by
  refine ⟨by decide, by decide, by decide, ?_⟩
  intro req
  refine ⟨rfl, ?_⟩
  simp only [Handler.GetAllNotifications.arguments]
  split_ifs <;> omega

/-! ## The token bucket -/

section TokenBucketLemmas

/-- The bucket of a key after `j` tokens of a full bucket were taken at the instant `now`,
none of them waited for. -/
theorem wait_with_token (now : Int) (ctx : Context) (limiter : Limiter TokenBucket) (q : ℚ)
    (j : Nat) (hq : limiter.limit.rate? = some q) (hpos : 0 < q)
    (hc : ctx.cancelled = false) (hd : ctx.deadline = none)
    (hlast : limiter.state.last = now)
    (htok : limiter.state.tokens = (limiter.burst : ℚ) - j)
    (hj : (j : Int) < limiter.burst) :
    (tokenBucketAt now).Wait ctx limiter =
      (none, { limiter with
        state := { tokens := (limiter.burst : ℚ) - (j + 1 : Nat), last := now,
                   delays := limiter.state.delays ++ [0] } }) := by
  have hb : ¬ limiter.burst < 1 := by omega
  have hq0 : ¬ q ≤ 0 := not_le.mpr hpos
  have hjq : ((j : Int) : ℚ) + 1 ≤ (limiter.burst : ℚ) := by exact_mod_cast hj
  have hrefill : limiter.state.refill q limiter.burst now = (limiter.burst : ℚ) - j := by
    unfold TokenBucket.refill
    rw [hlast, htok]
    simp
  have hnn : ¬ ((limiter.burst : ℚ) - j - 1 < 0) := by
    push_neg
    have : ((j : Int) : ℚ) = (j : ℚ) := by norm_cast
    linarith
  simp only [tokenBucketAt, hq, hb, hc, hq0, hd, hrefill, hnn, if_false, Bool.false_eq_true]
  congr 3
  push_cast
  ring

/-- The wait on an empty bucket: the caller is blocked for the time the rate takes to
make one token. -/
theorem wait_without_token (now : Int) (ctx : Context) (limiter : Limiter TokenBucket)
    (q : ℚ) (hq : limiter.limit.rate? = some q) (hpos : 0 < q)
    (hc : ctx.cancelled = false) (hd : ctx.deadline = none)
    (hlast : limiter.state.last = now) (htok : limiter.state.tokens = 0)
    (hb : 1 ≤ limiter.burst) :
    (tokenBucketAt now).Wait ctx limiter =
      (none, { limiter with
        state := { tokens := -1, last := now,
                   delays := limiter.state.delays ++ [Rat.floor (10 ^ 9 / q)] } }) := by
  have hb1 : ¬ limiter.burst < 1 := by omega
  have hq0 : ¬ q ≤ 0 := not_le.mpr hpos
  have hbq : (0 : ℚ) ≤ (limiter.burst : ℚ) := by
    have : (0 : Int) ≤ limiter.burst := by omega
    exact_mod_cast this
  have hrefill : limiter.state.refill q limiter.burst now = 0 := by
    unfold TokenBucket.refill
    rw [hlast, htok]
    simp [hbq]
  simp [tokenBucketAt, hq, hb1, hc, hq0, hd, hrefill, waitDuration]

/-- From a bucket that `j` of its `burst` tokens have left at the instant `now`, the
next `k + 1` calls made at that instant, where `j + k = burst`: all return nil, the first
`k` without delay, the last after the time the rate takes to make one token. -/
theorem allowTimes_from (now : Int) (ctx : Context) (key : String) (rate : Float64)
    (burst : Int) (q : ℚ) (hq : rate.rate? = some q) (hpos : 0 < q) (hb : 1 ≤ burst)
    (hc : ctx.cancelled = false) (hd : ctx.deadline = none) (k : Nat) :
    ∀ (j : Nat) (r : RateLimiter TokenBucket) (delays : List Int),
      (j : Int) + k = burst →
      r.bucket (tokenBucketAt now) key =
        { limit := rate, burst := burst,
          state := { tokens := (burst : ℚ) - j, last := now, delays := delays } } →
      (RateLimiter.allowTimes (tokenBucketAt now) ctx key (k + 1) r).1
        = List.replicate (k + 1) none ∧
      (RateLimiter.allowTimes (tokenBucketAt now) ctx key (k + 1) r).2.delaysOf key
        = delays ++ List.replicate k 0 ++ [Rat.floor (10 ^ 9 / q)] := by
  induction k with
  | zero =>
    intro j r delays hjk hbucket
    have hj : (j : ℚ) = (burst : ℚ) := by
      have : (j : Int) = burst := by omega
      exact_mod_cast congrArg (fun z : Int => (z : ℚ)) this
    have hw := wait_without_token now ctx
      { limit := rate, burst := burst,
        state := { tokens := (burst : ℚ) - j, last := now, delays := delays } } q
      hq hpos hc hd rfl (by simp [hj]) hb
    have hall := allow_limiters (tokenBucketAt now) r ctx key
    have hres := allow_result (tokenBucketAt now) r ctx key
    rw [hbucket, hw] at hall hres
    constructor
    · simp only [RateLimiter.allowTimes, hres]
      rfl
    · simp only [RateLimiter.allowTimes, hall, RateLimiter.delaysOf]
      simp
  | succ k ih =>
    intro j r delays hjk hbucket
    have hw := wait_with_token now ctx
      { limit := rate, burst := burst,
        state := { tokens := (burst : ℚ) - j, last := now, delays := delays } } q j
      hq hpos hc hd rfl rfl (by show (j : Int) < burst; omega)
    have hall := allow_limiters (tokenBucketAt now) r ctx key
    have hres := allow_result (tokenBucketAt now) r ctx key
    rw [hbucket, hw] at hall hres
    have hnext : (RateLimiter.Allow (tokenBucketAt now) r ctx key).2.bucket
        (tokenBucketAt now) key =
        { limit := rate, burst := burst,
          state := { tokens := (burst : ℚ) - (j + 1 : Nat), last := now,
                     delays := delays ++ [0] } } := by
      rw [hall]
      simp [RateLimiter.bucket]
    obtain ⟨h1, h2⟩ := ih (j + 1) (RateLimiter.Allow (tokenBucketAt now) r ctx key).2
      (delays ++ [0]) (by push_cast; omega) hnext
    constructor
    · rw [RateLimiter.allowTimes]
      simp only [hres, h1]
      rfl
    · rw [RateLimiter.allowTimes]
      simp only [h2]
      simp [List.replicate_succ]

/-- The cut to whole nanoseconds loses less than one nanosecond. -/
theorem floor_interval (q : ℚ) :
    ((Rat.floor (10 ^ 9 / q) : Int) : ℚ) ≤ 10 ^ 9 / q ∧
    10 ^ 9 / q < ((Rat.floor (10 ^ 9 / q) : Int) : ℚ) + 1 := by
  have h : Rat.floor (10 ^ 9 / q) = ⌊(10 ^ 9 / q : ℚ)⌋ := rfl
  rw [h]
  exact ⟨Int.floor_le _, Int.lt_floor_add_one _⟩

end TokenBucketLemmas

/-- C18. With a burst of `b >= 1` tokens and a rate of `q > 0` tokens per second, for a
key that has no bucket yet, `b + 1` `Allow` calls made at one instant, with a context
that is neither cancelled nor bounded by a deadline, all return nil: the first `b` are
not blocked at all, and the last is blocked for the inter-arrival interval `1/q` seconds,
in whole nanoseconds (`time.Duration`): the number `d` of nanoseconds satisfies
`d <= 10^9 / q < d + 1`. -/
theorem burst_then_one_interval (now : Int) (ctx : Context) (key : String)
    (r : RateLimiter TokenBucket) (q : ℚ)
    (hfresh : r.limiters key = none) (hq : r.rate.rate? = some q) (hpos : 0 < q)
    (hb : 1 ≤ r.burst) (hc : ctx.cancelled = false) (hd : ctx.deadline = none) :
    (RateLimiter.allowTimes (tokenBucketAt now) ctx key (r.burst.toNat + 1) r).1
      = List.replicate (r.burst.toNat + 1) none ∧
    (RateLimiter.allowTimes (tokenBucketAt now) ctx key (r.burst.toNat + 1) r).2.delaysOf key
      = List.replicate r.burst.toNat 0 ++ [Rat.floor (10 ^ 9 / q)] ∧
    ((Rat.floor (10 ^ 9 / q) : Int) : ℚ) ≤ 10 ^ 9 / q ∧
    10 ^ 9 / q < ((Rat.floor (10 ^ 9 / q) : Int) : ℚ) + 1 := by
  have hbucket : r.bucket (tokenBucketAt now) key =
      { limit := r.rate, burst := r.burst,
        state := { tokens := (r.burst : ℚ) - (0 : Nat), last := now, delays := [] } } := by
    simp [RateLimiter.bucket, hfresh, tokenBucketAt]
  obtain ⟨h1, h2⟩ := allowTimes_from now ctx key r.rate r.burst q hq hpos hb hc hd
    r.burst.toNat 0 r [] (by push_cast; omega) hbucket
  exact ⟨h1, by simpa using h2, floor_interval q⟩

/-- C18, witness: the rate limiter of `NewEmailSender`, 10 tokens per second with a burst
of 20, and 21 calls for one recipient. -/
theorem burst_then_one_interval_witness :
    (NewRateLimiter Float64.ten 20 : RateLimiter TokenBucket).limiters "a@b.com" = none ∧
    Float64.ten.rate? = some 10 ∧
    (burstAndOne.1 = List.replicate 21 none ∧
     burstAndOne.2.delaysOf "a@b.com" = List.replicate 20 0 ++ [Rat.floor (10 ^ 9 / 10)] ∧
     ((Rat.floor (10 ^ 9 / 10) : Int) : ℚ) ≤ 10 ^ 9 / 10 ∧
     (10 ^ 9 / 10 : ℚ) < ((Rat.floor (10 ^ 9 / 10) : Int) : ℚ) + 1) :=
  ⟨rfl, by decide,
    burst_then_one_interval (1700000000 * Second) Context.Background "a@b.com"
      (NewRateLimiter Float64.ten 20) 10 rfl (by decide) (by norm_num)
      (by decide) rfl rfl⟩


section TokenBucketEvaluation

theorem burstAndOne_delays :
    burstAndOne.1 = List.replicate 21 none ∧
    burstAndOne.2.delaysOf "a@b.com" = List.replicate 20 0 ++ [100000000] := by
  have hbucket : (NewRateLimiter Float64.ten 20 : RateLimiter TokenBucket).bucket
      (tokenBucketAt (1700000000 * Second)) "a@b.com" =
      { limit := Float64.ten, burst := 20,
        state := { tokens := ((20 : Int) : ℚ) - (0 : Nat), last := 1700000000 * Second,
                   delays := [] } } := by
    simp [RateLimiter.bucket, NewRateLimiter, tokenBucketAt]
  obtain ⟨h1, h2⟩ := allowTimes_from (1700000000 * Second) Context.Background "a@b.com"
    Float64.ten 20 10 (by decide) (by norm_num) (by decide) rfl rfl 20 0
    (NewRateLimiter Float64.ten 20) [] (by decide) hbucket
  have hfloor : Rat.floor (10 ^ 9 / 10) = 100000000 := by
    rw [show (10 ^ 9 / 10 : ℚ) = ((100000000 : Int) : ℚ) by norm_num]
    exact (Int.floor_intCast (100000000 : Int) : ⌊((100000000 : Int) : ℚ)⌋ = 100000000)
  refine ⟨h1, ?_⟩
  rw [burstAndOne, h2, hfloor]
  rfl

/-- A limiter with a burst of zero admits no event: the library refuses the wait, and
`Allow` returns `ErrRateLimit` at once. -/
theorem allow_zero_burst (now : Int) (ctx : Context) (key : String) (rate : Float64) (q : ℚ)
    (hq : rate.rate? = some q) :
    (RateLimiter.Allow (tokenBucketAt now) (NewRateLimiter rate 0) ctx key).1
      = some ErrRateLimit := by
  rw [allow_result]
  simp [RateLimiter.bucket, NewRateLimiter, tokenBucketAt, hq]

end TokenBucketEvaluation

end NotificationSrv
